import Mathlib

/-!
# ZCounting: tag-and-probe Z counting (DQMOffline/Lumi/plugins/ZCounting.cc)

A shallow embedding of the event analysis of `ZCounting.cc`.

* Histograms are a write-only sink: every `Fill` call of the source becomes one
  element of a list of fills, in program order.
* `float`/`double` quantities are rationals; rounding and NaN are not modelled.
* Collections are lists; the address of an element of a `std::vector` is its
  position, so `&a == &b` is equality of positions and `&a > &b` is `>` on positions.
* An `edm::Handle` is an `Option`; dereferencing an invalid handle, a null
  reference or an out-of-range index throws, which is an `Exc`.
-/

namespace ZCounting

/-! ## Histogram sink -/

/-- The histograms booked in `bookHistograms`. -/
inductive Hist where
  | h_mass_HLT_pass_central
  | h_mass_HLT_pass_forward
  | h_mass_HLT_fail_central
  | h_mass_HLT_fail_forward
  | h_mass_SIT_pass_central
  | h_mass_SIT_pass_forward
  | h_mass_SIT_fail_central
  | h_mass_SIT_fail_forward
  | h_mass_Sta_pass_central
  | h_mass_Sta_pass_forward
  | h_mass_Sta_fail_central
  | h_mass_Sta_fail_forward
  | h_npv
  | h_yield_Z
  | h_ee_mass_id_pass
  | h_ee_mass_id_fail
  | h_ee_mass_HLT_pass
  | h_ee_mass_HLT_fail
  | h_ee_yield_Z
  deriving DecidableEq, Repr

/-- One call `h->Fill(x)` (`value = none`) or `h->Fill(x, y)` (`value = some y`). -/
structure Fill where
  hist : Hist
  lumi : Nat
  value : Option ℚ
  deriving DecidableEq

/-- What a throwing operation of the framework raises. -/
inductive Exc where
  | invalidHandle
  | nullRef
  | outOfRange
  deriving DecidableEq, Repr

/-- The fills made by a piece of code and the exception that ended it, if any. -/
structure Out where
  fills : List Fill
  exc : Option Exc
  deriving DecidableEq

/-- A `for` loop whose body fills histograms and may throw: the bodies run in
order and the first exception ends the loop. -/
def forEach {α : Type} (body : α → Out) : List α → Out
  | [] => ⟨[], none⟩
  | x :: rest =>
    match body x with
    | ⟨fs, some e⟩ => ⟨fs, some e⟩
    | ⟨fs, none⟩ =>
      let o := forEach body rest
      ⟨fs ++ o.fills, o.exc⟩

/-! ## Data model -/

structure Vertex where
  isFake : Bool
  tracksSize : Nat
  ndof : ℚ
  z : ℚ
  /-- The value of `position().Rho()`. -/
  rho : ℚ
  deriving DecidableEq

structure HitPattern where
  trackerLayersWithMeasurement : Nat
  numberOfValidPixelHits : Nat
  deriving DecidableEq

structure Track where
  pt : ℚ
  eta : ℚ
  phi : ℚ
  charge : Int
  hitPattern : HitPattern
  deriving DecidableEq

/-- A non-null `reco::TrackRef`: the track it points to and, when that track is
an element of the event's track collection, its position there. -/
structure TrackRef where
  key : Option Nat
  track : Track
  deriving DecidableEq

structure MuonPFIsolation where
  sumChargedHadronPt : ℚ
  sumNeutralHadronEt : ℚ
  sumPhotonEt : ℚ
  sumPUPt : ℚ
  deriving DecidableEq

/-- A `reco::Muon`. The selectors of `MuonSelectors.h` are external to
`ZCounting.cc` and enter as the decisions they return for this muon. -/
structure Muon where
  muonBestTrack : Track
  innerTrack : Option TrackRef
  isGlobalMuon : Bool
  isStandAloneMuon : Bool
  isLooseMuon : Bool
  isMediumMuon : Bool
  isTightMuon : Vertex → Bool
  isolationR03_sumPt : ℚ
  pfIsolationR04 : MuonPFIsolation

structure SuperCluster where
  energy : ℚ
  eta : ℚ
  phi : ℚ
  deriving DecidableEq

/-- A `reco::GsfElectron`; `passID` is the decision of `EleID_.passID` for this
electron under the conditioning of the current event. -/
structure Electron where
  pt : ℚ
  eta : ℚ
  phi : ℚ
  charge : Int
  superCluster : SuperCluster
  passID : Bool
  deriving DecidableEq

/-- A `TLorentzVector` after `SetPtEtaPhiM`. -/
structure TLorentzVector where
  pt : ℚ
  eta : ℚ
  phi : ℚ
  m : ℚ
  deriving DecidableEq

inductive MuonIDTypes where
  | NoneID
  | LooseID
  | MediumID
  | TightID
  deriving DecidableEq, Repr

inductive MuonIsoTypes where
  | NoneIso
  | TrackerIso
  | PFIso
  deriving DecidableEq, Repr

/-- The configuration read by the constructor, the constants of `ZCounting.h`
and the external numeric and matching routines the analysis calls. -/
structure Config where
  IDType_ : MuonIDTypes
  IsoType_ : MuonIsoTypes
  IsoCut_ : ℚ
  PtCutL1_ : ℚ
  PtCutL2_ : ℚ
  EtaCutL1_ : ℚ
  EtaCutL2_ : ℚ
  MassMin_ : ℚ
  MassMax_ : ℚ
  VtxNTracksFitCut_ : ℚ
  VtxNdofCut_ : ℚ
  VtxAbsZCut_ : ℚ
  VtxRhoCut_ : ℚ
  ELE_PT_CUT_TAG : ℚ
  ELE_PT_CUT_PROBE : ℚ
  ELE_ETA_CUT_TAG : ℚ
  ELE_ETA_CUT_PROBE : ℚ
  /-- Constants declared in `ZCounting.h`. -/
  MUON_MASS : ℚ
  MUON_BOUND : ℚ
  ELECTRON_MASS : ℚ
  ELE_ETA_CRACK_LOW : ℚ
  ELE_ETA_CRACK_HIGH : ℚ
  /-- The value of `(v1 + v2).M()`. -/
  sumM : TLorentzVector → TLorentzVector → ℚ
  /-- The value of `sc->energy() * TMath::Sqrt(1 - pow(TMath::TanH(sc->eta()),2))`. -/
  clusterPt : SuperCluster → ℚ
  /-- The `operator==` of superclusters. -/
  scEq : SuperCluster → SuperCluster → Bool
  /-- Whether a path name matches a wildcard pattern, as decided inside `edm::regexMatch`. -/
  globMatch : String → String → Bool

/-! ## Trigger records -/

/-- The value `(unsigned int)-1`. -/
def invalidIndex : Nat := 2 ^ 32 - 1

structure TriggerRecord where
  hltPattern : String
  hltPathName : String
  hltPathIndex : Nat
  baconTrigBit : Nat
  objectMap : List (String × Nat)
  deriving DecidableEq

structure TTrigger where
  fRecords : List TriggerRecord
  deriving DecidableEq

/-- A `TriggerBits` bitset, as the list of the bits that were set. -/
abbrev TriggerBits := List Nat

/-- An `edm::TriggerNames`: the ordered path names of a menu and the id of the menu. -/
structure TriggerNames where
  triggerNames : List String
  parameterSetID : Nat
  deriving DecidableEq

/-- An `edm::TriggerResults`: `accept.length` is `result.size()`, `accept[i]` is
`result.accept(i)`, and `names` is what `iEvent.triggerNames(result)` returns. -/
structure TriggerResults where
  accept : List Bool
  names : TriggerNames
  deriving DecidableEq

/-- Modelled from the spec: `trigger::TriggerEvent` together with
`TriggerTools::matchHLT` and `TTrigger::passObj`, which are not under src. The
spec consumes them as the query "is there a trigger object within the angular
threshold of (eta, phi) satisfying filter Y", purely geometric. -/
structure TriggerEvent where
  objectMatches : String → ℚ → ℚ → Bool

/-- The members of the module that persist from event to event. -/
structure State where
  fTriggerNamesID : Nat
  fTrigger : TTrigger
  deriving DecidableEq

structure Event where
  luminosityBlock : Nat
  hVertexProduct : Option (List Vertex)
  hTrgRes : Option TriggerResults
  hTrgEvt : Option TriggerEvent
  hMuonProduct : Option (List Muon)
  hTrackProduct : Option (List Track)
  electrons : Option (List Electron)
  superclusters : Option (List SuperCluster)
  rhoHandle : Option ℚ
  beamspotHandle : Option Unit
  conversionsHandle : Option Unit

/-- The outcome of analysing one event. -/
structure Run where
  state : State
  fills : List Fill
  exc : Option Exc
  deriving DecidableEq

/-! ## Vertex selection -/

/-- One iteration of the vertex loop of `analyzeMuons` on the pair `(pv, nvtx)`. -/
def vertexStep (cfg : Config) (acc : Option Vertex × Nat) (itVtx : Vertex) : Option Vertex × Nat :=
  if itVtx.isFake then acc
  else if (itVtx.tracksSize : ℚ) < cfg.VtxNTracksFitCut_ then acc
  else if itVtx.ndof < cfg.VtxNdofCut_ then acc
  else if |itVtx.z| > cfg.VtxAbsZCut_ then acc
  else if itVtx.rho > cfg.VtxRhoCut_ then acc
  else (if acc.2 = 0 then some itVtx else acc.1, acc.2 + 1)

/-- The vertex loop of `analyzeMuons`: `pv` starts at `pvCol->begin()` and
`nvtx` at 0. -/
def vertexScan (cfg : Config) (pvCol : List Vertex) : Option Vertex × Nat :=
  pvCol.foldl (vertexStep cfg) (pvCol.head?, 0)

/-- One iteration of the vertex loop of `analyzeElectrons` on `nvtx`. -/
def vertexCountStep (cfg : Config) (nvtx : Nat) (itVtx : Vertex) : Nat :=
  if itVtx.isFake then nvtx
  else if (itVtx.tracksSize : ℚ) < cfg.VtxNTracksFitCut_ then nvtx
  else if itVtx.ndof < cfg.VtxNdofCut_ then nvtx
  else if |itVtx.z| > cfg.VtxAbsZCut_ then nvtx
  else if itVtx.rho > cfg.VtxRhoCut_ then nvtx
  else nvtx + 1

/-- The vertex loop of `analyzeElectrons`. -/
def vertexCount (cfg : Config) (pvCol : List Vertex) : Nat :=
  pvCol.foldl (vertexCountStep cfg) 0

/-- The quality predicate of the specification: not fake, enough tracks and
degrees of freedom, close enough to the origin along z and in the transverse plane. -/
def Vertex.qualifies (cfg : Config) (v : Vertex) : Bool :=
  !v.isFake && decide (cfg.VtxNTracksFitCut_ ≤ (v.tracksSize : ℚ)) && decide (cfg.VtxNdofCut_ ≤ v.ndof)
    && decide (|v.z| ≤ cfg.VtxAbsZCut_) && decide (v.rho ≤ cfg.VtxRhoCut_)

/-! ## Trigger menu resolution -/

/-- Modelled from the spec: `edm::is_glob` is not under src; the pattern
"contains wildcard syntax", which the comment at its call site gives as `*` and `?`. -/
def is_glob (pattern : String) : Bool :=
  pattern.data.any (fun c => c == '*' || c == '?')

/-- The names returned by `edm::regexMatch(names, pattern)`: the names of the
menu that match, in menu order. -/
def regexMatch (cfg : Config) (names : List String) (pattern : String) : List String :=
  names.filter (cfg.globMatch pattern)

/-- Modelled from the spec: `edm::TriggerNames::triggerIndex` is not under src;
it gives the position of the path name in the menu, and the size of the menu for
a name that is not in it. -/
def TriggerNames.triggerIndex (t : TriggerNames) (name : String) : Nat :=
  t.triggerNames.indexOf name

/-- The body of the loop of `initHLT` for one record. -/
def initRecord (cfg : Config) (result : TriggerResults) (triggerNames : TriggerNames)
    (rec : TriggerRecord) : TriggerRecord :=
  let pattern := rec.hltPattern
  let hltPathName :=
    if is_glob pattern then
      let found := regexMatch cfg triggerNames.triggerNames pattern
      if found.isEmpty then "" else found.foldl (fun _ m => m) ""
    else pattern
  let index := triggerNames.triggerIndex hltPathName
  { rec with
    hltPathName := hltPathName
    hltPathIndex := if index < result.accept.length then index else invalidIndex }

def initHLT (cfg : Config) (result : TriggerResults) (triggerNames : TriggerNames)
    (fTrigger : TTrigger) : TTrigger :=
  ⟨fTrigger.fRecords.map (initRecord cfg result triggerNames)⟩

/-- The `config_changed` block shared by both channels. -/
def updateTrigger (cfg : Config) (st : State) (hTrgRes : TriggerResults) : State :=
  let triggerNames := hTrgRes.names
  if st.fTriggerNamesID ≠ triggerNames.parameterSetID then
    ⟨triggerNames.parameterSetID, initHLT cfg hTrgRes triggerNames st.fTrigger⟩
  else st

/-- The loop that fills `triggerBits` from the records; `accept` throws on an
index that is out of range. -/
def fillTriggerBits (hTrgRes : TriggerResults) : List TriggerRecord → Except Exc TriggerBits
  | [] => .ok []
  | rec :: rest =>
    if rec.hltPathIndex = invalidIndex then fillTriggerBits hTrgRes rest
    else
      match hTrgRes.accept[rec.hltPathIndex]? with
      | none => .error .outOfRange
      | some a =>
        match fillTriggerBits hTrgRes rest with
        | .error e => .error e
        | .ok bits => .ok (if a then rec.baconTrigBit :: bits else bits)

/-- Modelled from the spec: `TTrigger::pass` is not under src; "eventPasses" is
true iff the bit of the record configured under that trigger name is set. -/
def TTrigger.pass (triggerMenu : TTrigger) (iName : String) (iTrig : TriggerBits) : Bool :=
  match triggerMenu.fRecords.find? (fun r => r.hltPattern == iName) with
  | none => false
  | some r => iTrig.contains r.baconTrigBit

def isMuonTrigger (triggerMenu : TTrigger) (hltBits : TriggerBits) : Bool :=
  triggerMenu.pass "HLT_IsoMu27_v*" hltBits

def isElectronTrigger (triggerMenu : TTrigger) (hltBits : TriggerBits) : Bool :=
  triggerMenu.pass "HLT_Ele35_WPTight_Gsf_v*" hltBits

/-- The call `isMuonTriggerObj(*fTrigger, TriggerTools::matchHLT(eta, phi, fTrigger->fRecords, *hTrgEvt))`. -/
def isMuonTriggerObj (hTrgEvt : TriggerEvent) (eta phi : ℚ) : Bool :=
  hTrgEvt.objectMatches "hltL3crIsoL1sMu22Or25L1f0L2f10QL3f27QL3trkIsoFiltered0p07" eta phi

/-- The call `isElectronTriggerObj(*fTrigger, TriggerTools::matchHLT(eta, phi, fTrigger->fRecords, *hTrgEvt))`. -/
def isElectronTriggerObj (hTrgEvt : TriggerEvent) (eta phi : ℚ) : Bool :=
  hTrgEvt.objectMatches "hltEle35noerWPTightGsfTrackIsoFilter" eta phi

/-- The call `fTrigger.reset(new ZCountingTrigger::TTrigger())` of `dqmBeginRun`:
the records are replaced by those the constructor of `TTrigger` builds, which is
not under src and enters as `newTrigger`; `fTriggerNamesID` is left as it is. -/
def dqmBeginRun (newTrigger : TTrigger) (st : State) : State :=
  { st with fTrigger := newTrigger }

/-! ## Muon selection -/

def passMuonID (muon : Muon) (vtx : Vertex) (idType : MuonIDTypes) : Bool :=
  if idType = .LooseID ∧ muon.isLooseMuon = true then true
  else if idType = .MediumID ∧ muon.isMediumMuon = true then true
  else if idType = .TightID ∧ muon.isTightMuon vtx = true then true
  else if idType = .NoneID then true
  else false

def passMuonIso (muon : Muon) (isoType : MuonIsoTypes) (isoCut : ℚ) : Bool :=
  if isoType = .TrackerIso ∧ muon.isolationR03_sumPt < isoCut then true
  else if isoType = .PFIso ∧
      muon.pfIsolationR04.sumChargedHadronPt
        + max 0 (muon.pfIsolationR04.sumNeutralHadronEt + muon.pfIsolationR04.sumPhotonEt
            - (1 / 2) * muon.pfIsolationR04.sumPUPt) < isoCut then true
  else if isoType = .NoneIso then true
  else false

/-- A fill of a mass histogram with `(iEvent.luminosityBlock(), dilepMass)`. -/
def massFill (h : Hist) (ls : Nat) (dilepMass : ℚ) : Fill := ⟨h, ls, some dilepMass⟩

/-- The fill `h_yield_Z->Fill(iEvent.luminosityBlock())`. -/
def yieldFill (h : Hist) (ls : Nat) : Fill := ⟨h, ls, none⟩

/-- The tag selection at the head of the tag loop: kinematic cuts, lepton
selection and trigger matching, the last of which dereferences `hTrgEvt`. -/
def tagSelection (cfg : Config) (pv : Vertex) (hTrgEvt : Option TriggerEvent) (itMu1 : Muon) :
    Except Exc Bool :=
  let pt1 := itMu1.muonBestTrack.pt
  let eta1 := itMu1.muonBestTrack.eta
  let phi1 := itMu1.muonBestTrack.phi
  if pt1 < cfg.PtCutL1_ then .ok false
  else if |eta1| > cfg.EtaCutL1_ then .ok false
  else if !(passMuonID itMu1 pv cfg.IDType_ && passMuonIso itMu1 cfg.IsoType_ cfg.IsoCut_) then .ok false
  else
    match hTrgEvt with
    | none => .error .invalidHandle
    | some trgEvt => if !(isMuonTriggerObj trgEvt eta1 phi1) then .ok false else .ok true

/-- The block "Determine event category for efficiency calculation" of the muon
probe loop: `tagPos` and `probePos` are the positions of tag and probe in the
muon collection, `itMu2` is the probe. -/
def muonCategoryFills (cfg : Config) (ls : Nat) (pv : Vertex) (trgEvt : TriggerEvent)
    (tagPos probePos : Nat) (itMu2 : Muon) (isTagCentral isProbeCentral : Bool)
    (dilepMass : ℚ) : Out :=
  let eta2 := itMu2.muonBestTrack.eta
  let phi2 := itMu2.muonBestTrack.phi
  if passMuonID itMu2 pv cfg.IDType_ && passMuonIso itMu2 cfg.IsoType_ cfg.IsoCut_ then
    if isMuonTriggerObj trgEvt eta2 phi2 then
      if tagPos > probePos then ⟨[], none⟩
      else
        ⟨(if isTagCentral then
            [massFill .h_mass_HLT_pass_central ls dilepMass,
             massFill .h_mass_SIT_pass_central ls dilepMass,
             massFill .h_mass_Sta_pass_central ls dilepMass]
          else
            [massFill .h_mass_HLT_pass_forward ls dilepMass,
             massFill .h_mass_SIT_pass_forward ls dilepMass,
             massFill .h_mass_Sta_pass_forward ls dilepMass])
         ++ (if isProbeCentral then
            [massFill .h_mass_HLT_pass_central ls dilepMass,
             massFill .h_mass_SIT_pass_central ls dilepMass,
             massFill .h_mass_Sta_pass_central ls dilepMass]
          else
            [massFill .h_mass_HLT_pass_forward ls dilepMass,
             massFill .h_mass_SIT_pass_forward ls dilepMass,
             massFill .h_mass_Sta_pass_forward ls dilepMass])
         ++ [yieldFill .h_yield_Z ls], none⟩
    else
      ⟨(if isProbeCentral then
          [massFill .h_mass_HLT_fail_central ls dilepMass,
           massFill .h_mass_SIT_pass_central ls dilepMass,
           massFill .h_mass_Sta_pass_central ls dilepMass]
        else
          [massFill .h_mass_HLT_fail_forward ls dilepMass,
           massFill .h_mass_SIT_pass_forward ls dilepMass,
           massFill .h_mass_Sta_pass_forward ls dilepMass])
       ++ [yieldFill .h_yield_Z ls], none⟩
  else if itMu2.isGlobalMuon then
    ⟨if isProbeCentral then
        [massFill .h_mass_SIT_fail_central ls dilepMass,
         massFill .h_mass_Sta_pass_central ls dilepMass]
      else
        [massFill .h_mass_SIT_fail_forward ls dilepMass,
         massFill .h_mass_Sta_pass_forward ls dilepMass], none⟩
  else if itMu2.isStandAloneMuon then
    ⟨if isProbeCentral then [massFill .h_mass_Sta_fail_central ls dilepMass]
      else [massFill .h_mass_Sta_fail_forward ls dilepMass], none⟩
  else
    match itMu2.innerTrack with
    | none => ⟨[], some .nullRef⟩
    | some innerTrack =>
      if innerTrack.track.hitPattern.trackerLayersWithMeasurement ≥ 6
          ∧ innerTrack.track.hitPattern.numberOfValidPixelHits ≥ 1 then
        ⟨if isProbeCentral then [massFill .h_mass_Sta_fail_central ls dilepMass]
          else [massFill .h_mass_Sta_fail_forward ls dilepMass], none⟩
      else ⟨[], none⟩

/-- The body of the probe loop over muons, for the tag at position `tag.1` and
the probe at position `probe.1` of the muon collection. -/
def muonProbe (cfg : Config) (ls : Nat) (pv : Vertex) (trgEvt : TriggerEvent)
    (tag probe : Nat × Muon) : Out :=
  let itMu1 := tag.2
  let itMu2 := probe.2
  if probe.1 = tag.1 then ⟨[], none⟩
  else
    let pt1 := itMu1.muonBestTrack.pt
    let eta1 := itMu1.muonBestTrack.eta
    let phi1 := itMu1.muonBestTrack.phi
    let q1 := itMu1.muonBestTrack.charge
    let vTag : TLorentzVector := ⟨pt1, eta1, phi1, cfg.MUON_MASS⟩
    let pt2 := itMu2.muonBestTrack.pt
    let eta2 := itMu2.muonBestTrack.eta
    let phi2 := itMu2.muonBestTrack.phi
    let q2 := itMu2.muonBestTrack.charge
    if pt2 < cfg.PtCutL2_ then ⟨[], none⟩
    else if |eta2| > cfg.EtaCutL2_ then ⟨[], none⟩
    else if q1 = q2 then ⟨[], none⟩
    else
      let vProbe : TLorentzVector := ⟨pt2, eta2, phi2, cfg.MUON_MASS⟩
      let dilepMass := cfg.sumM vTag vProbe
      if dilepMass < cfg.MassMin_ ∨ dilepMass > cfg.MassMax_ then ⟨[], none⟩
      else
        let isTagCentral : Bool := decide (|eta1| < cfg.MUON_BOUND)
        let isProbeCentral : Bool := decide (|eta2| < cfg.MUON_BOUND)
        muonCategoryFills cfg ls pv trgEvt tag.1 probe.1 itMu2 isTagCentral isProbeCentral dilepMass

/-- The body of the probe loop over tracks, for the tag `tag` and the track at
position `trk.1` of the track collection. -/
def trackProbe (cfg : Config) (ls : Nat) (muons : List Muon) (tag : Nat × Muon)
    (trk : Nat × Track) : Out :=
  let itMu1 := tag.2
  let itTrk := trk.2
  let isMuon : Bool := muons.any (fun itMu =>
    match itMu.innerTrack with
    | some innerTrack => innerTrack.key == some trk.1
    | none => false)
  if isMuon then ⟨[], none⟩
  else
    let pt1 := itMu1.muonBestTrack.pt
    let eta1 := itMu1.muonBestTrack.eta
    let phi1 := itMu1.muonBestTrack.phi
    let q1 := itMu1.muonBestTrack.charge
    let vTag : TLorentzVector := ⟨pt1, eta1, phi1, cfg.MUON_MASS⟩
    let pt2 := itTrk.pt
    let eta2 := itTrk.eta
    let phi2 := itTrk.phi
    let q2 := itTrk.charge
    if pt2 < cfg.PtCutL2_ then ⟨[], none⟩
    else if |eta2| > cfg.EtaCutL2_ then ⟨[], none⟩
    else if q1 = q2 then ⟨[], none⟩
    else
      let vTrack : TLorentzVector := ⟨pt2, eta2, phi2, cfg.MUON_MASS⟩
      let dilepMass := cfg.sumM vTag vTrack
      if dilepMass < cfg.MassMin_ ∨ dilepMass > cfg.MassMax_ then ⟨[], none⟩
      else
        let isTrackCentral : Bool := decide (|eta2| > cfg.MUON_BOUND)
        if itTrk.hitPattern.trackerLayersWithMeasurement ≥ 6
            ∧ itTrk.hitPattern.numberOfValidPixelHits ≥ 1 then
          ⟨if isTrackCentral then [massFill .h_mass_Sta_fail_central ls dilepMass]
            else [massFill .h_mass_Sta_fail_forward ls dilepMass], none⟩
        else ⟨[], none⟩

/-- The body of the tag loop of `analyzeMuons`. -/
def muonTag (cfg : Config) (ls : Nat) (pv : Vertex) (hTrgEvt : Option TriggerEvent)
    (muons : List Muon) (tracks : List Track) (tag : Nat × Muon) : Out :=
  match tagSelection cfg pv hTrgEvt tag.2, hTrgEvt with
  | .error e, _ => ⟨[], some e⟩
  | .ok false, _ => ⟨[], none⟩
  | .ok true, none => ⟨[], some .invalidHandle⟩
  | .ok true, some trgEvt =>
    match forEach (muonProbe cfg ls pv trgEvt tag) muons.enum with
    | ⟨fs, some e⟩ => ⟨fs, some e⟩
    | ⟨fs, none⟩ =>
      let o := forEach (trackProbe cfg ls muons tag) tracks.enum
      ⟨fs ++ o.fills, o.exc⟩

def analyzeMuons (cfg : Config) (st : State) (iEvent : Event) : Run :=
  match iEvent.hVertexProduct with
  | none => ⟨st, [], none⟩
  | some pvCol =>
    let scan := vertexScan cfg pvCol
    let nvtx := scan.2
    let npv : Fill := ⟨.h_npv, iEvent.luminosityBlock, some (nvtx : ℚ)⟩
    if nvtx = 0 then ⟨st, [npv], none⟩
    else
      match iEvent.hTrgRes with
      | none => ⟨st, [npv], none⟩
      | some hTrgRes =>
        let st1 := updateTrigger cfg st hTrgRes
        match fillTriggerBits hTrgRes st1.fTrigger.fRecords with
        | .error e => ⟨st1, [npv], some e⟩
        | .ok triggerBits =>
          if !(isMuonTrigger st1.fTrigger triggerBits) then ⟨st1, [npv], none⟩
          else
            match iEvent.hMuonProduct, iEvent.hTrackProduct, scan.1 with
            | none, _, _ => ⟨st1, [npv], none⟩
            | some _, none, _ => ⟨st1, [npv], none⟩
            | some _, some _, none => ⟨st1, [npv], some .nullRef⟩
            | some muons, some tracks, some pv =>
              let o := forEach (muonTag cfg iEvent.luminosityBlock pv iEvent.hTrgEvt muons tracks)
                muons.enum
              ⟨st1, npv :: o.fills, o.exc⟩

/-! ## Electron channel -/

/-- A stateful `for` loop: the body also updates a variable declared outside the
loop; the first exception ends the loop. -/
def forEachS {σ α : Type} (body : σ → α → σ × Out) : σ → List α → σ × Out
  | s, [] => (s, ⟨[], none⟩)
  | s, x :: rest =>
    match body s x with
    | (s1, ⟨fs, some e⟩) => (s1, ⟨fs, some e⟩)
    | (s1, ⟨fs, none⟩) =>
      let r := forEachS body s1 rest
      (r.1, ⟨fs ++ r.2.fills, r.2.exc⟩)

/-- The loop "Find matching electron": `eleProbe` is assigned the first electron,
other than the one at position `itag`, whose supercluster equals `sc`; when there
is none `eleProbe` keeps the value it had before the loop. -/
def findMatchingElectron (cfg : Config) (itag : Nat) (sc : SuperCluster)
    (eleProbe : Option Electron) : List (Nat × Electron) → Option Electron
  | [] => eleProbe
  | (iele, ele) :: rest =>
    if iele = itag then findMatchingElectron cfg itag sc eleProbe rest
    else if cfg.scEq sc ele.superCluster then some ele
    else findMatchingElectron cfg itag sc eleProbe rest

/-- The body of the probe loop of `analyzeElectrons` for the tag at position
`tag.1` and the supercluster `sc`; `eleProbe` is the variable declared before
the tag loop, and the body returns its new value with the fills. -/
def electronProbe (cfg : Config) (ls : Nat) (trgEvt : TriggerEvent) (electrons : List Electron)
    (tag : Nat × Electron) (eleProbe : Option Electron) (sc : SuperCluster) :
    Option Electron × Out :=
  let el1 := tag.2
  let vTag : TLorentzVector := ⟨el1.pt, el1.eta, el1.phi, cfg.ELECTRON_MASS⟩
  if cfg.scEq sc el1.superCluster then (eleProbe, ⟨[], none⟩)
  else
    let eleProbe := findMatchingElectron cfg tag.1 sc eleProbe electrons.enum
    let vProbe : TLorentzVector :=
      match eleProbe with
      | some e => ⟨e.pt, e.eta, e.phi, cfg.ELECTRON_MASS⟩
      | none => ⟨cfg.clusterPt sc, sc.eta, sc.phi, cfg.ELECTRON_MASS⟩
    let probe_pt := vProbe.pt
    let probe_abseta := |sc.eta|
    if probe_pt < cfg.ELE_PT_CUT_PROBE then (eleProbe, ⟨[], none⟩)
    else if probe_abseta > cfg.ELE_ETA_CUT_PROBE then (eleProbe, ⟨[], none⟩)
    else if probe_abseta > cfg.ELE_ETA_CRACK_LOW ∧ probe_abseta < cfg.ELE_ETA_CRACK_HIGH then
      (eleProbe, ⟨[], none⟩)
    else
      let vDilepM := cfg.sumM vTag vProbe
      let MASS_LOW : ℚ := 80
      let MASS_HIGH : ℚ := 100
      if vDilepM < MASS_LOW ∨ vDilepM > MASS_HIGH then (eleProbe, ⟨[], none⟩)
      else if (match eleProbe with
          | some e => decide (e.charge ≠ - el1.charge)
          | none => false) then (eleProbe, ⟨[], none⟩)
      else
        (eleProbe,
          ⟨yieldFill .h_ee_yield_Z ls ::
            (if isElectronTriggerObj trgEvt vProbe.eta vProbe.phi then
              [massFill .h_ee_mass_HLT_pass ls vDilepM,
               if (match eleProbe with
                  | some e => e.passID
                  | none => false) then massFill .h_ee_mass_id_pass ls vDilepM
               else massFill .h_ee_mass_id_fail ls vDilepM]
            else [massFill .h_ee_mass_HLT_fail ls vDilepM]), none⟩)

/-- The body of the tag loop of `analyzeElectrons`. -/
def electronTag (cfg : Config) (ls : Nat) (hTrgEvt : Option TriggerEvent)
    (electrons : List Electron) (superclusters : Option (List SuperCluster))
    (eleProbe : Option Electron) (tag : Nat × Electron) : Option Electron × Out :=
  let el1 := tag.2
  if !el1.passID then (eleProbe, ⟨[], none⟩)
  else
    match hTrgEvt with
    | none => (eleProbe, ⟨[], some .invalidHandle⟩)
    | some trgEvt =>
      if !(isElectronTriggerObj trgEvt el1.eta el1.phi) then (eleProbe, ⟨[], none⟩)
      else
        let tag_pt := el1.pt
        let tag_abseta := |el1.eta|
        if tag_pt < cfg.ELE_PT_CUT_TAG then (eleProbe, ⟨[], none⟩)
        else if tag_abseta > cfg.ELE_ETA_CUT_TAG then (eleProbe, ⟨[], none⟩)
        else if tag_abseta > cfg.ELE_ETA_CRACK_LOW ∧ tag_abseta < cfg.ELE_ETA_CRACK_HIGH then
          (eleProbe, ⟨[], none⟩)
        else
          match superclusters with
          | none => (eleProbe, ⟨[], some .invalidHandle⟩)
          | some scs => forEachS (electronProbe cfg ls trgEvt electrons tag) eleProbe scs

def analyzeElectrons (cfg : Config) (st : State) (iEvent : Event) : Run :=
  match iEvent.hVertexProduct with
  | none => ⟨st, [], none⟩
  | some pvCol =>
    let nvtx := vertexCount cfg pvCol
    if nvtx = 0 then ⟨st, [], none⟩
    else
      match iEvent.hTrgRes with
      | none => ⟨st, [], none⟩
      | some hTrgRes =>
        let st1 := updateTrigger cfg st hTrgRes
        match fillTriggerBits hTrgRes st1.fTrigger.fRecords with
        | .error e => ⟨st1, [], some e⟩
        | .ok triggerBits =>
          if !(isElectronTrigger st1.fTrigger triggerBits) then ⟨st1, [], none⟩
          else
            match iEvent.rhoHandle, iEvent.electrons with
            | none, _ => ⟨st1, [], some .invalidHandle⟩
            | some _, none => ⟨st1, [], some .invalidHandle⟩
            | some _, some electrons =>
              let r := forEachS
                (electronTag cfg iEvent.luminosityBlock iEvent.hTrgEvt electrons iEvent.superclusters)
                none electrons.enum
              ⟨st1, r.2.fills, r.2.exc⟩

/-- The method `analyze`: the muon channel, then the electron channel; an
exception thrown by the muon channel ends the event. -/
def analyze (cfg : Config) (st : State) (iEvent : Event) : Run :=
  match analyzeMuons cfg st iEvent with
  | ⟨st1, fs, some e⟩ => ⟨st1, fs, some e⟩
  | ⟨st1, fs, none⟩ =>
    let r := analyzeElectrons cfg st1 iEvent
    ⟨r.state, fs ++ r.fills, r.exc⟩

/-! ## Vocabulary of the properties -/

/-- The number of fills of histogram `h` in a list of fills. -/
def countHist (h : Hist) (fs : List Fill) : Nat :=
  fs.countP (fun f => decide (f.hist = h))

/-- The pair mass `dilepMass` the muon probe loop computes for a tag and a probe. -/
def dilepMass (cfg : Config) (itMu1 itMu2 : Muon) : ℚ :=
  cfg.sumM ⟨itMu1.muonBestTrack.pt, itMu1.muonBestTrack.eta, itMu1.muonBestTrack.phi, cfg.MUON_MASS⟩
    ⟨itMu2.muonBestTrack.pt, itMu2.muonBestTrack.eta, itMu2.muonBestTrack.phi, cfg.MUON_MASS⟩

/-- The probe cuts of the muon probe loop: transverse momentum, pseudorapidity,
a charge different from the tag's, and the mass window. -/
def passesProbeCuts (cfg : Config) (itMu1 itMu2 : Muon) : Prop :=
  cfg.PtCutL2_ ≤ itMu2.muonBestTrack.pt ∧ |itMu2.muonBestTrack.eta| ≤ cfg.EtaCutL2_
    ∧ itMu1.muonBestTrack.charge ≠ itMu2.muonBestTrack.charge
    ∧ cfg.MassMin_ ≤ dilepMass cfg itMu1 itMu2 ∧ dilepMass cfg itMu1 itMu2 ≤ cfg.MassMax_

/-- Whether a muon is in the central region. -/
def isCentral (cfg : Config) (mu : Muon) : Bool :=
  decide (|mu.muonBestTrack.eta| < cfg.MUON_BOUND)

/-- Whether the probe passes the muon ID and isolation. -/
def passesSelection (cfg : Config) (pv : Vertex) (mu : Muon) : Bool :=
  passMuonID mu pv cfg.IDType_ && passMuonIso mu cfg.IsoType_ cfg.IsoCut_

/-- Whether the muon matches the trigger object of the muon trigger. -/
def matchesTrigger (trgEvt : TriggerEvent) (mu : Muon) : Bool :=
  isMuonTriggerObj trgEvt mu.muonBestTrack.eta mu.muonBestTrack.phi

/-- One if the condition holds and zero otherwise. -/
def indicator (b : Bool) : Nat := if b then 1 else 0

/-- The event categories of the muon channel, named as in the comments of the
categorization block. -/
inductive Category where
  | cat2HLT
  | cat1HLT
  | catNoSel
  | catSta
  | catTrk
  deriving DecidableEq, Repr

/-- The three pass histograms of a region, filled with the lumi block and the mass. -/
def passFills (central : Bool) (ls : Nat) (m : ℚ) : List Fill :=
  if central then
    [massFill .h_mass_HLT_pass_central ls m, massFill .h_mass_SIT_pass_central ls m,
     massFill .h_mass_Sta_pass_central ls m]
  else
    [massFill .h_mass_HLT_pass_forward ls m, massFill .h_mass_SIT_pass_forward ls m,
     massFill .h_mass_Sta_pass_forward ls m]

/-- The fills the specification gives to each category: 2HLT fills the pass
histograms of all three legs in the tag's region and in the probe's region and
the yield; 1HLT fills HLT-fail, SIT-pass and Sta-pass of the probe's region and
the yield; NoSel fills SIT-fail and Sta-pass of the probe's region; Sta and Trk
fill Sta-fail of the probe's region. -/
def Category.fills (c : Category) (ls : Nat) (m : ℚ) (tagCentral probeCentral : Bool) : List Fill :=
  match c with
  | .cat2HLT => passFills tagCentral ls m ++ passFills probeCentral ls m ++ [yieldFill .h_yield_Z ls]
  | .cat1HLT =>
    (if probeCentral then
      [massFill .h_mass_HLT_fail_central ls m, massFill .h_mass_SIT_pass_central ls m,
       massFill .h_mass_Sta_pass_central ls m]
    else
      [massFill .h_mass_HLT_fail_forward ls m, massFill .h_mass_SIT_pass_forward ls m,
       massFill .h_mass_Sta_pass_forward ls m]) ++ [yieldFill .h_yield_Z ls]
  | .catNoSel =>
    if probeCentral then
      [massFill .h_mass_SIT_fail_central ls m, massFill .h_mass_Sta_pass_central ls m]
    else [massFill .h_mass_SIT_fail_forward ls m, massFill .h_mass_Sta_pass_forward ls m]
  | .catSta =>
    if probeCentral then [massFill .h_mass_Sta_fail_central ls m]
    else [massFill .h_mass_Sta_fail_forward ls m]
  | .catTrk =>
    if probeCentral then [massFill .h_mass_Sta_fail_central ls m]
    else [massFill .h_mass_Sta_fail_forward ls m]

/-- Whether the inner track of the muon meets the hit-quality bar: at least 6
tracker layers with measurement and at least 1 valid pixel hit. -/
def innerTrackQuality (mu : Muon) : Bool :=
  match mu.innerTrack with
  | none => false
  | some innerTrack =>
    decide (innerTrack.track.hitPattern.trackerLayersWithMeasurement ≥ 6
      ∧ innerTrack.track.hitPattern.numberOfValidPixelHits ≥ 1)

/-- The category of a probe by the priority order of the specification, and
`none` for a probe that falls in no category. -/
def probeCategory (cfg : Config) (pv : Vertex) (trgEvt : TriggerEvent) (probe : Muon) :
    Option Category :=
  if passesSelection cfg pv probe then
    if matchesTrigger trgEvt probe then some .cat2HLT else some .cat1HLT
  else if probe.isGlobalMuon then some .catNoSel
  else if probe.isStandAloneMuon then some .catSta
  else if innerTrackQuality probe then some .catTrk
  else none

/-- The fills of one iteration of the muon probe loop inside the tag loop: those
of `muonProbe` when the muon at the tag position is accepted as a tag, and none
when the tag loop skips it. -/
def pairOut (cfg : Config) (ls : Nat) (pv : Vertex) (hTrgEvt : Option TriggerEvent)
    (tag probe : Nat × Muon) : Out :=
  match tagSelection cfg pv hTrgEvt tag.2, hTrgEvt with
  | .ok true, some trgEvt => muonProbe cfg ls pv trgEvt tag probe
  | _, _ => ⟨[], none⟩

/-- The fills of one iteration of the track probe loop inside the tag loop: those
of `trackProbe` when the muon at the tag position is accepted as a tag, and none
when the tag loop skips it. -/
def trackPairOut (cfg : Config) (ls : Nat) (pv : Vertex) (hTrgEvt : Option TriggerEvent)
    (muons : List Muon) (tag : Nat × Muon) (trk : Nat × Track) : Out :=
  match tagSelection cfg pv hTrgEvt tag.2, hTrgEvt with
  | .ok true, some _ => trackProbe cfg ls muons tag trk
  | _, _ => ⟨[], none⟩

/-- The fills of one iteration of the tag loop, as the fills of its pairs: first
the muon probes in collection order, then the track probes in collection order. -/
def tagFills (cfg : Config) (ls : Nat) (pv : Vertex) (hTrgEvt : Option TriggerEvent)
    (muons : List Muon) (tracks : List Track) (tag : Nat × Muon) : List Fill :=
  muons.enum.flatMap (fun probe => (pairOut cfg ls pv hTrgEvt tag probe).fills)
    ++ tracks.enum.flatMap (fun trk => (trackPairOut cfg ls pv hTrgEvt muons tag trk).fills)

/-! ## Sample data -/

/-- Wildcard matching on characters: `*` stands for any run of characters and
`?` for any one character. -/
def globAux : List Char → List Char → Bool
  | [], cs => cs.isEmpty
  | p :: ps, cs =>
    if p = '*' then cs.tails.any (fun t => globAux ps t)
    else
      match cs with
      | [] => false
      | c :: rest => (p = '?' || p = c) && globAux ps rest

/-- A matcher for the field `globMatch` of the sample configurations. -/
def globMatches (pattern name : String) : Bool := globAux pattern.data name.data

/-- A configuration with the vertex thresholds (4, 4, 24, 2), the mass window
[60, 120], the central/forward boundary 0.9 and a pair mass of 91 for every pair. -/
def sampleConfig : Config where
  IDType_ := .TightID
  IsoType_ := .TrackerIso
  IsoCut_ := 5
  PtCutL1_ := 27
  PtCutL2_ := 20
  EtaCutL1_ := 12 / 5
  EtaCutL2_ := 12 / 5
  MassMin_ := 60
  MassMax_ := 120
  VtxNTracksFitCut_ := 4
  VtxNdofCut_ := 4
  VtxAbsZCut_ := 24
  VtxRhoCut_ := 2
  ELE_PT_CUT_TAG := 40
  ELE_PT_CUT_PROBE := 35
  ELE_ETA_CUT_TAG := 5 / 2
  ELE_ETA_CUT_PROBE := 5 / 2
  MUON_MASS := 105658369 / 1000000000
  MUON_BOUND := 9 / 10
  ELECTRON_MASS := 511 / 1000000
  ELE_ETA_CRACK_LOW := 14442 / 10000
  ELE_ETA_CRACK_HIGH := 156 / 100
  sumM := fun _ _ => 91
  clusterPt := fun sc => sc.energy
  scEq := fun a b => decide (a = b)
  globMatch := globMatches

/-- The configuration `sampleConfig` with a probe pt cut of 50, above the tag pt cut of 27. -/
def tightProbeConfig : Config := { sampleConfig with PtCutL2_ := 50 }

/-- A vertex with z = 0, ndof = 10, rho = 0 and 20 tracks. -/
def sampleVertex : Vertex := ⟨false, 20, 10, 0, 0⟩

/-- A vertex with 2 tracks, which fails the track-count threshold of `sampleConfig`. -/
def poorVertex : Vertex := ⟨false, 2, 10, 0, 0⟩

/-- Two unresolved trigger records, for the muon and the electron trigger, each
with its own bit. -/
def sampleTrigger : TTrigger :=
  ⟨[⟨"HLT_IsoMu27_v*", "", invalidIndex, 0,
      [("hltL3crIsoL1sMu22Or25L1f0L2f10QL3f27QL3trkIsoFiltered0p07", 0)]⟩,
    ⟨"HLT_Ele35_WPTight_Gsf_v*", "", invalidIndex, 1,
      [("hltEle35noerWPTightGsfTrackIsoFilter", 1)]⟩]⟩

/-- The state before the first event of a run. -/
def sampleState : State := ⟨0, sampleTrigger⟩

/-- The records of `sampleTrigger` resolved against the menu `sampleNames`. -/
def resolvedTrigger : TTrigger :=
  ⟨[⟨"HLT_IsoMu27_v*", "HLT_IsoMu27_v12", 1, 0,
      [("hltL3crIsoL1sMu22Or25L1f0L2f10QL3f27QL3trkIsoFiltered0p07", 0)]⟩,
    ⟨"HLT_Ele35_WPTight_Gsf_v*", "HLT_Ele35_WPTight_Gsf_v7", 2, 1,
      [("hltEle35noerWPTightGsfTrackIsoFilter", 1)]⟩]⟩

/-- A menu of three paths with the id 1. -/
def sampleNames : TriggerNames :=
  ⟨["HLT_IsoMu24_v3", "HLT_IsoMu27_v12", "HLT_Ele35_WPTight_Gsf_v7"], 1⟩

/-- Trigger results over `sampleNames` with the given accept bits. -/
def sampleResults (accept : List Bool) : TriggerResults := ⟨accept, sampleNames⟩

/-- Three superclusters: that of `sampleEle0`, that of `sampleEle1`, and one
that belongs to no electron. -/
def sampleSC0 : SuperCluster := ⟨45, 0, 0⟩

def sampleSC1 : SuperCluster := ⟨46, 0, 157 / 50⟩

def sampleSC2 : SuperCluster := ⟨40, 0, 3⟩

/-- Two back-to-back electrons of opposite charge that pass the electron ID. -/
def sampleEle0 : Electron := ⟨45, 0, 0, 1, sampleSC0, true⟩

def sampleEle1 : Electron := ⟨46, 0, 157 / 50, -1, sampleSC1, true⟩

/-- A trigger event in which every position matches a trigger object. -/
def allMatch : TriggerEvent := ⟨fun _ _ _ => true⟩

/-- A trigger event in which no position matches a trigger object. -/
def noMatch : TriggerEvent := ⟨fun _ _ _ => false⟩

/-- A global muon passing ID and isolation, with the given kinematics and charge. -/
def goodMuon (pt eta phi : ℚ) (q : Int) : Muon where
  muonBestTrack := ⟨pt, eta, phi, q, ⟨10, 2⟩⟩
  innerTrack := some ⟨none, ⟨pt, eta, phi, q, ⟨10, 2⟩⟩⟩
  isGlobalMuon := true
  isStandAloneMuon := true
  isLooseMuon := true
  isMediumMuon := true
  isTightMuon := fun _ => true
  isolationR03_sumPt := 0
  pfIsolationR04 := ⟨0, 0, 0, 0⟩

/-- The tag of the scenarios: pt 30, eta 0.5, charge +1, passing ID, isolation
and (in `allMatch`) the trigger match. -/
def scenarioTag : Muon := goodMuon 30 (1 / 2) 0 1

/-- The probe of the 2HLT scenario: pt 25, eta -0.3, charge -1, passing ID,
isolation and the trigger match. -/
def scenarioProbe : Muon := goodMuon 25 (-3 / 10) (157 / 50) (-1)

/-- Two back-to-back muons of opposite charge that pass the tag selection of
`sampleConfig`. -/
def sampleMuA : Muon := goodMuon 45 (1 / 2) 0 1

def sampleMuB : Muon := goodMuon 46 (-3 / 10) (157 / 50) (-1)

/-- An event of lumi block 7 with the given vertices, all collections present,
every path accepted, two muons, no track, two electrons and three superclusters. -/
def sampleEvent (pvCol : List Vertex) : Event where
  luminosityBlock := 7
  hVertexProduct := some pvCol
  hTrgRes := some (sampleResults [true, true, true])
  hTrgEvt := some allMatch
  hMuonProduct := some [sampleMuA, sampleMuB]
  hTrackProduct := some []
  electrons := some [sampleEle0, sampleEle1]
  superclusters := some [sampleSC0, sampleSC1, sampleSC2]
  rhoHandle := some 0
  beamspotHandle := some ()
  conversionsHandle := some ()

/-- The event `sampleEvent [sampleVertex]` with the accept bit of the path at
index 1, `HLT_IsoMu27_v12`, unset. -/
def unacceptedEvent : Event :=
  { sampleEvent [sampleVertex] with hTrgRes := some (sampleResults [true, false, true]) }

/-- A menu with a single path, which the patterns of `sampleTrigger` do not match. -/
def otherNames : TriggerNames := ⟨["HLT_IsoMu24_v3"], 2⟩

/-- A muon like `goodMuon` that fails the isolation cut of `sampleConfig`. -/
def nonIsolatedMuon (pt eta phi : ℚ) (q : Int) (isGlobal isStandAlone : Bool) (layers : Nat) :
    Muon where
  muonBestTrack := ⟨pt, eta, phi, q, ⟨layers, 2⟩⟩
  innerTrack := some ⟨none, ⟨pt, eta, phi, q, ⟨layers, 2⟩⟩⟩
  isGlobalMuon := isGlobal
  isStandAloneMuon := isStandAlone
  isLooseMuon := true
  isMediumMuon := true
  isTightMuon := fun _ => true
  isolationR03_sumPt := 50
  pfIsolationR04 := ⟨50, 0, 0, 0⟩

/-- The probe of the NoSel scenario: it fails the isolation and is a global muon. -/
def noSelProbe : Muon := nonIsolatedMuon 25 (-3 / 10) (157 / 50) (-1) true true 10

/-- A probe that fails the isolation and is a standalone muon only. -/
def staProbe : Muon := nonIsolatedMuon 25 (-3 / 10) (157 / 50) (-1) false true 10

/-- A probe that fails the isolation, is neither a global nor a standalone muon
and has an inner track with 3 tracker layers with measurement. -/
def poorTrackProbe : Muon := nonIsolatedMuon 25 (-3 / 10) (157 / 50) (-1) false false 3

/-! ## Vocabulary and sample data of the later properties -/

/-- The cached records fit the trigger results: every resolved index is an index
of the results. -/
def recordsValid (hTrgRes : TriggerResults) (recs : List TriggerRecord) : Prop :=
  ∀ r ∈ recs, r.hltPathIndex ≠ invalidIndex → r.hltPathIndex < hTrgRes.accept.length

/-- The region histogram of the Sta-fail leg. -/
def staFailHist (central : Bool) : Hist :=
  if central then .h_mass_Sta_fail_central else .h_mass_Sta_fail_forward

/-- The event `sampleEvent [sampleVertex]` with the given muons and tracks. -/
def muonEvent (muons : List Muon) (tracks : List Track) : Event :=
  { sampleEvent [sampleVertex] with hMuonProduct := some muons, hTrackProduct := some tracks }

/-- A trigger event that matches a trigger object at pseudorapidity 0.5 only,
the position of `scenarioTag`. -/
def tagOnlyMatch : TriggerEvent := ⟨fun _ eta _ => decide (eta = 1 / 2)⟩

/-- A trigger event that matches a trigger object everywhere but at
(eta, phi) = (0, 0), the position of `sampleEle0`. -/
def matchExceptOrigin : TriggerEvent := ⟨fun _ eta phi => !(decide (eta = 0 ∧ phi = 0))⟩

/-- A track of pt 45, eta -0.3 and charge -1 with 10 tracker layers and 2 pixel
hits, back to back with `scenarioTag`. -/
def centralTrack : Track := ⟨45, -3 / 10, 157 / 50, -1, ⟨10, 2⟩⟩

/-- A track like `centralTrack` at eta 2. -/
def forwardTrack : Track := ⟨45, 2, 157 / 50, -1, ⟨10, 2⟩⟩

/-- A standalone muon with the kinematics of `centralTrack` that fails the isolation. -/
def centralStaMuon : Muon := nonIsolatedMuon 45 (-3 / 10) (157 / 50) (-1) false true 10

/-- A muon like `scenarioTag` whose inner track is the track at position 0 of the
track collection. -/
def trackedMuon : Muon :=
  { scenarioTag with innerTrack := some ⟨some 0, scenarioTag.muonBestTrack⟩ }

/-- The configuration `sampleConfig` with the sum of the two transverse momenta
as pair mass, which is the mass of two back-to-back leptons of about the same pt
at eta 0 to within a percent. -/
def ptSumConfig : Config := { sampleConfig with sumM := fun v1 v2 => v1.pt + v2.pt }

/-- An electron of the same charge as `sampleEle0`, back to back with it, and its
supercluster. -/
def sampleSC3 : SuperCluster := ⟨44, 0, 31 / 10⟩

def sampleEle2 : Electron := ⟨44, 0, 31 / 10, 1, sampleSC3, true⟩

/-- A muon of pt 26, below the tag pt cut 27 of `sampleConfig` and above its
probe pt cut 20, passing ID, isolation and (in `allMatch`) the trigger match. -/
def softMuon : Muon := goodMuon 26 (-3 / 10) (157 / 50) (-1)

/-- A probe of pt 45 that fails the isolation, is neither a global nor a
standalone muon and has an inner track with 3 tracker layers with measurement. -/
def lowQualityProbe : Muon := nonIsolatedMuon 45 (-3 / 10) (157 / 50) (-1) false false 3

/-! ## Vocabulary of the invariants -/

/-- The four-vector `vProbe` of the electron probe loop: that of the electron
held by `eleProbe`, or the one built from the supercluster when `eleProbe` is null. -/
def probeVector (cfg : Config) (eleProbe : Option Electron) (sc : SuperCluster) : TLorentzVector :=
  match eleProbe with
  | some e => ⟨e.pt, e.eta, e.phi, cfg.ELECTRON_MASS⟩
  | none => ⟨cfg.clusterPt sc, sc.eta, sc.phi, cfg.ELECTRON_MASS⟩

/-- The pair mass `vDilep.M()` of the electron probe loop for the tag `el1`. -/
def eeMass (cfg : Config) (el1 : Electron) (eleProbe : Option Electron) (sc : SuperCluster) : ℚ :=
  cfg.sumM ⟨el1.pt, el1.eta, el1.phi, cfg.ELECTRON_MASS⟩ (probeVector cfg eleProbe sc)

/-- A qualifying pair of the electron channel, for the value `eleProbe` has after
the matching loop: the supercluster is not the tag's, the probe passes the pt and
|eta| cuts and is outside the crack band, the pair mass is in [80, 100], and an
electron in `eleProbe` has the charge opposite to the tag's. -/
def qualifyingPair (cfg : Config) (el1 : Electron) (eleProbe : Option Electron)
    (sc : SuperCluster) : Prop :=
  cfg.scEq sc el1.superCluster = false
  ∧ cfg.ELE_PT_CUT_PROBE ≤ (probeVector cfg eleProbe sc).pt
  ∧ |sc.eta| ≤ cfg.ELE_ETA_CUT_PROBE
  ∧ ¬ (|sc.eta| > cfg.ELE_ETA_CRACK_LOW ∧ |sc.eta| < cfg.ELE_ETA_CRACK_HIGH)
  ∧ 80 ≤ eeMass cfg el1 eleProbe sc ∧ eeMass cfg el1 eleProbe sc ≤ 100
  ∧ (∀ e : Electron, eleProbe = some e → e.charge = - el1.charge)

/-- A supercluster of energy 60 opposite to `sampleEle0`: with the pt sum as
pair mass the pair has mass 105, above the window. -/
def heavySC : SuperCluster := ⟨60, 0, 3⟩

/-- The number of fills of an efficiency leg outcome over both regions. -/
def legCount (central forward : Hist) (fs : List Fill) : Nat :=
  countHist central fs + countHist forward fs

/-- No efficiency leg has both a pass fill and a fail fill in the list. -/
def legsExclusive (fs : List Fill) : Prop :=
  (legCount .h_mass_HLT_pass_central .h_mass_HLT_pass_forward fs = 0
    ∨ legCount .h_mass_HLT_fail_central .h_mass_HLT_fail_forward fs = 0)
  ∧ (legCount .h_mass_SIT_pass_central .h_mass_SIT_pass_forward fs = 0
    ∨ legCount .h_mass_SIT_fail_central .h_mass_SIT_fail_forward fs = 0)
  ∧ (legCount .h_mass_Sta_pass_central .h_mass_Sta_pass_forward fs = 0
    ∨ legCount .h_mass_Sta_fail_central .h_mass_Sta_fail_forward fs = 0)

/-- The (lumi, mass) entries a list of fills gives to the histogram `h`, in
program order. -/
def histEntries (h : Hist) (fs : List Fill) : List (Nat × Option ℚ) :=
  (fs.filter (fun f => decide (f.hist = h))).map (fun f => (f.lumi, f.value))

/-- The fills nest as efficiency legs in both regions: the entries of SIT-pass
are those of HLT-pass and HLT-fail together, the entries of Sta-pass those of
SIT-pass and SIT-fail together, as multisets. -/
def legsNested (fs : List Fill) : Prop :=
  (histEntries .h_mass_SIT_pass_central fs).Perm
      (histEntries .h_mass_HLT_pass_central fs ++ histEntries .h_mass_HLT_fail_central fs)
  ∧ (histEntries .h_mass_Sta_pass_central fs).Perm
      (histEntries .h_mass_SIT_pass_central fs ++ histEntries .h_mass_SIT_fail_central fs)
  ∧ (histEntries .h_mass_SIT_pass_forward fs).Perm
      (histEntries .h_mass_HLT_pass_forward fs ++ histEntries .h_mass_HLT_fail_forward fs)
  ∧ (histEntries .h_mass_Sta_pass_forward fs).Perm
      (histEntries .h_mass_SIT_pass_forward fs ++ histEntries .h_mass_SIT_fail_forward fs)

/-! ## Vertex selection: properties -/

theorem vertexStep_eq (cfg : Config) (acc : Option Vertex × Nat) (v : Vertex) :
    vertexStep cfg acc v =
      if v.qualifies cfg then (if acc.2 = 0 then some v else acc.1, acc.2 + 1) else acc := by
  unfold vertexStep Vertex.qualifies
  by_cases h1 : v.isFake = true
  · simp [h1]
  · by_cases h2 : (v.tracksSize : ℚ) < cfg.VtxNTracksFitCut_
    · simp [h1, h2, not_le.mpr h2]
    · by_cases h3 : v.ndof < cfg.VtxNdofCut_
      · simp [h1, h2, h3, not_le.mpr h3]
      · by_cases h4 : |v.z| > cfg.VtxAbsZCut_
        · simp [h1, h2, h3, h4, not_le.mpr h4]
        · by_cases h5 : v.rho > cfg.VtxRhoCut_
          · simp [h1, h2, h3, h4, h5, not_le.mpr h5]
          · simp [h1, h2, h3, h4, h5, not_lt.mp h2, not_lt.mp h3, not_lt.mp h4, not_lt.mp h5]

theorem vertexScan_fold (cfg : Config) (vs : List Vertex) :
    ∀ (pv0 : Option Vertex) (n : Nat),
      (vs.foldl (vertexStep cfg) (pv0, n)).2 = n + (vs.filter (Vertex.qualifies cfg)).length
      ∧ (n ≠ 0 → (vs.foldl (vertexStep cfg) (pv0, n)).1 = pv0)
      ∧ (n = 0 → (vs.filter (Vertex.qualifies cfg)) ≠ [] →
          (vs.foldl (vertexStep cfg) (pv0, n)).1 = (vs.filter (Vertex.qualifies cfg)).head?) := by
  induction vs with
  | nil => intro pv0 n; simp
  | cons v rest ih =>
    intro pv0 n
    rw [List.foldl_cons, vertexStep_eq]
    by_cases hq : v.qualifies cfg = true
    · rw [if_pos hq, List.filter_cons_of_pos hq]
      obtain ⟨h1, h2, -⟩ := ih (if n = 0 then some v else pv0) (n + 1)
      refine ⟨?_, ?_, ?_⟩
      · rw [h1]; simp; omega
      · intro hn; rw [h2 (by omega)]; simp [hn]
      · intro hn _; rw [h2 (by omega)]; simp [hn]
    · rw [if_neg hq, List.filter_cons_of_neg hq]
      exact ih pv0 n

/-- C6: the vertex scan of `analyzeMuons` counts exactly the vertices that are not
fake and have `tracksSize >= VtxNTracksFitMin`, `ndof >= VtxNdofMin`,
`|z| <= VtxAbsZMax` and `rho <= VtxRhoMax`, all inclusive; whenever the count is
positive the primary vertex is the first such vertex in input order; a single
vertex with z = 0, ndof = 10, rho = 0, 20 tracks and thresholds (4, 4, 24, 2)
gives `nvtx = 1` with that vertex as primary vertex, so the vertex gate is passed. -/
theorem vertexScan_counts_qualifying (cfg : Config) (pvCol : List Vertex) :
    (∀ v : Vertex, v.qualifies cfg = true ↔
        (v.isFake = false ∧ cfg.VtxNTracksFitCut_ ≤ (v.tracksSize : ℚ) ∧ cfg.VtxNdofCut_ ≤ v.ndof
          ∧ |v.z| ≤ cfg.VtxAbsZCut_ ∧ v.rho ≤ cfg.VtxRhoCut_))
    ∧ (vertexScan cfg pvCol).2 = (pvCol.filter (Vertex.qualifies cfg)).length
    ∧ (0 < (vertexScan cfg pvCol).2 →
        (vertexScan cfg pvCol).1 = (pvCol.filter (Vertex.qualifies cfg)).head?
        ∧ ∃ pv, (vertexScan cfg pvCol).1 = some pv ∧ pv ∈ pvCol ∧ pv.qualifies cfg = true)
    ∧ (∀ v : Vertex, v.isFake = false → v.z = 0 → v.ndof = 10 → v.rho = 0 → v.tracksSize = 20 →
        cfg.VtxNTracksFitCut_ = 4 → cfg.VtxNdofCut_ = 4 → cfg.VtxAbsZCut_ = 24 →
        cfg.VtxRhoCut_ = 2 → vertexScan cfg [v] = (some v, 1) ∧ (vertexScan cfg [v]).2 ≠ 0) := by
  have hcount : (vertexScan cfg pvCol).2 = (pvCol.filter (Vertex.qualifies cfg)).length := by
    have h := (vertexScan_fold cfg pvCol pvCol.head? 0).1
    simpa [vertexScan] using h
  refine ⟨?_, hcount, ?_, ?_⟩
  · intro v
    simp [Vertex.qualifies, and_assoc]
  · intro hpos
    have hne : pvCol.filter (Vertex.qualifies cfg) ≠ [] := by
      intro h
      rw [hcount, h] at hpos
      simp at hpos
    have hpv : (vertexScan cfg pvCol).1 = (pvCol.filter (Vertex.qualifies cfg)).head? :=
      (vertexScan_fold cfg pvCol pvCol.head? 0).2.2 rfl hne
    refine ⟨hpv, ?_⟩
    obtain ⟨pv, rest, hcons⟩ := List.exists_cons_of_ne_nil hne
    have hmem : pv ∈ pvCol.filter (Vertex.qualifies cfg) := by rw [hcons]; simp
    refine ⟨pv, ?_, (List.mem_filter.mp hmem).1, (List.mem_filter.mp hmem).2⟩
    rw [hpv, hcons]
    rfl
  · intro v hf hz hn hr ht c1 c2 c3 c4
    have h : vertexScan cfg [v] = (some v, 1) := by
      simp [vertexScan, vertexStep, hf, hz, hn, hr, ht, c1, c2, c3, c4]
      norm_num
    refine ⟨h, ?_⟩
    rw [h]
    exact Nat.one_ne_zero

theorem vertexScan_counts_qualifying_witness :
    0 < (vertexScan sampleConfig [sampleVertex]).2
    ∧ (vertexScan sampleConfig [sampleVertex]).1
        = ([sampleVertex].filter (Vertex.qualifies sampleConfig)).head?
    ∧ vertexScan sampleConfig [sampleVertex] = (some sampleVertex, 1) := by
  have h := vertexScan_counts_qualifying sampleConfig [sampleVertex]
  have hs := (h.2.2.2 sampleVertex rfl rfl rfl rfl rfl rfl rfl rfl rfl).1
  have hpos : 0 < (vertexScan sampleConfig [sampleVertex]).2 := by rw [hs]; decide
  exact ⟨hpos, (h.2.2.1 hpos).1, hs⟩

/-! ## Muon probe loop: properties -/

/-- A pair of distinct muons that passes the probe cuts reaches the
categorization block with its regions and its pair mass. -/
theorem muonProbe_of_cuts (cfg : Config) (ls : Nat) (pv : Vertex) (trgEvt : TriggerEvent)
    (i j : Nat) (itMu1 itMu2 : Muon) (hij : j ≠ i) (hcuts : passesProbeCuts cfg itMu1 itMu2) :
    muonProbe cfg ls pv trgEvt (i, itMu1) (j, itMu2)
      = muonCategoryFills cfg ls pv trgEvt i j itMu2 (isCentral cfg itMu1) (isCentral cfg itMu2)
          (dilepMass cfg itMu1 itMu2) := by
  obtain ⟨hpt, heta, hq, hlo, hhi⟩ := hcuts
  unfold dilepMass at hlo hhi
  have h1 : ¬ itMu2.muonBestTrack.pt < cfg.PtCutL2_ := not_lt.mpr hpt
  have h2 : ¬ |itMu2.muonBestTrack.eta| > cfg.EtaCutL2_ := not_lt.mpr heta
  have h3 : ¬ (cfg.sumM
      ⟨itMu1.muonBestTrack.pt, itMu1.muonBestTrack.eta, itMu1.muonBestTrack.phi, cfg.MUON_MASS⟩
      ⟨itMu2.muonBestTrack.pt, itMu2.muonBestTrack.eta, itMu2.muonBestTrack.phi, cfg.MUON_MASS⟩
        < cfg.MassMin_ ∨
      cfg.sumM
      ⟨itMu1.muonBestTrack.pt, itMu1.muonBestTrack.eta, itMu1.muonBestTrack.phi, cfg.MUON_MASS⟩
      ⟨itMu2.muonBestTrack.pt, itMu2.muonBestTrack.eta, itMu2.muonBestTrack.phi, cfg.MUON_MASS⟩
        > cfg.MassMax_) := by
    rintro (h | h)
    · exact absurd hlo (not_le.mpr h)
    · exact absurd hhi (not_le.mpr h)
  unfold muonProbe
  simp only [hij, h1, h2, hq, h3, if_false]
  rfl

/-- A probe that fails one of the probe cuts, or is the tag itself, fills nothing. -/
theorem muonProbe_of_not_cuts (cfg : Config) (ls : Nat) (pv : Vertex) (trgEvt : TriggerEvent)
    (i j : Nat) (itMu1 itMu2 : Muon) (h : j = i ∨ ¬ passesProbeCuts cfg itMu1 itMu2) :
    muonProbe cfg ls pv trgEvt (i, itMu1) (j, itMu2) = ⟨[], none⟩ := by
  unfold muonProbe
  by_cases hij : j = i
  · simp [hij]
  · have hc : ¬ passesProbeCuts cfg itMu1 itMu2 := h.resolve_left hij
    simp only [hij, if_false]
    by_cases h1 : itMu2.muonBestTrack.pt < cfg.PtCutL2_
    · simp [h1]
    · by_cases h2 : |itMu2.muonBestTrack.eta| > cfg.EtaCutL2_
      · simp [h1, h2]
      · by_cases h3 : itMu1.muonBestTrack.charge = itMu2.muonBestTrack.charge
        · simp [h1, h2, h3]
        · simp only [h1, h2, h3, if_false]
          split
          · rfl
          · rename_i hm
            exfalso
            apply hc
            refine ⟨not_lt.mp h1, not_lt.mp h2, h3, ?_, ?_⟩
            · exact not_lt.mp (fun hh => hm (Or.inl hh))
            · exact not_lt.mp (fun hh => hm (Or.inr hh))

/-- The fills of the category 2HLT: the three pass histograms of the tag's region,
the three pass histograms of the probe's region, then the yield. -/
theorem muonCategoryFills_2HLT (cfg : Config) (ls : Nat) (pv : Vertex) (trgEvt : TriggerEvent)
    (i j : Nat) (itMu2 : Muon) (tagC probeC : Bool) (m : ℚ)
    (hsel : passesSelection cfg pv itMu2 = true) (htrg : matchesTrigger trgEvt itMu2 = true)
    (hord : i ≤ j) :
    muonCategoryFills cfg ls pv trgEvt i j itMu2 tagC probeC m
      = ⟨(if tagC then
            [massFill .h_mass_HLT_pass_central ls m, massFill .h_mass_SIT_pass_central ls m,
             massFill .h_mass_Sta_pass_central ls m]
          else
            [massFill .h_mass_HLT_pass_forward ls m, massFill .h_mass_SIT_pass_forward ls m,
             massFill .h_mass_Sta_pass_forward ls m])
         ++ (if probeC then
            [massFill .h_mass_HLT_pass_central ls m, massFill .h_mass_SIT_pass_central ls m,
             massFill .h_mass_Sta_pass_central ls m]
          else
            [massFill .h_mass_HLT_pass_forward ls m, massFill .h_mass_SIT_pass_forward ls m,
             massFill .h_mass_Sta_pass_forward ls m])
         ++ [yieldFill .h_yield_Z ls], none⟩ := by
  unfold passesSelection at hsel
  unfold matchesTrigger at htrg
  unfold muonCategoryFills
  simp only [hsel, htrg, if_true, gt_iff_lt, not_lt.mpr hord, if_false]

/-- C1: for an accepted tag and a probe that passes the probe cuts, ID and
isolation and the trigger-object match and stands after the tag in the
collection, the pair makes seven fills: `h_yield_Z` exactly once and each of the
HLT-pass, SIT-pass and Sta-pass legs exactly twice over central and forward (once
in the tag's region and once in the probe's region), all with the lumi block and
the pair mass, and no fail histogram; when both muons are central every central
pass histogram gets two fills and the yield one. -/
theorem muonProbe_2HLT (cfg : Config) (ls : Nat) (pv : Vertex) (trgEvt : TriggerEvent)
    (i j : Nat) (itMu1 itMu2 : Muon)
    (htag : tagSelection cfg pv (some trgEvt) itMu1 = .ok true)
    (hcuts : passesProbeCuts cfg itMu1 itMu2)
    (hsel : passesSelection cfg pv itMu2 = true) (htrg : matchesTrigger trgEvt itMu2 = true)
    (hord : i < j) :
    (muonProbe cfg ls pv trgEvt (i, itMu1) (j, itMu2)).exc = none
    ∧ (muonProbe cfg ls pv trgEvt (i, itMu1) (j, itMu2)).fills.length = 7
    ∧ (∀ f ∈ (muonProbe cfg ls pv trgEvt (i, itMu1) (j, itMu2)).fills,
        f.lumi = ls ∧ (f.hist ≠ .h_yield_Z → f.value = some (dilepMass cfg itMu1 itMu2)))
    ∧ countHist .h_yield_Z (muonProbe cfg ls pv trgEvt (i, itMu1) (j, itMu2)).fills = 1
    ∧ (∀ leg ∈ [(Hist.h_mass_HLT_pass_central, Hist.h_mass_HLT_pass_forward),
                (Hist.h_mass_SIT_pass_central, Hist.h_mass_SIT_pass_forward),
                (Hist.h_mass_Sta_pass_central, Hist.h_mass_Sta_pass_forward)],
        countHist leg.1 (muonProbe cfg ls pv trgEvt (i, itMu1) (j, itMu2)).fills
          = indicator (isCentral cfg itMu1) + indicator (isCentral cfg itMu2)
        ∧ countHist leg.2 (muonProbe cfg ls pv trgEvt (i, itMu1) (j, itMu2)).fills
          = indicator (!isCentral cfg itMu1) + indicator (!isCentral cfg itMu2)
        ∧ countHist leg.1 (muonProbe cfg ls pv trgEvt (i, itMu1) (j, itMu2)).fills
          + countHist leg.2 (muonProbe cfg ls pv trgEvt (i, itMu1) (j, itMu2)).fills = 2)
    ∧ (∀ h ∈ [Hist.h_mass_HLT_fail_central, Hist.h_mass_HLT_fail_forward,
              Hist.h_mass_SIT_fail_central, Hist.h_mass_SIT_fail_forward,
              Hist.h_mass_Sta_fail_central, Hist.h_mass_Sta_fail_forward],
        countHist h (muonProbe cfg ls pv trgEvt (i, itMu1) (j, itMu2)).fills = 0)
    ∧ (isCentral cfg itMu1 = true → isCentral cfg itMu2 = true →
        countHist .h_mass_HLT_pass_central (muonProbe cfg ls pv trgEvt (i, itMu1) (j, itMu2)).fills = 2
        ∧ countHist .h_mass_SIT_pass_central (muonProbe cfg ls pv trgEvt (i, itMu1) (j, itMu2)).fills = 2
        ∧ countHist .h_mass_Sta_pass_central (muonProbe cfg ls pv trgEvt (i, itMu1) (j, itMu2)).fills = 2
        ∧ countHist .h_yield_Z (muonProbe cfg ls pv trgEvt (i, itMu1) (j, itMu2)).fills = 1) := by
  have _ := htag
  rw [muonProbe_of_cuts cfg ls pv trgEvt i j itMu1 itMu2 (by omega) hcuts,
    muonCategoryFills_2HLT cfg ls pv trgEvt i j itMu2 _ _ _ hsel htrg (by omega)]
  cases isCentral cfg itMu1 <;> cases isCentral cfg itMu2 <;>
    simp [countHist, massFill, yieldFill, indicator]

theorem muonProbe_2HLT_witness :
    tagSelection sampleConfig sampleVertex (some allMatch) scenarioTag = .ok true
    ∧ passesProbeCuts sampleConfig scenarioTag scenarioProbe
    ∧ passesSelection sampleConfig sampleVertex scenarioProbe = true
    ∧ matchesTrigger allMatch scenarioProbe = true
    ∧ dilepMass sampleConfig scenarioTag scenarioProbe = 91
    ∧ countHist .h_mass_HLT_pass_central
        (muonProbe sampleConfig 7 sampleVertex allMatch (0, scenarioTag)
          (1, scenarioProbe)).fills = 2
    ∧ countHist .h_mass_SIT_pass_central
        (muonProbe sampleConfig 7 sampleVertex allMatch (0, scenarioTag)
          (1, scenarioProbe)).fills = 2
    ∧ countHist .h_mass_Sta_pass_central
        (muonProbe sampleConfig 7 sampleVertex allMatch (0, scenarioTag)
          (1, scenarioProbe)).fills = 2
    ∧ countHist .h_yield_Z
        (muonProbe sampleConfig 7 sampleVertex allMatch (0, scenarioTag)
          (1, scenarioProbe)).fills = 1 := by
  have htag : tagSelection sampleConfig sampleVertex (some allMatch) scenarioTag
      = .ok true := by
    norm_num [tagSelection, sampleConfig, goodMuon, scenarioTag, scenarioProbe, allMatch,
      passMuonID, passMuonIso, isMuonTriggerObj, abs_le]
  have hcuts : passesProbeCuts sampleConfig scenarioTag scenarioProbe := by
    norm_num [passesProbeCuts, dilepMass, sampleConfig, goodMuon, scenarioTag, scenarioProbe,
      abs_le]
  have hsel : passesSelection sampleConfig sampleVertex scenarioProbe = true := by
    norm_num [passesSelection, sampleConfig, goodMuon, scenarioTag, scenarioProbe, passMuonID,
      passMuonIso]
  have htrg : matchesTrigger allMatch scenarioProbe = true := rfl
  have hc1 : isCentral sampleConfig scenarioTag = true := by
    norm_num [isCentral, sampleConfig, goodMuon, scenarioTag, scenarioProbe, abs_lt]
  have hc2 : isCentral sampleConfig scenarioProbe = true := by
    norm_num [isCentral, sampleConfig, goodMuon, scenarioTag, scenarioProbe, abs_lt]
  exact ⟨htag, hcuts, hsel, htrg, rfl,
    (muonProbe_2HLT sampleConfig 7 sampleVertex allMatch 0 1 _ _ htag hcuts hsel htrg
      (by decide)).2.2.2.2.2.2 hc1 hc2⟩

/-- C7: for an accepted tag and a probe that passes the probe cuts, fails ID or
isolation and is a global muon, the pair fills exactly SIT-fail and Sta-pass of
the probe's region, once each with the lumi block and the pair mass, and nothing
else: no yield, no HLT histogram, nothing attributed to the tag's region. -/
theorem muonProbe_NoSel (cfg : Config) (ls : Nat) (pv : Vertex) (trgEvt : TriggerEvent)
    (i j : Nat) (itMu1 itMu2 : Muon)
    (htag : tagSelection cfg pv (some trgEvt) itMu1 = .ok true) (hij : j ≠ i)
    (hcuts : passesProbeCuts cfg itMu1 itMu2)
    (hsel : passesSelection cfg pv itMu2 = false) (hglb : itMu2.isGlobalMuon = true) :
    muonProbe cfg ls pv trgEvt (i, itMu1) (j, itMu2)
      = ⟨[massFill (if isCentral cfg itMu2 then .h_mass_SIT_fail_central
                    else .h_mass_SIT_fail_forward) ls (dilepMass cfg itMu1 itMu2),
          massFill (if isCentral cfg itMu2 then .h_mass_Sta_pass_central
                    else .h_mass_Sta_pass_forward) ls (dilepMass cfg itMu1 itMu2)], none⟩
    ∧ countHist .h_yield_Z (muonProbe cfg ls pv trgEvt (i, itMu1) (j, itMu2)).fills = 0
    ∧ (∀ h ∈ [Hist.h_mass_HLT_pass_central, Hist.h_mass_HLT_pass_forward,
              Hist.h_mass_HLT_fail_central, Hist.h_mass_HLT_fail_forward],
        countHist h (muonProbe cfg ls pv trgEvt (i, itMu1) (j, itMu2)).fills = 0)
    ∧ (muonProbe cfg ls pv trgEvt (i, itMu1) (j, itMu2)).fills.length = 2 := by
  have _ := htag
  have hfill : muonProbe cfg ls pv trgEvt (i, itMu1) (j, itMu2)
      = ⟨[massFill (if isCentral cfg itMu2 then .h_mass_SIT_fail_central
                    else .h_mass_SIT_fail_forward) ls (dilepMass cfg itMu1 itMu2),
          massFill (if isCentral cfg itMu2 then .h_mass_Sta_pass_central
                    else .h_mass_Sta_pass_forward) ls (dilepMass cfg itMu1 itMu2)], none⟩ := by
    rw [muonProbe_of_cuts cfg ls pv trgEvt i j itMu1 itMu2 hij hcuts]
    unfold passesSelection at hsel
    unfold muonCategoryFills
    simp only [hsel, hglb, if_true, Bool.false_eq_true, if_false]
    cases isCentral cfg itMu2 <;> rfl
  rw [hfill]
  cases isCentral cfg itMu2 <;> simp [countHist, massFill]

theorem muonProbe_NoSel_witness :
    tagSelection sampleConfig sampleVertex (some allMatch) scenarioTag = .ok true
    ∧ passesProbeCuts sampleConfig scenarioTag
        noSelProbe
    ∧ passesSelection sampleConfig sampleVertex noSelProbe
        = false
    ∧ muonProbe sampleConfig 7 sampleVertex allMatch (0, scenarioTag)
        (1, noSelProbe)
      = ⟨[massFill .h_mass_SIT_fail_central 7 91, massFill .h_mass_Sta_pass_central 7 91], none⟩ := by
  have htag : tagSelection sampleConfig sampleVertex (some allMatch) scenarioTag
      = .ok true := by
    norm_num [tagSelection, sampleConfig, goodMuon, scenarioTag, scenarioProbe, allMatch,
      passMuonID, passMuonIso, isMuonTriggerObj, abs_le]
  have hcuts : passesProbeCuts sampleConfig scenarioTag
      noSelProbe := by
    norm_num [passesProbeCuts, dilepMass, sampleConfig, goodMuon, scenarioTag, scenarioProbe,
      nonIsolatedMuon, noSelProbe, staProbe, poorTrackProbe, abs_le]
  have hsel : passesSelection sampleConfig sampleVertex
      noSelProbe = false := by
    norm_num [passesSelection, sampleConfig, nonIsolatedMuon, noSelProbe, staProbe, poorTrackProbe,
      passMuonID, passMuonIso]
    decide
  have hc2 : isCentral sampleConfig noSelProbe = true := by
    norm_num [isCentral, sampleConfig, nonIsolatedMuon, noSelProbe, staProbe, poorTrackProbe,
      abs_lt]
  have h := (muonProbe_NoSel sampleConfig 7 sampleVertex allMatch 0 1 _ _ htag (by decide) hcuts
    hsel rfl).1
  rw [hc2] at h
  exact ⟨htag, hcuts, hsel, h⟩

/-- Every category of the specification has at least one fill. -/
theorem Category.fills_ne_nil (c : Category) (ls : Nat) (m : ℚ) (tagC probeC : Bool) :
    c.fills ls m tagC probeC ≠ [] := by
  cases c <;> cases tagC <;> cases probeC <;> simp [Category.fills, passFills]

/-- The categorization block fills what the category of the probe prescribes,
except that a 2HLT pair whose tag stands after the probe fills nothing. -/
theorem muonCategoryFills_fills (cfg : Config) (ls : Nat) (pv : Vertex) (trgEvt : TriggerEvent)
    (i j : Nat) (itMu2 : Muon) (tagC probeC : Bool) (m : ℚ) :
    (muonCategoryFills cfg ls pv trgEvt i j itMu2 tagC probeC m).fills
      = match probeCategory cfg pv trgEvt itMu2 with
        | none => []
        | some c => if c = .cat2HLT ∧ j < i then [] else c.fills ls m tagC probeC := by
  unfold muonCategoryFills probeCategory passesSelection matchesTrigger innerTrackQuality
  by_cases hsel : (passMuonID itMu2 pv cfg.IDType_ && passMuonIso itMu2 cfg.IsoType_ cfg.IsoCut_) = true
  · by_cases htrg : isMuonTriggerObj trgEvt itMu2.muonBestTrack.eta itMu2.muonBestTrack.phi = true
    · by_cases hord : i > j
      · simp [hsel, htrg, hord]
      · have hji : ¬ j < i := hord
        simp [hsel, htrg, hji, Category.fills, passFills]
    · simp [hsel, htrg, Category.fills]
  · by_cases hglb : itMu2.isGlobalMuon = true
    · simp [hsel, hglb, Category.fills]
    · by_cases hsta : itMu2.isStandAloneMuon = true
      · simp [hsel, hglb, hsta, Category.fills]
      · cases hin : itMu2.innerTrack with
        | none => simp [hsel, hglb, hsta]
        | some innerTrack =>
          by_cases hq : innerTrack.track.hitPattern.trackerLayersWithMeasurement ≥ 6
              ∧ innerTrack.track.hitPattern.numberOfValidPixelHits ≥ 1
          · simp [hsel, hglb, hsta, hq, Category.fills]
          · simp [hsel, hglb, hsta, hq]

/-- The categorization block throws only when it dereferences a null inner track. -/
theorem muonCategoryFills_exc (cfg : Config) (ls : Nat) (pv : Vertex) (trgEvt : TriggerEvent)
    (i j : Nat) (itMu2 : Muon) (tagC probeC : Bool) (m : ℚ) (hin : itMu2.innerTrack ≠ none) :
    (muonCategoryFills cfg ls pv trgEvt i j itMu2 tagC probeC m).exc = none := by
  unfold muonCategoryFills
  cases h : itMu2.innerTrack with
  | none => exact absurd h hin
  | some innerTrack =>
    simp only []
    split_ifs <;> rfl

/-- C10, as amended: for an accepted tag and a probe that passes the probe cuts,
the fills made for the pair are those of at most one category, never two: either
nothing or the fills of the category the probe falls in by the priority order
2HLT, 1HLT, NoSel, Sta, Trk. They are the fills of that category, and not
nothing, when the category is 1HLT, NoSel, Sta or Trk, or is 2HLT with the tag
standing before the probe in the collection. Nothing is filled when the probe
falls in no category, and nothing is filled for this role assignment when the
category is 2HLT, the tag stands after the probe and the probe is itself an
accepted tag. -/
theorem muonProbe_fills_by_category (cfg : Config) (ls : Nat) (pv : Vertex)
    (trgEvt : TriggerEvent) (i j : Nat) (itMu1 itMu2 : Muon)
    (htag : tagSelection cfg pv (some trgEvt) itMu1 = .ok true) (hij : j ≠ i)
    (hcuts : passesProbeCuts cfg itMu1 itMu2) :
    ((muonProbe cfg ls pv trgEvt (i, itMu1) (j, itMu2)).fills = []
      ∨ ∃ c : Category, probeCategory cfg pv trgEvt itMu2 = some c
          ∧ (muonProbe cfg ls pv trgEvt (i, itMu1) (j, itMu2)).fills
            = c.fills ls (dilepMass cfg itMu1 itMu2) (isCentral cfg itMu1) (isCentral cfg itMu2))
    ∧ (∀ c : Category, probeCategory cfg pv trgEvt itMu2 = some c → (c ≠ .cat2HLT ∨ i < j) →
        (muonProbe cfg ls pv trgEvt (i, itMu1) (j, itMu2)).fills
          = c.fills ls (dilepMass cfg itMu1 itMu2) (isCentral cfg itMu1) (isCentral cfg itMu2)
        ∧ (muonProbe cfg ls pv trgEvt (i, itMu1) (j, itMu2)).fills ≠ [])
    ∧ (probeCategory cfg pv trgEvt itMu2 = none →
        (muonProbe cfg ls pv trgEvt (i, itMu1) (j, itMu2)).fills = [])
    ∧ (probeCategory cfg pv trgEvt itMu2 = some .cat2HLT → j < i →
        tagSelection cfg pv (some trgEvt) itMu2 = .ok true →
        (muonProbe cfg ls pv trgEvt (i, itMu1) (j, itMu2)).fills = [])
    ∧ (itMu2.innerTrack ≠ none → (muonProbe cfg ls pv trgEvt (i, itMu1) (j, itMu2)).exc = none) := by
  have _ := htag
  rw [muonProbe_of_cuts cfg ls pv trgEvt i j itMu1 itMu2 hij hcuts]
  have hf := muonCategoryFills_fills cfg ls pv trgEvt i j itMu2 (isCentral cfg itMu1)
    (isCentral cfg itMu2) (dilepMass cfg itMu1 itMu2)
  refine ⟨?_, ?_, ?_, ?_, muonCategoryFills_exc cfg ls pv trgEvt i j itMu2 _ _ _⟩
  · rw [hf]
    cases hc : probeCategory cfg pv trgEvt itMu2 with
    | none => exact Or.inl rfl
    | some c =>
      by_cases h2 : c = .cat2HLT ∧ j < i
      · left
        simp [h2]
      · right
        exact ⟨c, rfl, by simp only [h2, if_false]⟩
  · intro c hc hord
    have h2 : ¬ (c = .cat2HLT ∧ j < i) := by
      rintro ⟨h3, h4⟩
      rcases hord with h5 | h5
      · exact h5 h3
      · omega
    have h6 : (muonCategoryFills cfg ls pv trgEvt i j itMu2 (isCentral cfg itMu1)
        (isCentral cfg itMu2) (dilepMass cfg itMu1 itMu2)).fills
        = c.fills ls (dilepMass cfg itMu1 itMu2) (isCentral cfg itMu1) (isCentral cfg itMu2) := by
      rw [hf, hc]
      simp only [h2, if_false]
    refine ⟨h6, ?_⟩
    rw [h6]
    exact Category.fills_ne_nil c ls _ _ _
  · intro hc
    rw [hf, hc]
  · intro hc hji _
    rw [hf, hc]
    simp [hji]

theorem muonProbe_fills_by_category_witness :
    tagSelection sampleConfig sampleVertex (some allMatch) scenarioTag = .ok true
    ∧ passesProbeCuts sampleConfig scenarioTag centralStaMuon
    ∧ probeCategory sampleConfig sampleVertex allMatch centralStaMuon = some .catSta
    ∧ (muonProbe sampleConfig 7 sampleVertex allMatch (0, scenarioTag)
        (1, centralStaMuon)).fills
      = Category.fills .catSta 7 91 true true
    ∧ (muonProbe sampleConfig 7 sampleVertex allMatch (0, scenarioTag)
        (1, centralStaMuon)).fills ≠ []
    ∧ (muonProbe sampleConfig 7 sampleVertex allMatch (0, scenarioTag)
        (1, centralStaMuon)).exc = none := by
  have htag : tagSelection sampleConfig sampleVertex (some allMatch) scenarioTag
      = .ok true := by
    norm_num [tagSelection, sampleConfig, goodMuon, scenarioTag, allMatch,
      passMuonID, passMuonIso, isMuonTriggerObj, abs_le]
  have hcuts : passesProbeCuts sampleConfig scenarioTag centralStaMuon := by
    norm_num [passesProbeCuts, dilepMass, sampleConfig, goodMuon, scenarioTag,
      nonIsolatedMuon, centralStaMuon, abs_le]
  have hsel : passesSelection sampleConfig sampleVertex centralStaMuon = false := by
    norm_num [passesSelection, sampleConfig, nonIsolatedMuon, centralStaMuon,
      passMuonID, passMuonIso]
    decide
  have hcat : probeCategory sampleConfig sampleVertex allMatch centralStaMuon
      = some .catSta := by
    unfold probeCategory
    rw [hsel]
    rfl
  have hc1 : isCentral sampleConfig scenarioTag = true := by
    norm_num [isCentral, sampleConfig, goodMuon, scenarioTag, abs_lt]
  have hc2 : isCentral sampleConfig centralStaMuon = true := by
    norm_num [isCentral, sampleConfig, nonIsolatedMuon, centralStaMuon, abs_lt]
  have h := muonProbe_fills_by_category sampleConfig 7 sampleVertex allMatch 0 1 scenarioTag
    centralStaMuon htag (by decide) hcuts
  have h2 := h.2.1 .catSta hcat (Or.inl (by decide))
  refine ⟨htag, hcuts, hcat, ?_, h2.2,
    h.2.2.2.2 (by simp [nonIsolatedMuon, centralStaMuon])⟩
  rw [h2.1, hc1, hc2]
  rfl

/-- C10 as stated fails: for the accepted tag `scenarioTag` the probe
`lowQualityProbe`, which passes the probe cuts, fails the isolation, is neither a
global nor a standalone muon and has an inner track with 3 tracker layers, fills
nothing; and of the two muons `sampleMuA` and `sampleMuB`, both accepted tags,
the role assignment with the tag `sampleMuB` standing after the probe `sampleMuA`
fills nothing, the probe passing the probe cuts, ID, isolation and the trigger
match. In both cases the pair has the fills of no category, since every category
has at least one fill. -/
theorem muonProbe_no_category_counterexample :
    (tagSelection sampleConfig sampleVertex (some allMatch) scenarioTag = .ok true
      ∧ passesProbeCuts sampleConfig scenarioTag lowQualityProbe
      ∧ probeCategory sampleConfig sampleVertex allMatch lowQualityProbe = none
      ∧ muonProbe sampleConfig 7 sampleVertex allMatch (0, scenarioTag)
          (1, lowQualityProbe) = ⟨[], none⟩)
    ∧ (tagSelection sampleConfig sampleVertex (some allMatch) sampleMuB = .ok true
      ∧ tagSelection sampleConfig sampleVertex (some allMatch) sampleMuA = .ok true
      ∧ passesProbeCuts sampleConfig sampleMuB sampleMuA
      ∧ probeCategory sampleConfig sampleVertex allMatch sampleMuA = some .cat2HLT
      ∧ muonProbe sampleConfig 7 sampleVertex allMatch (1, sampleMuB)
          (0, sampleMuA) = ⟨[], none⟩)
    ∧ ¬ (∃ c : Category, ∃ m : ℚ, ∃ tagC probeC : Bool,
          ([] : List Fill) = c.fills 7 m tagC probeC) := by
  have htag : tagSelection sampleConfig sampleVertex (some allMatch) scenarioTag
      = .ok true := by
    norm_num [tagSelection, sampleConfig, goodMuon, scenarioTag, allMatch,
      passMuonID, passMuonIso, isMuonTriggerObj, abs_le]
  have hA : tagSelection sampleConfig sampleVertex (some allMatch) sampleMuA = .ok true := by
    norm_num [tagSelection, sampleConfig, sampleMuA, goodMuon, allMatch, passMuonID,
      passMuonIso, isMuonTriggerObj, abs_le]
  have hB : tagSelection sampleConfig sampleVertex (some allMatch) sampleMuB = .ok true := by
    norm_num [tagSelection, sampleConfig, sampleMuB, goodMuon, allMatch, passMuonID,
      passMuonIso, isMuonTriggerObj, abs_le]
  have hcuts1 : passesProbeCuts sampleConfig scenarioTag lowQualityProbe := by
    norm_num [passesProbeCuts, dilepMass, sampleConfig, goodMuon, scenarioTag,
      nonIsolatedMuon, lowQualityProbe, abs_le]
  have hcuts2 : passesProbeCuts sampleConfig sampleMuB sampleMuA := by
    norm_num [passesProbeCuts, dilepMass, sampleConfig, goodMuon, sampleMuA, sampleMuB, abs_le]
  have hsel1 : passesSelection sampleConfig sampleVertex lowQualityProbe = false := by
    norm_num [passesSelection, sampleConfig, nonIsolatedMuon, lowQualityProbe,
      passMuonID, passMuonIso]
    decide
  have hcat1 : probeCategory sampleConfig sampleVertex allMatch lowQualityProbe = none := by
    unfold probeCategory
    rw [hsel1]
    rfl
  have hcat2 : probeCategory sampleConfig sampleVertex allMatch sampleMuA = some .cat2HLT := by
    norm_num [probeCategory, passesSelection, matchesTrigger, sampleConfig, goodMuon,
      sampleMuA, allMatch, passMuonID, passMuonIso, isMuonTriggerObj]
  refine ⟨⟨htag, hcuts1, hcat1, ?_⟩, ⟨hB, hA, hcuts2, hcat2, ?_⟩, ?_⟩
  · rw [muonProbe_of_cuts _ _ _ _ 0 1 _ _ (by decide) hcuts1]
    norm_num [muonCategoryFills, sampleConfig, nonIsolatedMuon, lowQualityProbe, passMuonID,
      passMuonIso]
    decide
  · rw [muonProbe_of_cuts _ _ _ _ 1 0 _ _ (by decide) hcuts2]
    norm_num [muonCategoryFills, sampleConfig, goodMuon, sampleMuA, sampleMuB, passMuonID,
      passMuonIso, allMatch, isMuonTriggerObj]
  · rintro ⟨c, m, tagC, probeC, h⟩
    exact Category.fills_ne_nil c 7 m tagC probeC h.symm

/-! ## Tag selection and the two role assignments of a pair -/

/-- An accepted tag passes the tag cuts, ID, isolation and the trigger match. -/
theorem tagSelection_ok_true (cfg : Config) (pv : Vertex) (trgEvt : TriggerEvent) (mu : Muon) :
    tagSelection cfg pv (some trgEvt) mu = .ok true ↔
      (cfg.PtCutL1_ ≤ mu.muonBestTrack.pt ∧ |mu.muonBestTrack.eta| ≤ cfg.EtaCutL1_
        ∧ passesSelection cfg pv mu = true ∧ matchesTrigger trgEvt mu = true) := by
  unfold tagSelection passesSelection matchesTrigger
  by_cases h1 : mu.muonBestTrack.pt < cfg.PtCutL1_
  · simp [h1, not_le.mpr h1]
  · by_cases h2 : |mu.muonBestTrack.eta| > cfg.EtaCutL1_
    · simp only [h1, h2, if_true, if_false]
      constructor
      · intro h; cases h
      · intro h; exact absurd h.2.1 (not_le.mpr h2)
    · by_cases h3 : (passMuonID mu pv cfg.IDType_ && passMuonIso mu cfg.IsoType_ cfg.IsoCut_) = true
      · by_cases h4 : isMuonTriggerObj trgEvt mu.muonBestTrack.eta mu.muonBestTrack.phi = true
        · simp only [h1, h2, h3, h4, if_false, Bool.not_true, Bool.false_eq_true]
          simp [not_lt.mp h1, not_lt.mp h2]
        · simp [h1, h2, h3, h4]
      · simp only [h1, h2, h3, if_false]
        simp

/-- Without a trigger event no muon is accepted as a tag. -/
theorem tagSelection_none_ne_true (cfg : Config) (pv : Vertex) (mu : Muon) :
    tagSelection cfg pv none mu ≠ .ok true := by
  by_cases h1 : mu.muonBestTrack.pt < cfg.PtCutL1_
  · simp [tagSelection, h1]
  · by_cases h2 : |mu.muonBestTrack.eta| > cfg.EtaCutL1_
    · simp [tagSelection, h1, h2]
    · by_cases h3 : (passMuonID mu pv cfg.IDType_ && passMuonIso mu cfg.IsoType_ cfg.IsoCut_) = true
      · simp [tagSelection, h1, h2, h3]
      · simp [tagSelection, h1, h2, h3]

/-- The bounds every category satisfies: at most one yield fill and at most two
fills in each pass leg. -/
theorem Category.fills_bounds (c : Category) (ls : Nat) (m : ℚ) (tagC probeC : Bool) :
    countHist .h_yield_Z (c.fills ls m tagC probeC) ≤ 1
    ∧ countHist .h_mass_HLT_pass_central (c.fills ls m tagC probeC)
        + countHist .h_mass_HLT_pass_forward (c.fills ls m tagC probeC) ≤ 2
    ∧ countHist .h_mass_SIT_pass_central (c.fills ls m tagC probeC)
        + countHist .h_mass_SIT_pass_forward (c.fills ls m tagC probeC) ≤ 2
    ∧ countHist .h_mass_Sta_pass_central (c.fills ls m tagC probeC)
        + countHist .h_mass_Sta_pass_forward (c.fills ls m tagC probeC) ≤ 2 := by
  cases c <;> cases tagC <;> cases probeC <;>
    simp [Category.fills, passFills, countHist, massFill, yieldFill]

/-- The fills of one iteration of the muon probe loop: at most one yield fill and
at most two fills in each pass leg. -/
theorem muonProbe_bounds (cfg : Config) (ls : Nat) (pv : Vertex) (trgEvt : TriggerEvent)
    (tag probe : Nat × Muon) :
    countHist .h_yield_Z (muonProbe cfg ls pv trgEvt tag probe).fills ≤ 1
    ∧ countHist .h_mass_HLT_pass_central (muonProbe cfg ls pv trgEvt tag probe).fills
        + countHist .h_mass_HLT_pass_forward (muonProbe cfg ls pv trgEvt tag probe).fills ≤ 2
    ∧ countHist .h_mass_SIT_pass_central (muonProbe cfg ls pv trgEvt tag probe).fills
        + countHist .h_mass_SIT_pass_forward (muonProbe cfg ls pv trgEvt tag probe).fills ≤ 2
    ∧ countHist .h_mass_Sta_pass_central (muonProbe cfg ls pv trgEvt tag probe).fills
        + countHist .h_mass_Sta_pass_forward (muonProbe cfg ls pv trgEvt tag probe).fills ≤ 2 := by
  obtain ⟨i, itMu1⟩ := tag
  obtain ⟨j, itMu2⟩ := probe
  by_cases h : j ≠ i ∧ passesProbeCuts cfg itMu1 itMu2
  · rw [muonProbe_of_cuts cfg ls pv trgEvt i j itMu1 itMu2 h.1 h.2, muonCategoryFills_fills]
    cases probeCategory cfg pv trgEvt itMu2 with
    | none => simp [countHist]
    | some c =>
      by_cases hc : c = .cat2HLT ∧ j < i
      · simp [hc, countHist]
      · simp only [hc, if_false]
        exact Category.fills_bounds c ls _ _ _
  · have h2 : j = i ∨ ¬ passesProbeCuts cfg itMu1 itMu2 := by
      by_cases hij : j = i
      · exact Or.inl hij
      · exact Or.inr (fun hc => h ⟨hij, hc⟩)
    rw [muonProbe_of_not_cuts cfg ls pv trgEvt i j itMu1 itMu2 h2]
    simp [countHist]

/-- A probe that is itself an accepted tag and stands before the tag fills nothing. -/
theorem muonProbe_tag_before (cfg : Config) (ls : Nat) (pv : Vertex) (trgEvt : TriggerEvent)
    (i j : Nat) (itMu1 itMu2 : Muon) (hji : j < i)
    (hprobe : tagSelection cfg pv (some trgEvt) itMu2 = .ok true) :
    (muonProbe cfg ls pv trgEvt (i, itMu1) (j, itMu2)).fills = [] := by
  obtain ⟨-, -, hsel, htrg⟩ := (tagSelection_ok_true cfg pv trgEvt itMu2).mp hprobe
  by_cases hc : passesProbeCuts cfg itMu1 itMu2
  · rw [muonProbe_of_cuts cfg ls pv trgEvt i j itMu1 itMu2 (by omega) hc, muonCategoryFills_fills]
    have hcat : probeCategory cfg pv trgEvt itMu2 = some .cat2HLT := by
      simp [probeCategory, hsel, htrg]
    simp [hcat, hji]
  · rw [muonProbe_of_not_cuts cfg ls pv trgEvt i j itMu1 itMu2 (Or.inr hc)]

/-- For an accepted tag the pair has the fills of the probe loop body. -/
theorem pairOut_of_accepted (cfg : Config) (ls : Nat) (pv : Vertex) (trgEvt : TriggerEvent)
    (tag probe : Nat × Muon) (h : tagSelection cfg pv (some trgEvt) tag.2 = .ok true) :
    pairOut cfg ls pv (some trgEvt) tag probe = muonProbe cfg ls pv trgEvt tag probe := by
  unfold pairOut
  rw [h]

/-- A muon that is not accepted as a tag makes no fill as a tag. -/
theorem pairOut_of_not_accepted (cfg : Config) (ls : Nat) (pv : Vertex)
    (hTrgEvt : Option TriggerEvent) (tag probe : Nat × Muon)
    (h : tagSelection cfg pv hTrgEvt tag.2 ≠ .ok true) :
    pairOut cfg ls pv hTrgEvt tag probe = ⟨[], none⟩ := by
  unfold pairOut
  split
  · rename_i h1
    exact absurd h1 h
  · rfl

/-- Of the two role assignments of a pair of distinct muons at most one fills anything. -/
theorem pairOut_swap_nil (cfg : Config) (ls : Nat) (pv : Vertex) (hTrgEvt : Option TriggerEvent)
    (i j : Nat) (muA muB : Muon) (hij : i ≠ j) :
    (pairOut cfg ls pv hTrgEvt (i, muA) (j, muB)).fills = []
    ∨ (pairOut cfg ls pv hTrgEvt (j, muB) (i, muA)).fills = [] := by
  cases hTrgEvt with
  | none =>
    left
    rw [pairOut_of_not_accepted cfg ls pv none (i, muA) (j, muB)
      (tagSelection_none_ne_true cfg pv muA)]
  | some trgEvt =>
    by_cases hA : tagSelection cfg pv (some trgEvt) muA = .ok true
    · by_cases hB : tagSelection cfg pv (some trgEvt) muB = .ok true
      · rcases Nat.lt_or_gt_of_ne hij with hlt | hgt
        · right
          rw [pairOut_of_accepted cfg ls pv trgEvt (j, muB) (i, muA) hB]
          exact muonProbe_tag_before cfg ls pv trgEvt j i muB muA hlt hA
        · left
          rw [pairOut_of_accepted cfg ls pv trgEvt (i, muA) (j, muB) hA]
          exact muonProbe_tag_before cfg ls pv trgEvt i j muA muB hgt hB
      · right
        rw [pairOut_of_not_accepted cfg ls pv (some trgEvt) (j, muB) (i, muA) hB]
    · left
      rw [pairOut_of_not_accepted cfg ls pv (some trgEvt) (i, muA) (j, muB) hA]

/-- The bounds of `muonProbe_bounds` for the fills of a pair. -/
theorem pairOut_bounds (cfg : Config) (ls : Nat) (pv : Vertex) (hTrgEvt : Option TriggerEvent)
    (tag probe : Nat × Muon) :
    countHist .h_yield_Z (pairOut cfg ls pv hTrgEvt tag probe).fills ≤ 1
    ∧ countHist .h_mass_HLT_pass_central (pairOut cfg ls pv hTrgEvt tag probe).fills
        + countHist .h_mass_HLT_pass_forward (pairOut cfg ls pv hTrgEvt tag probe).fills ≤ 2
    ∧ countHist .h_mass_SIT_pass_central (pairOut cfg ls pv hTrgEvt tag probe).fills
        + countHist .h_mass_SIT_pass_forward (pairOut cfg ls pv hTrgEvt tag probe).fills ≤ 2
    ∧ countHist .h_mass_Sta_pass_central (pairOut cfg ls pv hTrgEvt tag probe).fills
        + countHist .h_mass_Sta_pass_forward (pairOut cfg ls pv hTrgEvt tag probe).fills ≤ 2 := by
  unfold pairOut
  split
  · exact muonProbe_bounds cfg ls pv _ tag probe
  · simp [countHist]

/-- C2: for two distinct muons A and B, over both role assignments (A tag with B
probe, B tag with A probe) the pair is not double-filled: at most one of the two
assignments fills anything, so the unordered pair contributes at most one fill
to `h_yield_Z` and at most two fills to each of the HLT-pass, SIT-pass and
Sta-pass legs. -/
theorem pair_not_double_filled (cfg : Config) (ls : Nat) (pv : Vertex)
    (hTrgEvt : Option TriggerEvent) (i j : Nat) (muA muB : Muon) (hij : i ≠ j) :
    ((pairOut cfg ls pv hTrgEvt (i, muA) (j, muB)).fills = []
      ∨ (pairOut cfg ls pv hTrgEvt (j, muB) (i, muA)).fills = [])
    ∧ countHist .h_yield_Z ((pairOut cfg ls pv hTrgEvt (i, muA) (j, muB)).fills
        ++ (pairOut cfg ls pv hTrgEvt (j, muB) (i, muA)).fills) ≤ 1
    ∧ (∀ leg ∈ [(Hist.h_mass_HLT_pass_central, Hist.h_mass_HLT_pass_forward),
                (Hist.h_mass_SIT_pass_central, Hist.h_mass_SIT_pass_forward),
                (Hist.h_mass_Sta_pass_central, Hist.h_mass_Sta_pass_forward)],
        countHist leg.1 ((pairOut cfg ls pv hTrgEvt (i, muA) (j, muB)).fills
            ++ (pairOut cfg ls pv hTrgEvt (j, muB) (i, muA)).fills)
          + countHist leg.2 ((pairOut cfg ls pv hTrgEvt (i, muA) (j, muB)).fills
            ++ (pairOut cfg ls pv hTrgEvt (j, muB) (i, muA)).fills) ≤ 2) := by
  have hnil := pairOut_swap_nil cfg ls pv hTrgEvt i j muA muB hij
  refine ⟨hnil, ?_⟩
  obtain ⟨a1, a2, a3, a4⟩ := pairOut_bounds cfg ls pv hTrgEvt (i, muA) (j, muB)
  obtain ⟨b1, b2, b3, b4⟩ := pairOut_bounds cfg ls pv hTrgEvt (j, muB) (i, muA)
  rcases hnil with h | h
  · rw [h]
    simp only [List.nil_append, List.mem_cons, List.mem_singleton, List.not_mem_nil, or_false,
      forall_eq_or_imp, forall_eq]
    exact ⟨b1, b2, b3, b4⟩
  · rw [h]
    simp only [List.append_nil, List.mem_cons, List.mem_singleton, List.not_mem_nil, or_false,
      forall_eq_or_imp, forall_eq]
    exact ⟨a1, a2, a3, a4⟩

theorem pair_not_double_filled_witness :
    (0 : Nat) ≠ 1
    ∧ tagSelection sampleConfig sampleVertex (some allMatch) sampleMuA = .ok true
    ∧ tagSelection sampleConfig sampleVertex (some allMatch) sampleMuB = .ok true
    ∧ (pairOut sampleConfig 7 sampleVertex (some allMatch) (0, sampleMuA)
        (1, sampleMuB)).fills.length = 7
    ∧ (pairOut sampleConfig 7 sampleVertex (some allMatch) (1, sampleMuB)
        (0, sampleMuA)).fills = []
    ∧ countHist .h_yield_Z
        ((pairOut sampleConfig 7 sampleVertex (some allMatch) (0, sampleMuA)
          (1, sampleMuB)).fills
        ++ (pairOut sampleConfig 7 sampleVertex (some allMatch) (1, sampleMuB)
          (0, sampleMuA)).fills) ≤ 1 := by
  have hA : tagSelection sampleConfig sampleVertex (some allMatch) sampleMuA
      = .ok true := by
    norm_num [tagSelection, sampleConfig, sampleMuA, sampleMuB, goodMuon, scenarioTag,
      scenarioProbe, allMatch, passMuonID, passMuonIso, isMuonTriggerObj, abs_le]
  have hB : tagSelection sampleConfig sampleVertex (some allMatch) sampleMuB
      = .ok true := by
    norm_num [tagSelection, sampleConfig, sampleMuA, sampleMuB, goodMuon, scenarioTag,
      scenarioProbe, allMatch, passMuonID, passMuonIso, isMuonTriggerObj, abs_le]
  have hcuts : passesProbeCuts sampleConfig sampleMuA
      sampleMuB := by
    norm_num [passesProbeCuts, dilepMass, sampleConfig, sampleMuA, sampleMuB, goodMuon, scenarioTag,
      scenarioProbe, abs_le]
  have hF : (pairOut sampleConfig 7 sampleVertex (some allMatch) (0, sampleMuA)
      (1, sampleMuB)).fills.length = 7 := by
    rw [pairOut_of_accepted _ _ _ _ _ _ hA, muonProbe_of_cuts _ _ _ _ 0 1 _ _ (by decide) hcuts,
      muonCategoryFills_fills]
    have hcat : probeCategory sampleConfig sampleVertex allMatch sampleMuB
        = some .cat2HLT := by
      norm_num [probeCategory, passesSelection, matchesTrigger, sampleConfig, sampleMuA, sampleMuB,
        goodMuon, scenarioTag, scenarioProbe, allMatch, passMuonID, passMuonIso, isMuonTriggerObj]
    rw [hcat]
    cases isCentral sampleConfig sampleMuA <;>
      cases isCentral sampleConfig sampleMuB <;>
      simp [Category.fills, passFills]
  have hG : (pairOut sampleConfig 7 sampleVertex (some allMatch) (1, sampleMuB)
      (0, sampleMuA)).fills = [] := by
    rw [pairOut_of_accepted _ _ _ _ _ _ hB]
    exact muonProbe_tag_before _ _ _ _ 1 0 _ _ (by decide) hA
  exact ⟨by decide, hA, hB, hF, hG,
    (pair_not_double_filled sampleConfig 7 sampleVertex (some allMatch) 0 1 _ _ (by decide)).2.1⟩

/-! ## The muon channel as the fills of its pairs -/

/-- A loop whose bodies do not throw makes the fills of its bodies, in order. -/
theorem forEach_of_no_exc {α : Type} (body : α → Out) (xs : List α)
    (h : ∀ x ∈ xs, (body x).exc = none) :
    forEach body xs = ⟨xs.flatMap (fun x => (body x).fills), none⟩ := by
  induction xs with
  | nil => rfl
  | cons x rest ih =>
    have hx : (body x).exc = none := h x (List.mem_cons_self x rest)
    have hrest := ih (fun y hy => h y (List.mem_cons_of_mem x hy))
    unfold forEach
    cases hb : body x with
    | mk fs exc =>
      rw [hb] at hx
      simp only at hx
      subst hx
      simp only [hrest, List.flatMap_cons, hb]

/-- The body of the muon probe loop throws only on a null inner track. -/
theorem muonProbe_exc (cfg : Config) (ls : Nat) (pv : Vertex) (trgEvt : TriggerEvent)
    (tag probe : Nat × Muon) (hin : probe.2.innerTrack ≠ none) :
    (muonProbe cfg ls pv trgEvt tag probe).exc = none := by
  obtain ⟨i, itMu1⟩ := tag
  obtain ⟨j, itMu2⟩ := probe
  by_cases h : j ≠ i ∧ passesProbeCuts cfg itMu1 itMu2
  · rw [muonProbe_of_cuts cfg ls pv trgEvt i j itMu1 itMu2 h.1 h.2]
    exact muonCategoryFills_exc cfg ls pv trgEvt i j itMu2 _ _ _ hin
  · have h2 : j = i ∨ ¬ passesProbeCuts cfg itMu1 itMu2 := by
      by_cases hij : j = i
      · exact Or.inl hij
      · exact Or.inr (fun hc => h ⟨hij, hc⟩)
    rw [muonProbe_of_not_cuts cfg ls pv trgEvt i j itMu1 itMu2 h2]

/-- The body of the track probe loop never throws. -/
theorem trackProbe_exc (cfg : Config) (ls : Nat) (muons : List Muon) (tag : Nat × Muon)
    (trk : Nat × Track) : (trackProbe cfg ls muons tag trk).exc = none := by
  unfold trackProbe
  simp only []
  split_ifs <;> rfl

/-- With a trigger event the tag selection does not throw. -/
theorem tagSelection_some_ne_error (cfg : Config) (pv : Vertex) (trgEvt : TriggerEvent)
    (mu : Muon) (e : Exc) : tagSelection cfg pv (some trgEvt) mu ≠ .error e := by
  by_cases h1 : mu.muonBestTrack.pt < cfg.PtCutL1_
  · simp [tagSelection, h1]
  · by_cases h2 : |mu.muonBestTrack.eta| > cfg.EtaCutL1_
    · simp [tagSelection, h1, h2]
    · by_cases h3 : (passMuonID mu pv cfg.IDType_ && passMuonIso mu cfg.IsoType_ cfg.IsoCut_) = true
      · by_cases h4 : isMuonTriggerObj trgEvt mu.muonBestTrack.eta mu.muonBestTrack.phi = true
        · simp [tagSelection, h1, h2, h3, h4]
        · simp [tagSelection, h1, h2, h3, h4]
      · simp [tagSelection, h1, h2, h3]

/-- One iteration of the tag loop makes the fills of its pairs, when the trigger
event is present and every muon has an inner track. -/
theorem muonTag_eq_tagFills (cfg : Config) (ls : Nat) (pv : Vertex) (trgEvt : TriggerEvent)
    (muons : List Muon) (tracks : List Track) (tag : Nat × Muon)
    (hin : ∀ mu ∈ muons, mu.innerTrack ≠ none) :
    muonTag cfg ls pv (some trgEvt) muons tracks tag
      = ⟨tagFills cfg ls pv (some trgEvt) muons tracks tag, none⟩ := by
  have hmem : ∀ probe ∈ muons.enum, probe.2.innerTrack ≠ none := by
    intro probe hp
    obtain ⟨j, mu⟩ := probe
    exact hin mu ((List.mem_enum hp).2 ▸ List.getElem_mem _)
  unfold muonTag tagFills pairOut trackPairOut
  cases hsel : tagSelection cfg pv (some trgEvt) tag.2 with
  | error e => exact absurd hsel (tagSelection_some_ne_error cfg pv trgEvt tag.2 e)
  | ok b =>
    cases b with
    | false => simp
    | true =>
      simp only []
      rw [forEach_of_no_exc (muonProbe cfg ls pv trgEvt tag) muons.enum
        (fun probe hp => muonProbe_exc cfg ls pv trgEvt tag probe (hmem probe hp))]
      simp only []
      rw [forEach_of_no_exc (trackProbe cfg ls muons tag) tracks.enum
        (fun trk _ => trackProbe_exc cfg ls muons tag trk)]

/-- An event that passes the vertex gate and the trigger gate of the muon
channel, with all its collections present and an inner track for every muon,
fills `h_npv` and then, tag by tag in collection order, the fills of the pairs of
each tag. -/
theorem analyzeMuons_eq_tagFills (cfg : Config) (st : State) (iEvent : Event)
    (pvCol : List Vertex) (pv : Vertex) (nvtx : Nat) (hTrgRes : TriggerResults)
    (triggerBits : TriggerBits) (trgEvt : TriggerEvent) (muons : List Muon) (tracks : List Track)
    (hv : iEvent.hVertexProduct = some pvCol) (hscan : vertexScan cfg pvCol = (some pv, nvtx))
    (hn : nvtx ≠ 0) (hres : iEvent.hTrgRes = some hTrgRes)
    (hbits : fillTriggerBits hTrgRes (updateTrigger cfg st hTrgRes).fTrigger.fRecords
      = .ok triggerBits)
    (hpass : isMuonTrigger (updateTrigger cfg st hTrgRes).fTrigger triggerBits = true)
    (hevt : iEvent.hTrgEvt = some trgEvt) (hmu : iEvent.hMuonProduct = some muons)
    (htrk : iEvent.hTrackProduct = some tracks) (hin : ∀ mu ∈ muons, mu.innerTrack ≠ none) :
    analyzeMuons cfg st iEvent
      = ⟨updateTrigger cfg st hTrgRes,
          ⟨.h_npv, iEvent.luminosityBlock, some (nvtx : ℚ)⟩
            :: muons.enum.flatMap
                (tagFills cfg iEvent.luminosityBlock pv (some trgEvt) muons tracks),
          none⟩ := by
  unfold analyzeMuons
  simp only [hv, hscan, hn, if_false, hres, hbits, hpass, Bool.not_true, Bool.false_eq_true,
    hmu, htrk, hevt]
  rw [forEach_of_no_exc]
  · simp only [muonTag_eq_tagFills cfg iEvent.luminosityBlock pv trgEvt muons tracks _ hin]
  · intro tag _
    rw [muonTag_eq_tagFills cfg iEvent.luminosityBlock pv trgEvt muons tracks tag hin]

/-! ## The vertex gate of both channels -/

theorem vertexCountStep_eq (cfg : Config) (n : Nat) (v : Vertex) :
    vertexCountStep cfg n v = if v.qualifies cfg then n + 1 else n := by
  unfold vertexCountStep Vertex.qualifies
  by_cases h1 : v.isFake = true
  · simp [h1]
  · by_cases h2 : (v.tracksSize : ℚ) < cfg.VtxNTracksFitCut_
    · simp [h1, h2, not_le.mpr h2]
    · by_cases h3 : v.ndof < cfg.VtxNdofCut_
      · simp [h1, h2, h3, not_le.mpr h3]
      · by_cases h4 : |v.z| > cfg.VtxAbsZCut_
        · simp [h1, h2, h3, h4, not_le.mpr h4]
        · by_cases h5 : v.rho > cfg.VtxRhoCut_
          · simp [h1, h2, h3, h4, h5, not_le.mpr h5]
          · simp [h1, h2, h3, h4, h5, not_lt.mp h2, not_lt.mp h3, not_lt.mp h4, not_lt.mp h5]

theorem vertexCount_fold (cfg : Config) (vs : List Vertex) :
    ∀ n : Nat, vs.foldl (vertexCountStep cfg) n = n + (vs.filter (Vertex.qualifies cfg)).length := by
  induction vs with
  | nil => intro n; simp
  | cons v rest ih =>
    intro n
    rw [List.foldl_cons, vertexCountStep_eq, ih]
    by_cases hq : v.qualifies cfg = true
    · rw [if_pos hq, List.filter_cons_of_pos hq, List.length_cons]
      omega
    · rw [if_neg hq, List.filter_cons_of_neg hq]

/-- The vertex loop of the electron channel counts the qualifying vertices. -/
theorem vertexCount_eq (cfg : Config) (vs : List Vertex) :
    vertexCount cfg vs = (vs.filter (Vertex.qualifies cfg)).length := by
  unfold vertexCount
  rw [vertexCount_fold]
  omega

/-- The vertex loop of the muon channel counts the qualifying vertices. -/
theorem vertexScan_snd (cfg : Config) (vs : List Vertex) :
    (vertexScan cfg vs).2 = (vs.filter (Vertex.qualifies cfg)).length := by
  have h := (vertexScan_fold cfg vs vs.head? 0).1
  simpa [vertexScan] using h

/-- C5: for an event whose vertex collection contains no vertex passing the
quality predicate, `analyze` (muon channel, then electron channel) fills only
`h_npv`, exactly once with (lumi block, 0), throws nothing and leaves the state
unchanged, whatever the trigger, muon, track, electron and supercluster content. -/
theorem analyze_no_good_vertex (cfg : Config) (st : State) (iEvent : Event)
    (pvCol : List Vertex) (hv : iEvent.hVertexProduct = some pvCol)
    (hbad : ∀ v ∈ pvCol, v.qualifies cfg = false) :
    analyze cfg st iEvent = ⟨st, [⟨.h_npv, iEvent.luminosityBlock, some 0⟩], none⟩
    ∧ (analyzeMuons cfg st iEvent).fills = [⟨.h_npv, iEvent.luminosityBlock, some 0⟩]
    ∧ (analyzeElectrons cfg st iEvent).fills = [] := by
  have hfilter : pvCol.filter (Vertex.qualifies cfg) = [] := by
    rw [List.filter_eq_nil_iff]
    intro v hvmem
    rw [hbad v hvmem]
    simp
  have h1 : (vertexScan cfg pvCol).2 = 0 := by rw [vertexScan_snd, hfilter]; rfl
  have h2 : vertexCount cfg pvCol = 0 := by rw [vertexCount_eq, hfilter]; rfl
  have hmu : analyzeMuons cfg st iEvent
      = ⟨st, [⟨.h_npv, iEvent.luminosityBlock, some 0⟩], none⟩ := by
    unfold analyzeMuons
    rw [hv]
    simp [h1]
  have hel : analyzeElectrons cfg st iEvent = ⟨st, [], none⟩ := by
    unfold analyzeElectrons
    rw [hv]
    simp [h2]
  refine ⟨?_, ?_, ?_⟩
  · unfold analyze
    rw [hmu]
    simp only []
    rw [hel]
    rfl
  · rw [hmu]
  · rw [hel]

theorem analyze_no_good_vertex_witness :
    (sampleEvent [poorVertex]).hVertexProduct = some [poorVertex]
    ∧ (∀ v ∈ [poorVertex], v.qualifies sampleConfig = false)
    ∧ analyze sampleConfig sampleState (sampleEvent [poorVertex])
        = ⟨sampleState, [⟨.h_npv, 7, some 0⟩], none⟩ := by
  have hbad : ∀ v ∈ [poorVertex], v.qualifies sampleConfig = false := by
    intro v hv
    rw [List.mem_singleton] at hv
    subst hv
    norm_num [Vertex.qualifies, poorVertex, sampleConfig]
  exact ⟨rfl, hbad,
    (analyze_no_good_vertex sampleConfig sampleState (sampleEvent [poorVertex]) [poorVertex] rfl
      hbad).1⟩

/-! ## Electron channel: the probe variable `eleProbe` -/

/-- The first event of a run resolves the two sample records against the sample menu. -/
theorem updateTrigger_sample (cfg : Config) (hg : cfg.globMatch = globMatches)
    (accept : List Bool) (h : accept.length = 3) :
    updateTrigger cfg sampleState (sampleResults accept) = ⟨1, resolvedTrigger⟩ := by
  have h1 : initRecord cfg (sampleResults accept) sampleNames
      ⟨"HLT_IsoMu27_v*", "", invalidIndex, 0,
        [("hltL3crIsoL1sMu22Or25L1f0L2f10QL3f27QL3trkIsoFiltered0p07", 0)]⟩
      = ⟨"HLT_IsoMu27_v*", "HLT_IsoMu27_v12", 1, 0,
        [("hltL3crIsoL1sMu22Or25L1f0L2f10QL3f27QL3trkIsoFiltered0p07", 0)]⟩ := by
    have e1 : is_glob "HLT_IsoMu27_v*" = true := by decide
    have e2 : regexMatch cfg sampleNames.triggerNames "HLT_IsoMu27_v*"
        = ["HLT_IsoMu27_v12"] := by
      unfold regexMatch
      rw [hg]
      decide
    have e3 : sampleNames.triggerIndex "HLT_IsoMu27_v12" = 1 := by decide
    simp [initRecord, e1, e2, e3, sampleResults, h]
  have h2 : initRecord cfg (sampleResults accept) sampleNames
      ⟨"HLT_Ele35_WPTight_Gsf_v*", "", invalidIndex, 1,
        [("hltEle35noerWPTightGsfTrackIsoFilter", 1)]⟩
      = ⟨"HLT_Ele35_WPTight_Gsf_v*", "HLT_Ele35_WPTight_Gsf_v7", 2, 1,
        [("hltEle35noerWPTightGsfTrackIsoFilter", 1)]⟩ := by
    have e1 : is_glob "HLT_Ele35_WPTight_Gsf_v*" = true := by decide
    have e2 : regexMatch cfg sampleNames.triggerNames "HLT_Ele35_WPTight_Gsf_v*"
        = ["HLT_Ele35_WPTight_Gsf_v7"] := by
      unfold regexMatch
      rw [hg]
      decide
    have e3 : sampleNames.triggerIndex "HLT_Ele35_WPTight_Gsf_v7" = 2 := by decide
    simp [initRecord, e1, e2, e3, sampleResults, h]
  have h0 : sampleState.fTriggerNamesID ≠ (sampleResults accept).names.parameterSetID := by
    show (0 : Nat) ≠ 1
    decide
  unfold updateTrigger
  simp only [h0, ne_eq, not_false_eq_true, if_true]
  simp only [initHLT, sampleState, sampleTrigger, List.map_cons, List.map_nil, resolvedTrigger]
  rw [show (sampleResults accept).names = sampleNames from rfl, h1, h2]
  rfl

/-- C4, the code at the failing input: with the electrons `sampleEle0` (tag, at
position 0) and `sampleEle1` and the superclusters `sampleSC0, sampleSC1,
sampleSC2`, no electron other than the tag has `sampleSC2` as supercluster, yet
when the probe loop of the tag reaches `sampleSC2` the variable `eleProbe` still
holds `sampleEle1` from the previous supercluster and the probe fills
`h_ee_mass_id_pass`; over the event `h_ee_mass_id_pass` gets 4 fills, 2 of them
from `sampleSC2`. -/
theorem electronProbe_stale_eleProbe :
    (∀ p ∈ [sampleEle0, sampleEle1].enum, p.1 ≠ 0 →
        sampleConfig.scEq sampleSC2 p.2.superCluster = false)
    ∧ findMatchingElectron sampleConfig 0 sampleSC2 none [sampleEle0, sampleEle1].enum = none
    ∧ (forEachS (electronProbe sampleConfig 7 allMatch [sampleEle0, sampleEle1] (0, sampleEle0))
        none [sampleSC0, sampleSC1]).1 = some sampleEle1
    ∧ (electronProbe sampleConfig 7 allMatch [sampleEle0, sampleEle1] (0, sampleEle0)
        (some sampleEle1) sampleSC2).2.fills
      = [yieldFill .h_ee_yield_Z 7, massFill .h_ee_mass_HLT_pass 7 91,
         massFill .h_ee_mass_id_pass 7 91]
    ∧ (electronProbe sampleConfig 7 allMatch [sampleEle0, sampleEle1] (0, sampleEle0)
        none sampleSC2).2.fills
      = [yieldFill .h_ee_yield_Z 7, massFill .h_ee_mass_HLT_pass 7 91,
         massFill .h_ee_mass_id_fail 7 91]
    ∧ countHist .h_ee_mass_id_pass
        (analyzeElectrons sampleConfig sampleState (sampleEvent [sampleVertex])).fills = 4 := by
  refine ⟨?_, ?_, ?_, ?_, ?_, ?_⟩
  · decide
  · decide
  · norm_num [forEachS, electronProbe, sampleConfig, sampleEle0, sampleEle1, sampleSC0, sampleSC1,
      findMatchingElectron, List.enum, List.enumFrom, allMatch, isElectronTriggerObj, abs_le, abs_lt]
  · norm_num [electronProbe, sampleConfig, sampleEle0, sampleEle1, sampleSC0, sampleSC1, sampleSC2,
      findMatchingElectron, List.enum, List.enumFrom, allMatch, isElectronTriggerObj, abs_le, abs_lt]
  · norm_num [electronProbe, sampleConfig, sampleEle0, sampleEle1, sampleSC0, sampleSC1, sampleSC2,
      findMatchingElectron, List.enum, List.enumFrom, allMatch, isElectronTriggerObj, abs_le, abs_lt]
  · have hvc : vertexCount sampleConfig [sampleVertex] = 1 := by
      norm_num [vertexCount, vertexCountStep, sampleConfig, sampleVertex]
    have hbits : fillTriggerBits (sampleResults [true, true, true]) resolvedTrigger.fRecords
        = .ok [0, 1] := by rfl
    have hpass : isElectronTrigger resolvedTrigger [0, 1] = true := by decide
    have hloop : (forEachS
        (electronTag sampleConfig 7 (some allMatch) [sampleEle0, sampleEle1]
          (some [sampleSC0, sampleSC1, sampleSC2])) none [sampleEle0, sampleEle1].enum).2.fills
        = [yieldFill .h_ee_yield_Z 7, massFill .h_ee_mass_HLT_pass 7 91,
           massFill .h_ee_mass_id_pass 7 91,
           yieldFill .h_ee_yield_Z 7, massFill .h_ee_mass_HLT_pass 7 91,
           massFill .h_ee_mass_id_pass 7 91,
           yieldFill .h_ee_yield_Z 7, massFill .h_ee_mass_HLT_pass 7 91,
           massFill .h_ee_mass_id_pass 7 91,
           yieldFill .h_ee_yield_Z 7, massFill .h_ee_mass_HLT_pass 7 91,
           massFill .h_ee_mass_id_pass 7 91] := by
      norm_num [forEachS, electronTag, electronProbe, sampleConfig, sampleEle0, sampleEle1,
        sampleSC0, sampleSC1, sampleSC2, findMatchingElectron, List.enum, List.enumFrom, allMatch,
        isElectronTriggerObj, abs_le, abs_lt]
    have hfills : (analyzeElectrons sampleConfig sampleState (sampleEvent [sampleVertex])).fills
        = (forEachS
          (electronTag sampleConfig 7 (some allMatch) [sampleEle0, sampleEle1]
            (some [sampleSC0, sampleSC1, sampleSC2])) none [sampleEle0, sampleEle1].enum).2.fills := by
      unfold analyzeElectrons
      simp only [sampleEvent, hvc, updateTrigger_sample sampleConfig rfl [true, true, true] rfl,
        hbits, hpass]
      rfl
    rw [hfills, hloop]
    decide

/-! ## The 2HLT category over both role assignments -/

/-- The muon channel on the sample event, for a configuration that differs from
`sampleConfig` in the probe pt cut only: the fills are `h_npv` and those of the
pairs of the two muons. -/
theorem analyzeMuons_sampleEvent (ptCutL2 : ℚ) :
    analyzeMuons { sampleConfig with PtCutL2_ := ptCutL2 } sampleState (sampleEvent [sampleVertex])
      = ⟨⟨1, resolvedTrigger⟩,
          ⟨.h_npv, 7, some 1⟩ ::
            ([(0, sampleMuA), (1, sampleMuB)].flatMap
              (tagFills { sampleConfig with PtCutL2_ := ptCutL2 } 7 sampleVertex (some allMatch)
                [sampleMuA, sampleMuB] [])), none⟩ := by
  have hscan : vertexScan { sampleConfig with PtCutL2_ := ptCutL2 } [sampleVertex]
      = (some sampleVertex, 1) := by
    norm_num [vertexScan, vertexStep, sampleConfig, sampleVertex]
  have hup : updateTrigger { sampleConfig with PtCutL2_ := ptCutL2 } sampleState
      (sampleResults [true, true, true]) = ⟨1, resolvedTrigger⟩ :=
    updateTrigger_sample _ rfl [true, true, true] rfl
  have h := analyzeMuons_eq_tagFills { sampleConfig with PtCutL2_ := ptCutL2 } sampleState
    (sampleEvent [sampleVertex]) [sampleVertex] sampleVertex 1 (sampleResults [true, true, true])
    [0, 1] allMatch [sampleMuA, sampleMuB] [] rfl hscan (by decide) rfl
    (by rw [hup]; rfl) (by rw [hup]; decide) rfl rfl rfl
    (by simp [sampleMuA, sampleMuB, goodMuon, scenarioTag, scenarioProbe])
  rw [h, hup]
  simp [sampleEvent, List.enum, List.enumFrom]

/-- C3 as stated fails: with a probe pt cut (50) above the tag pt cut (27), two
muons of pt 45 and 46 that both pass the full tag selection, have opposite
charge and a pair mass of 91 inside [60, 120] make no fill at all, in either role
assignment; the event with these two muons passes the vertex and trigger gates
and fills `h_npv` only. -/
theorem twoHLT_not_filled_counterexample :
    tagSelection tightProbeConfig sampleVertex (some allMatch) sampleMuA = .ok true
    ∧ tagSelection tightProbeConfig sampleVertex (some allMatch) sampleMuB
        = .ok true
    ∧ sampleMuA.muonBestTrack.charge
        = - sampleMuB.muonBestTrack.charge
    ∧ tightProbeConfig.MassMin_ ≤ dilepMass tightProbeConfig sampleMuA
        sampleMuB
    ∧ dilepMass tightProbeConfig sampleMuA sampleMuB
        ≤ tightProbeConfig.MassMax_
    ∧ tightProbeConfig.MassMin_ ≤ dilepMass tightProbeConfig sampleMuB
        sampleMuA
    ∧ dilepMass tightProbeConfig sampleMuB sampleMuA
        ≤ tightProbeConfig.MassMax_
    ∧ pairOut tightProbeConfig 7 sampleVertex (some allMatch) (0, sampleMuA)
        (1, sampleMuB) = ⟨[], none⟩
    ∧ pairOut tightProbeConfig 7 sampleVertex (some allMatch) (1, sampleMuB)
        (0, sampleMuA) = ⟨[], none⟩
    ∧ analyzeMuons tightProbeConfig sampleState (sampleEvent [sampleVertex])
        = ⟨⟨1, resolvedTrigger⟩, [⟨.h_npv, 7, some 1⟩], none⟩ := by
  have hA : tagSelection tightProbeConfig sampleVertex (some allMatch) sampleMuA
      = .ok true := by
    norm_num [tagSelection, tightProbeConfig, sampleConfig, sampleMuA, sampleMuB, goodMuon,
      scenarioTag, scenarioProbe, allMatch, passMuonID, passMuonIso, isMuonTriggerObj, abs_le]
  have hB : tagSelection tightProbeConfig sampleVertex (some allMatch)
      sampleMuB = .ok true := by
    norm_num [tagSelection, tightProbeConfig, sampleConfig, sampleMuA, sampleMuB, goodMuon,
      scenarioTag, scenarioProbe, allMatch, passMuonID, passMuonIso, isMuonTriggerObj, abs_le]
  have hnot : ∀ a b : Muon, b.muonBestTrack.pt < 50 → ¬ passesProbeCuts tightProbeConfig a b := by
    intro a b hb hc
    have h : (50 : ℚ) ≤ b.muonBestTrack.pt := hc.1
    exact absurd h (not_le.mpr hb)
  have hnil : ∀ (tag probe : Nat × Muon), probe.2.muonBestTrack.pt < 50 →
      (pairOut tightProbeConfig 7 sampleVertex (some allMatch) tag probe).fills = [] := by
    intro tag probe hb
    unfold pairOut
    split
    · rw [muonProbe_of_not_cuts tightProbeConfig 7 sampleVertex _ tag.1 probe.1 tag.2 probe.2
        (Or.inr (hnot tag.2 probe.2 hb))]
    · rfl
  refine ⟨hA, hB, by decide, ?_, ?_, ?_, ?_, ?_, ?_, ?_⟩
  · norm_num [dilepMass, tightProbeConfig, sampleConfig]
  · norm_num [dilepMass, tightProbeConfig, sampleConfig]
  · norm_num [dilepMass, tightProbeConfig, sampleConfig]
  · norm_num [dilepMass, tightProbeConfig, sampleConfig]
  · rw [pairOut_of_accepted tightProbeConfig 7 sampleVertex allMatch (0, sampleMuA)
      (1, sampleMuB) hA]
    exact muonProbe_of_not_cuts tightProbeConfig 7 sampleVertex allMatch 0 1
      sampleMuA sampleMuB
      (Or.inr (hnot sampleMuA sampleMuB (by norm_num [sampleMuA, sampleMuB, goodMuon, scenarioTag, scenarioProbe])))
  · rw [pairOut_of_accepted tightProbeConfig 7 sampleVertex allMatch (1, sampleMuB)
      (0, sampleMuA) hB]
    exact muonProbe_of_not_cuts tightProbeConfig 7 sampleVertex allMatch 1 0
      sampleMuB sampleMuA
      (Or.inr (hnot sampleMuB sampleMuA (by norm_num [sampleMuA, sampleMuB, goodMuon, scenarioTag, scenarioProbe])))
  · have hev := analyzeMuons_sampleEvent 50
    have hz : ∀ tag : Nat × Muon,
        tagFills tightProbeConfig 7 sampleVertex (some allMatch)
          [sampleMuA, sampleMuB] [] tag = [] := by
      intro tag
      simp only [tagFills, List.enum, List.enumFrom, List.flatMap_cons, List.flatMap_nil,
        List.append_nil]
      rw [hnil tag (0, sampleMuA) (by norm_num [sampleMuA, sampleMuB, goodMuon, scenarioTag, scenarioProbe]),
        hnil tag (0 + 1, sampleMuB) (by norm_num [sampleMuA, sampleMuB, goodMuon, scenarioTag, scenarioProbe])]
      rfl
    have hcfg : ({ sampleConfig with PtCutL2_ := 50 } : Config) = tightProbeConfig := rfl
    rw [hcfg] at hev
    rw [hev]
    simp only [List.flatMap_cons, List.flatMap_nil, hz, List.append_nil]

/-- C3, as amended: for two muons that both pass the full tag selection, have
different charges and a pair mass inside [MassMin, MassMax], and of which the one
standing later in the collection also passes the probe pt and eta cuts, the 2HLT
category is filled exactly once for the pair: the assignment with the earlier
muon as tag makes the 2HLT fills (one `h_yield_Z` fill, two fills per pass leg)
and the other assignment fills nothing. -/
theorem twoHLT_filled_once (cfg : Config) (ls : Nat) (pv : Vertex) (trgEvt : TriggerEvent)
    (i j : Nat) (muA muB : Muon) (hij : i < j)
    (hA : tagSelection cfg pv (some trgEvt) muA = .ok true)
    (hB : tagSelection cfg pv (some trgEvt) muB = .ok true)
    (hq : muA.muonBestTrack.charge ≠ muB.muonBestTrack.charge)
    (hlo : cfg.MassMin_ ≤ dilepMass cfg muA muB) (hhi : dilepMass cfg muA muB ≤ cfg.MassMax_)
    (hpt : cfg.PtCutL2_ ≤ muB.muonBestTrack.pt) (heta : |muB.muonBestTrack.eta| ≤ cfg.EtaCutL2_) :
    pairOut cfg ls pv (some trgEvt) (i, muA) (j, muB)
      = ⟨Category.fills .cat2HLT ls (dilepMass cfg muA muB) (isCentral cfg muA) (isCentral cfg muB),
          none⟩
    ∧ (pairOut cfg ls pv (some trgEvt) (j, muB) (i, muA)).fills = []
    ∧ countHist .h_yield_Z ((pairOut cfg ls pv (some trgEvt) (i, muA) (j, muB)).fills
        ++ (pairOut cfg ls pv (some trgEvt) (j, muB) (i, muA)).fills) = 1
    ∧ (∀ leg ∈ [(Hist.h_mass_HLT_pass_central, Hist.h_mass_HLT_pass_forward),
                (Hist.h_mass_SIT_pass_central, Hist.h_mass_SIT_pass_forward),
                (Hist.h_mass_Sta_pass_central, Hist.h_mass_Sta_pass_forward)],
        countHist leg.1 ((pairOut cfg ls pv (some trgEvt) (i, muA) (j, muB)).fills
            ++ (pairOut cfg ls pv (some trgEvt) (j, muB) (i, muA)).fills)
          + countHist leg.2 ((pairOut cfg ls pv (some trgEvt) (i, muA) (j, muB)).fills
            ++ (pairOut cfg ls pv (some trgEvt) (j, muB) (i, muA)).fills) = 2) := by
  obtain ⟨-, -, hsel, htrg⟩ := (tagSelection_ok_true cfg pv trgEvt muB).mp hB
  have hcuts : passesProbeCuts cfg muA muB := ⟨hpt, heta, hq, hlo, hhi⟩
  have hF : pairOut cfg ls pv (some trgEvt) (i, muA) (j, muB)
      = ⟨Category.fills .cat2HLT ls (dilepMass cfg muA muB) (isCentral cfg muA)
          (isCentral cfg muB), none⟩ := by
    rw [pairOut_of_accepted cfg ls pv trgEvt (i, muA) (j, muB) hA,
      muonProbe_of_cuts cfg ls pv trgEvt i j muA muB (by omega) hcuts,
      muonCategoryFills_2HLT cfg ls pv trgEvt i j muB _ _ _ hsel htrg (by omega)]
    simp [Category.fills, passFills]
  have hG : (pairOut cfg ls pv (some trgEvt) (j, muB) (i, muA)).fills = [] := by
    rw [pairOut_of_accepted cfg ls pv trgEvt (j, muB) (i, muA) hB]
    exact muonProbe_tag_before cfg ls pv trgEvt j i muB muA hij hA
  refine ⟨hF, hG, ?_⟩
  rw [hF, hG]
  cases isCentral cfg muA <;> cases isCentral cfg muB <;>
    simp [Category.fills, passFills, countHist, massFill, yieldFill]

theorem twoHLT_filled_once_witness :
    (0 : Nat) < 1
    ∧ tagSelection sampleConfig sampleVertex (some allMatch) sampleMuA = .ok true
    ∧ tagSelection sampleConfig sampleVertex (some allMatch) sampleMuB = .ok true
    ∧ passesProbeCuts sampleConfig sampleMuA sampleMuB
    ∧ countHist .h_yield_Z
        ((pairOut sampleConfig 7 sampleVertex (some allMatch) (0, sampleMuA)
          (1, sampleMuB)).fills
        ++ (pairOut sampleConfig 7 sampleVertex (some allMatch) (1, sampleMuB)
          (0, sampleMuA)).fills) = 1
    ∧ analyzeMuons sampleConfig sampleState (sampleEvent [sampleVertex])
        = ⟨⟨1, resolvedTrigger⟩,
            ⟨.h_npv, 7, some 1⟩ :: Category.fills .cat2HLT 7 91 true true, none⟩ := by
  have hA : tagSelection sampleConfig sampleVertex (some allMatch) sampleMuA
      = .ok true := by
    norm_num [tagSelection, sampleConfig, sampleMuA, sampleMuB, goodMuon, scenarioTag,
      scenarioProbe, allMatch, passMuonID, passMuonIso, isMuonTriggerObj, abs_le]
  have hB : tagSelection sampleConfig sampleVertex (some allMatch) sampleMuB
      = .ok true := by
    norm_num [tagSelection, sampleConfig, sampleMuA, sampleMuB, goodMuon, scenarioTag,
      scenarioProbe, allMatch, passMuonID, passMuonIso, isMuonTriggerObj, abs_le]
  have hcuts : passesProbeCuts sampleConfig sampleMuA
      sampleMuB := by
    norm_num [passesProbeCuts, dilepMass, sampleConfig, sampleMuA, sampleMuB, goodMuon, scenarioTag,
      scenarioProbe, abs_le]
  have hc1 : isCentral sampleConfig sampleMuA = true := by
    norm_num [isCentral, sampleConfig, sampleMuA, sampleMuB, goodMuon, scenarioTag, scenarioProbe,
      abs_lt]
  have hc2 : isCentral sampleConfig sampleMuB = true := by
    norm_num [isCentral, sampleConfig, sampleMuA, sampleMuB, goodMuon, scenarioTag, scenarioProbe,
      abs_lt]
  have h := twoHLT_filled_once sampleConfig 7 sampleVertex allMatch 0 1 sampleMuA
    sampleMuB (by decide) hA hB hcuts.2.2.1 hcuts.2.2.2.1 hcuts.2.2.2.2
    hcuts.1 hcuts.2.1
  refine ⟨by decide, hA, hB, hcuts, h.2.2.1, ?_⟩
  have hself : ∀ (i : Nat) (mu : Muon),
      (pairOut sampleConfig 7 sampleVertex (some allMatch) (i, mu) (i, mu)).fills = [] := by
    intro i mu
    unfold pairOut
    split
    · rw [muonProbe_of_not_cuts sampleConfig 7 sampleVertex _ i i mu mu (Or.inl rfl)]
    · rfl
  have hev := analyzeMuons_sampleEvent 20
  have hcfg : ({ sampleConfig with PtCutL2_ := 20 } : Config) = sampleConfig := rfl
  rw [hcfg] at hev
  rw [hev]
  have h01 := h.1
  have h10 := h.2.1
  rw [hc1, hc2] at h01
  have hm : dilepMass sampleConfig sampleMuA sampleMuB = 91 := rfl
  rw [hm] at h01
  simp only [tagFills, List.enum, List.enumFrom, List.flatMap_cons, List.flatMap_nil,
    List.append_nil, zero_add, hself, h01, h10, List.nil_append]

/-! ## Trigger menu resolution: properties -/

/-- The loop that assigns every match in turn leaves the last one. -/
theorem foldl_assign_last (l : List String) :
    ∀ a : String, l.foldl (fun _ m => m) a = l.getLast?.getD a := by
  induction l with
  | nil => intro a; rfl
  | cons x rest ih =>
    intro a
    rw [List.foldl_cons, ih x]
    cases rest with
    | nil => rfl
    | cons y ys =>
      rw [List.getLast?_cons_cons, List.getLast?_eq_getLast (y :: ys) (List.cons_ne_nil y ys)]
      rfl

/-- The path name `initHLT` gives to a record. -/
theorem initRecord_hltPathName (cfg : Config) (result : TriggerResults)
    (triggerNames : TriggerNames) (rec : TriggerRecord) :
    (initRecord cfg result triggerNames rec).hltPathName
      = if is_glob rec.hltPattern then
          ((regexMatch cfg triggerNames.triggerNames rec.hltPattern).getLast?).getD ""
        else rec.hltPattern := by
  unfold initRecord
  by_cases hg : is_glob rec.hltPattern = true
  · simp only [hg, if_true]
    cases hm : regexMatch cfg triggerNames.triggerNames rec.hltPattern with
    | nil => rfl
    | cons x rest =>
      simp only [List.isEmpty_cons, Bool.false_eq_true, if_false]
      exact foldl_assign_last (x :: rest) ""
  · simp only [hg, Bool.false_eq_true, if_false]

/-- The path index `initHLT` gives to a record. -/
theorem initRecord_hltPathIndex (cfg : Config) (result : TriggerResults)
    (triggerNames : TriggerNames) (rec : TriggerRecord) :
    (initRecord cfg result triggerNames rec).hltPathIndex
      = if triggerNames.triggerIndex (initRecord cfg result triggerNames rec).hltPathName
            < result.accept.length then
          triggerNames.triggerIndex (initRecord cfg result triggerNames rec).hltPathName
        else invalidIndex := by
  rfl

/-- A bit set by the trigger-bit loop comes from a resolved record whose path accepted. -/
theorem fillTriggerBits_mem (hTrgRes : TriggerResults) (recs : List TriggerRecord) :
    ∀ (bits : TriggerBits) (b : Nat), fillTriggerBits hTrgRes recs = .ok bits → b ∈ bits →
      ∃ r ∈ recs, r.baconTrigBit = b ∧ r.hltPathIndex ≠ invalidIndex
        ∧ hTrgRes.accept[r.hltPathIndex]? = some true := by
  induction recs with
  | nil =>
    intro bits b h hb
    simp only [fillTriggerBits, Except.ok.injEq] at h
    subst h
    simp at hb
  | cons r rest ih =>
    intro bits b h hb
    unfold fillTriggerBits at h
    by_cases hinv : r.hltPathIndex = invalidIndex
    · rw [if_pos hinv] at h
      obtain ⟨r', hr', hprop⟩ := ih bits b h hb
      exact ⟨r', List.mem_cons_of_mem r hr', hprop⟩
    · rw [if_neg hinv] at h
      cases hacc : hTrgRes.accept[r.hltPathIndex]? with
      | none => rw [hacc] at h; simp at h
      | some a =>
        rw [hacc] at h
        cases hrest : fillTriggerBits hTrgRes rest with
        | error e => rw [hrest] at h; simp at h
        | ok bits0 =>
          rw [hrest] at h
          simp only [Except.ok.injEq] at h
          subst h
          cases a with
          | false =>
            simp only [Bool.false_eq_true, if_false] at hb
            obtain ⟨r', hr', hprop⟩ := ih bits0 b hrest hb
            exact ⟨r', List.mem_cons_of_mem r hr', hprop⟩
          | true =>
            simp only [if_true, List.mem_cons] at hb
            rcases hb with hb | hb
            · exact ⟨r, List.mem_cons_self r rest, hb.symm, hinv, hacc⟩
            · obtain ⟨r', hr', hprop⟩ := ih bits0 b hrest hb
              exact ⟨r', List.mem_cons_of_mem r hr', hprop⟩

/-- Unresolved records contribute nothing to the trigger-bit loop. -/
theorem fillTriggerBits_filter (hTrgRes : TriggerResults) (recs : List TriggerRecord) :
    fillTriggerBits hTrgRes (recs.filter (fun r => decide (r.hltPathIndex ≠ invalidIndex)))
      = fillTriggerBits hTrgRes recs := by
  induction recs with
  | nil => rfl
  | cons r rest ih =>
    by_cases hinv : r.hltPathIndex = invalidIndex
    · have hf : (r :: rest).filter (fun r => decide (r.hltPathIndex ≠ invalidIndex))
          = rest.filter (fun r => decide (r.hltPathIndex ≠ invalidIndex)) := by
        apply List.filter_cons_of_neg
        simp [hinv]
      rw [hf, ih]
      conv_rhs => unfold fillTriggerBits
      rw [if_pos hinv]
    · have hf : (r :: rest).filter (fun r => decide (r.hltPathIndex ≠ invalidIndex))
          = r :: rest.filter (fun r => decide (r.hltPathIndex ≠ invalidIndex)) := by
        apply List.filter_cons_of_pos
        simp [hinv]
      rw [hf]
      conv_lhs => unfold fillTriggerBits
      conv_rhs => unfold fillTriggerBits
      rw [if_neg hinv, if_neg hinv, ih]

/-- The path name and index `initHLT` gives to a record depend on its pattern only. -/
theorem initRecord_congr (cfg : Config) (result : TriggerResults) (triggerNames : TriggerNames)
    (r1 r2 : TriggerRecord) (h : r1.hltPattern = r2.hltPattern) :
    (initRecord cfg result triggerNames r1).hltPathName
        = (initRecord cfg result triggerNames r2).hltPathName
    ∧ (initRecord cfg result triggerNames r1).hltPathIndex
        = (initRecord cfg result triggerNames r2).hltPathIndex := by
  have hn : (initRecord cfg result triggerNames r1).hltPathName
      = (initRecord cfg result triggerNames r2).hltPathName := by
    rw [initRecord_hltPathName, initRecord_hltPathName, h]
  refine ⟨hn, ?_⟩
  rw [initRecord_hltPathIndex, initRecord_hltPathIndex cfg result triggerNames r2, hn]

/-- C8: `initHLT` keeps the records in place with their pattern, bit and object
map; for a wildcard pattern the path name is the last menu path, in the
matcher's order, that matches the pattern, for a non-wildcard pattern it is the
pattern itself; the path index is that name's index in the menu when it is less
than the number of trigger results and the invalid sentinel otherwise. With the
pattern "HLT_IsoMu27_v*" and a menu whose sole match is "HLT_IsoMu27_v12" the
record resolves to that path and its index, and for trigger results whose accept
bit at that index is unset the bit of the record is not set by the trigger-bit
loop (the record sharing its bit only with records of the same pattern). -/
theorem initHLT_resolves (cfg : Config) (result : TriggerResults) (triggerNames : TriggerNames)
    (fTrigger : TTrigger) :
    (initHLT cfg result triggerNames fTrigger).fRecords.length = fTrigger.fRecords.length
    ∧ (∀ (irec : Nat) (rec : TriggerRecord), fTrigger.fRecords[irec]? = some rec →
        ∃ res : TriggerRecord,
          (initHLT cfg result triggerNames fTrigger).fRecords[irec]? = some res
          ∧ res.hltPattern = rec.hltPattern ∧ res.baconTrigBit = rec.baconTrigBit
          ∧ res.objectMap = rec.objectMap
          ∧ (is_glob rec.hltPattern = true → ∀ name : String,
              (regexMatch cfg triggerNames.triggerNames rec.hltPattern).getLast? = some name →
              res.hltPathName = name)
          ∧ (is_glob rec.hltPattern = false → res.hltPathName = rec.hltPattern)
          ∧ (triggerNames.triggerIndex res.hltPathName < result.accept.length →
              res.hltPathIndex = triggerNames.triggerIndex res.hltPathName)
          ∧ (¬ triggerNames.triggerIndex res.hltPathName < result.accept.length →
              res.hltPathIndex = invalidIndex))
    ∧ (∀ (irec : Nat) (rec : TriggerRecord), fTrigger.fRecords[irec]? = some rec →
        rec.hltPattern = "HLT_IsoMu27_v*" →
        regexMatch cfg triggerNames.triggerNames "HLT_IsoMu27_v*" = ["HLT_IsoMu27_v12"] →
        triggerNames.triggerIndex "HLT_IsoMu27_v12" < result.accept.length →
        (∀ r ∈ fTrigger.fRecords, r.baconTrigBit = rec.baconTrigBit →
          r.hltPattern = rec.hltPattern) →
        ∃ res : TriggerRecord,
          (initHLT cfg result triggerNames fTrigger).fRecords[irec]? = some res
          ∧ res.hltPathName = "HLT_IsoMu27_v12"
          ∧ res.hltPathIndex = triggerNames.triggerIndex "HLT_IsoMu27_v12"
          ∧ ∀ (hTrgRes : TriggerResults) (bits : TriggerBits),
              hTrgRes.accept[res.hltPathIndex]? = some false →
              fillTriggerBits hTrgRes (initHLT cfg result triggerNames fTrigger).fRecords
                = .ok bits →
              rec.baconTrigBit ∉ bits) := by
  have hget : ∀ (irec : Nat) (rec : TriggerRecord), fTrigger.fRecords[irec]? = some rec →
      (initHLT cfg result triggerNames fTrigger).fRecords[irec]?
        = some (initRecord cfg result triggerNames rec) := by
    intro irec rec h
    simp [initHLT, List.getElem?_map, h]
  refine ⟨by simp [initHLT], ?_, ?_⟩
  · intro irec rec h
    refine ⟨initRecord cfg result triggerNames rec, hget irec rec h, rfl, rfl, rfl, ?_, ?_, ?_, ?_⟩
    · intro hg name hlast
      rw [initRecord_hltPathName, if_pos hg, hlast]
      rfl
    · intro hg
      rw [initRecord_hltPathName, hg]
      simp
    · intro hlt
      rw [initRecord_hltPathIndex, if_pos hlt]
    · intro hlt
      rw [initRecord_hltPathIndex, if_neg hlt]
  · intro irec rec h hpat hsole hvalid hown
    have hglob : is_glob rec.hltPattern = true := by rw [hpat]; decide
    have hname : (initRecord cfg result triggerNames rec).hltPathName = "HLT_IsoMu27_v12" := by
      rw [initRecord_hltPathName, if_pos hglob, hpat, hsole]
      rfl
    have hidx : (initRecord cfg result triggerNames rec).hltPathIndex
        = triggerNames.triggerIndex "HLT_IsoMu27_v12" := by
      rw [initRecord_hltPathIndex, hname, if_pos hvalid]
    refine ⟨initRecord cfg result triggerNames rec, hget irec rec h, hname, hidx, ?_⟩
    intro hTrgRes bits hacc hbits hmem
    obtain ⟨r, hr, hbit, -, haccr⟩ := fillTriggerBits_mem hTrgRes _ bits _ hbits hmem
    simp only [initHLT, List.mem_map] at hr
    obtain ⟨r0, hr0, rfl⟩ := hr
    have hp : r0.hltPattern = rec.hltPattern := hown r0 hr0 hbit
    rw [(initRecord_congr cfg result triggerNames r0 rec hp).2, hacc] at haccr
    simp at haccr

theorem initHLT_resolves_witness :
    sampleTrigger.fRecords[0]? = some ⟨"HLT_IsoMu27_v*", "", invalidIndex, 0,
        [("hltL3crIsoL1sMu22Or25L1f0L2f10QL3f27QL3trkIsoFiltered0p07", 0)]⟩
    ∧ regexMatch sampleConfig sampleNames.triggerNames "HLT_IsoMu27_v*" = ["HLT_IsoMu27_v12"]
    ∧ sampleNames.triggerIndex "HLT_IsoMu27_v12" = 1
    ∧ (sampleResults [true, false, true]).accept[1]? = some false
    ∧ (∃ res : TriggerRecord,
        (initHLT sampleConfig (sampleResults [true, false, true]) sampleNames
          sampleTrigger).fRecords[0]? = some res
        ∧ res.hltPathName = "HLT_IsoMu27_v12"
        ∧ res.hltPathIndex = sampleNames.triggerIndex "HLT_IsoMu27_v12"
        ∧ ∀ (hTrgRes : TriggerResults) (bits : TriggerBits),
            hTrgRes.accept[res.hltPathIndex]? = some false →
            fillTriggerBits hTrgRes (initHLT sampleConfig (sampleResults [true, false, true])
              sampleNames sampleTrigger).fRecords = .ok bits →
            (0 : Nat) ∉ bits)
    ∧ analyzeMuons sampleConfig sampleState unacceptedEvent
        = ⟨⟨1, resolvedTrigger⟩, [⟨.h_npv, 7, some 1⟩], none⟩ := by
  have hsole : regexMatch sampleConfig sampleNames.triggerNames "HLT_IsoMu27_v*"
      = ["HLT_IsoMu27_v12"] := by decide
  have hidx : sampleNames.triggerIndex "HLT_IsoMu27_v12" = 1 := by decide
  refine ⟨rfl, hsole, hidx, rfl, ?_, ?_⟩
  · exact (initHLT_resolves sampleConfig (sampleResults [true, false, true]) sampleNames
      sampleTrigger).2.2 0 _ rfl rfl hsole (by rw [hidx]; decide) (by decide)
  · have hvs : vertexScan sampleConfig [sampleVertex] = (some sampleVertex, 1) := by
      norm_num [vertexScan, vertexStep, sampleConfig, sampleVertex]
    have hbits : fillTriggerBits (sampleResults [true, false, true]) resolvedTrigger.fRecords
        = .ok [1] := by rfl
    have hpass : isMuonTrigger resolvedTrigger [1] = false := by decide
    unfold analyzeMuons
    simp only [unacceptedEvent, sampleEvent, hvs, updateTrigger_sample sampleConfig rfl [true,
      false, true] rfl, hbits, hpass]
    simp

/-- C9: a record whose pattern matches no path of the menu (no match of the
wildcard pattern, or a plain pattern that is not a path name) is left by
`initHLT` with the invalid index sentinel, for a menu without an empty path name
and trigger results with no more entries than the menu has paths; and for all
trigger results an unresolved record contributes nothing to the trigger-bit
loop: removing the unresolved records does not change its outcome, a bit carried
by unresolved records only is never set, and the trigger of such a record does
not pass. -/
theorem unresolved_never_passes (cfg : Config) (result : TriggerResults)
    (triggerNames : TriggerNames) (rec : TriggerRecord)
    (hsize : result.accept.length ≤ triggerNames.triggerNames.length)
    (hnames : "" ∉ triggerNames.triggerNames)
    (hno : if is_glob rec.hltPattern then
        regexMatch cfg triggerNames.triggerNames rec.hltPattern = []
      else rec.hltPattern ∉ triggerNames.triggerNames) :
    (initRecord cfg result triggerNames rec).hltPathIndex = invalidIndex
    ∧ (∀ fTrigger : TTrigger, rec ∈ fTrigger.fRecords →
        ∃ res ∈ (initHLT cfg result triggerNames fTrigger).fRecords,
          res.hltPattern = rec.hltPattern ∧ res.baconTrigBit = rec.baconTrigBit
          ∧ res.hltPathIndex = invalidIndex)
    ∧ (∀ (hTrgRes : TriggerResults) (recs : List TriggerRecord),
        fillTriggerBits hTrgRes (recs.filter (fun r => decide (r.hltPathIndex ≠ invalidIndex)))
          = fillTriggerBits hTrgRes recs)
    ∧ (∀ (hTrgRes : TriggerResults) (recs : List TriggerRecord) (bits : TriggerBits)
        (r : TriggerRecord), r ∈ recs → r.hltPathIndex = invalidIndex →
        (∀ r2 ∈ recs, r2.baconTrigBit = r.baconTrigBit → r2.hltPathIndex = invalidIndex) →
        fillTriggerBits hTrgRes recs = .ok bits → r.baconTrigBit ∉ bits)
    ∧ (∀ (hTrgRes : TriggerResults) (triggerMenu : TTrigger) (bits : TriggerBits)
        (iName : String) (r : TriggerRecord),
        triggerMenu.fRecords.find? (fun r => r.hltPattern == iName) = some r →
        r.hltPathIndex = invalidIndex →
        (∀ r2 ∈ triggerMenu.fRecords, r2.baconTrigBit = r.baconTrigBit →
          r2.hltPathIndex = invalidIndex) →
        fillTriggerBits hTrgRes triggerMenu.fRecords = .ok bits →
        triggerMenu.pass iName bits = false) := by
  have hidx : (initRecord cfg result triggerNames rec).hltPathIndex = invalidIndex := by
    have hnotin : (initRecord cfg result triggerNames rec).hltPathName
        ∉ triggerNames.triggerNames := by
      rw [initRecord_hltPathName]
      by_cases hg : is_glob rec.hltPattern = true
      · rw [if_pos hg] at hno ⊢
        rw [hno]
        exact hnames
      · rw [if_neg hg] at hno ⊢
        exact hno
    have hlen : triggerNames.triggerIndex (initRecord cfg result triggerNames rec).hltPathName
        = triggerNames.triggerNames.length := by
      unfold TriggerNames.triggerIndex
      exact List.indexOf_eq_length.mpr hnotin
    rw [initRecord_hltPathIndex, hlen, if_neg (by omega)]
  refine ⟨hidx, ?_, fillTriggerBits_filter, ?_, ?_⟩
  · intro fTrigger hmem
    refine ⟨initRecord cfg result triggerNames rec, ?_, rfl, rfl, hidx⟩
    simp only [initHLT, List.mem_map]
    exact ⟨rec, hmem, rfl⟩
  · intro hTrgRes recs bits r _ _ hall hbits hmem
    obtain ⟨r2, hr2, hbit, hres, -⟩ := fillTriggerBits_mem hTrgRes recs bits _ hbits hmem
    exact hres (hall r2 hr2 hbit)
  · intro hTrgRes triggerMenu bits iName r hfind _ hall hbits
    unfold TTrigger.pass
    rw [hfind]
    have hnot : r.baconTrigBit ∉ bits := by
      intro hmem
      obtain ⟨r2, hr2, hbit, hres, -⟩ :=
        fillTriggerBits_mem hTrgRes triggerMenu.fRecords bits _ hbits hmem
      exact hres (hall r2 hr2 hbit)
    simpa using hnot

theorem unresolved_never_passes_witness :
    (sampleResults [true]).accept.length ≤ otherNames.triggerNames.length
    ∧ "" ∉ otherNames.triggerNames
    ∧ is_glob "HLT_IsoMu27_v*" = true
    ∧ regexMatch sampleConfig otherNames.triggerNames "HLT_IsoMu27_v*" = []
    ∧ (initRecord sampleConfig (sampleResults [true]) otherNames
        ⟨"HLT_IsoMu27_v*", "HLT_IsoMu27_v12", 1, 0, []⟩).hltPathIndex = invalidIndex
    ∧ fillTriggerBits (sampleResults [true])
        [initRecord sampleConfig (sampleResults [true]) otherNames
          ⟨"HLT_IsoMu27_v*", "HLT_IsoMu27_v12", 1, 0, []⟩] = .ok [] := by
  have hsize : (sampleResults [true]).accept.length ≤ otherNames.triggerNames.length := by
    decide
  have hnames : "" ∉ otherNames.triggerNames := by decide
  have hglob : is_glob "HLT_IsoMu27_v*" = true := by decide
  have hnone : regexMatch sampleConfig otherNames.triggerNames "HLT_IsoMu27_v*" = [] := by
    decide
  have h := unresolved_never_passes sampleConfig (sampleResults [true]) otherNames
    ⟨"HLT_IsoMu27_v*", "HLT_IsoMu27_v12", 1, 0, []⟩ hsize hnames (by rw [if_pos hglob]; exact hnone)
  refine ⟨hsize, hnames, hglob, hnone, h.1, ?_⟩
  unfold fillTriggerBits
  rw [if_pos h.1]
  rfl

/-! ## The categories 1HLT, Sta and Trk -/

/-- C16: for an accepted tag and a probe that passes the probe cuts, ID and
isolation and does not match the trigger object, the pair makes four fills:
HLT-fail, SIT-pass and Sta-pass of the probe's region, once each with the lumi
block and the pair mass, and `h_yield_Z` once; no HLT-pass and nothing
attributed to the tag's region. -/
theorem muonProbe_1HLT (cfg : Config) (ls : Nat) (pv : Vertex) (trgEvt : TriggerEvent)
    (i j : Nat) (itMu1 itMu2 : Muon)
    (htag : tagSelection cfg pv (some trgEvt) itMu1 = .ok true) (hij : j ≠ i)
    (hcuts : passesProbeCuts cfg itMu1 itMu2)
    (hsel : passesSelection cfg pv itMu2 = true) (htrg : matchesTrigger trgEvt itMu2 = false) :
    muonProbe cfg ls pv trgEvt (i, itMu1) (j, itMu2)
      = ⟨[massFill (if isCentral cfg itMu2 then .h_mass_HLT_fail_central
                    else .h_mass_HLT_fail_forward) ls (dilepMass cfg itMu1 itMu2),
          massFill (if isCentral cfg itMu2 then .h_mass_SIT_pass_central
                    else .h_mass_SIT_pass_forward) ls (dilepMass cfg itMu1 itMu2),
          massFill (if isCentral cfg itMu2 then .h_mass_Sta_pass_central
                    else .h_mass_Sta_pass_forward) ls (dilepMass cfg itMu1 itMu2),
          yieldFill .h_yield_Z ls], none⟩
    ∧ countHist .h_yield_Z (muonProbe cfg ls pv trgEvt (i, itMu1) (j, itMu2)).fills = 1
    ∧ (∀ h ∈ [Hist.h_mass_HLT_pass_central, Hist.h_mass_HLT_pass_forward,
              Hist.h_mass_SIT_fail_central, Hist.h_mass_SIT_fail_forward,
              Hist.h_mass_Sta_fail_central, Hist.h_mass_Sta_fail_forward],
        countHist h (muonProbe cfg ls pv trgEvt (i, itMu1) (j, itMu2)).fills = 0)
    ∧ (muonProbe cfg ls pv trgEvt (i, itMu1) (j, itMu2)).fills.length = 4 := by
  have _ := htag
  have hfill : muonProbe cfg ls pv trgEvt (i, itMu1) (j, itMu2)
      = ⟨[massFill (if isCentral cfg itMu2 then .h_mass_HLT_fail_central
                    else .h_mass_HLT_fail_forward) ls (dilepMass cfg itMu1 itMu2),
          massFill (if isCentral cfg itMu2 then .h_mass_SIT_pass_central
                    else .h_mass_SIT_pass_forward) ls (dilepMass cfg itMu1 itMu2),
          massFill (if isCentral cfg itMu2 then .h_mass_Sta_pass_central
                    else .h_mass_Sta_pass_forward) ls (dilepMass cfg itMu1 itMu2),
          yieldFill .h_yield_Z ls], none⟩ := by
    rw [muonProbe_of_cuts cfg ls pv trgEvt i j itMu1 itMu2 hij hcuts]
    unfold passesSelection at hsel
    unfold matchesTrigger at htrg
    unfold muonCategoryFills
    simp only [hsel, htrg, if_true, Bool.false_eq_true, if_false]
    cases isCentral cfg itMu2 <;> rfl
  rw [hfill]
  cases isCentral cfg itMu2 <;> simp [countHist, massFill, yieldFill]

theorem muonProbe_1HLT_witness :
    tagSelection sampleConfig sampleVertex (some tagOnlyMatch) scenarioTag = .ok true
    ∧ passesProbeCuts sampleConfig scenarioTag scenarioProbe
    ∧ passesSelection sampleConfig sampleVertex scenarioProbe = true
    ∧ matchesTrigger tagOnlyMatch scenarioProbe = false
    ∧ muonProbe sampleConfig 7 sampleVertex tagOnlyMatch (0, scenarioTag) (1, scenarioProbe)
      = ⟨[massFill .h_mass_HLT_fail_central 7 91, massFill .h_mass_SIT_pass_central 7 91,
          massFill .h_mass_Sta_pass_central 7 91, yieldFill .h_yield_Z 7], none⟩ := by
  have htag : tagSelection sampleConfig sampleVertex (some tagOnlyMatch) scenarioTag
      = .ok true := by
    norm_num [tagSelection, sampleConfig, goodMuon, scenarioTag, tagOnlyMatch, passMuonID,
      passMuonIso, isMuonTriggerObj, abs_le]
  have hcuts : passesProbeCuts sampleConfig scenarioTag scenarioProbe := by
    norm_num [passesProbeCuts, dilepMass, sampleConfig, goodMuon, scenarioTag, scenarioProbe,
      abs_le]
  have hsel : passesSelection sampleConfig sampleVertex scenarioProbe = true := by
    norm_num [passesSelection, sampleConfig, goodMuon, scenarioProbe, passMuonID, passMuonIso]
  have htrg : matchesTrigger tagOnlyMatch scenarioProbe = false := by
    norm_num [matchesTrigger, tagOnlyMatch, isMuonTriggerObj, scenarioProbe, goodMuon]
  have hc2 : isCentral sampleConfig scenarioProbe = true := by
    norm_num [isCentral, sampleConfig, goodMuon, scenarioProbe, abs_lt]
  have h := (muonProbe_1HLT sampleConfig 7 sampleVertex tagOnlyMatch 0 1 _ _ htag (by decide)
    hcuts hsel htrg).1
  rw [hc2] at h
  exact ⟨htag, hcuts, hsel, htrg, h⟩

/-- C17: for an accepted tag and a probe that passes the probe cuts, fails ID or
isolation and is not a global muon: if the probe is a standalone muon, or else
if its inner track has at least 6 tracker layers with measurement and at least
1 valid pixel hit, the pair fills exactly Sta-fail of the probe's region, once
with the lumi block and the pair mass, and nothing else; if it is neither, the
pair fills nothing. -/
theorem muonProbe_Sta_Trk (cfg : Config) (ls : Nat) (pv : Vertex) (trgEvt : TriggerEvent)
    (i j : Nat) (itMu1 itMu2 : Muon)
    (htag : tagSelection cfg pv (some trgEvt) itMu1 = .ok true) (hij : j ≠ i)
    (hcuts : passesProbeCuts cfg itMu1 itMu2)
    (hsel : passesSelection cfg pv itMu2 = false) (hglb : itMu2.isGlobalMuon = false) :
    (itMu2.isStandAloneMuon = true →
      muonProbe cfg ls pv trgEvt (i, itMu1) (j, itMu2)
        = ⟨[massFill (staFailHist (isCentral cfg itMu2)) ls (dilepMass cfg itMu1 itMu2)], none⟩)
    ∧ (itMu2.isStandAloneMuon = false → innerTrackQuality itMu2 = true →
      muonProbe cfg ls pv trgEvt (i, itMu1) (j, itMu2)
        = ⟨[massFill (staFailHist (isCentral cfg itMu2)) ls (dilepMass cfg itMu1 itMu2)], none⟩)
    ∧ (itMu2.isStandAloneMuon = false → innerTrackQuality itMu2 = false →
      (muonProbe cfg ls pv trgEvt (i, itMu1) (j, itMu2)).fills = []) := by
  have _ := htag
  rw [muonProbe_of_cuts cfg ls pv trgEvt i j itMu1 itMu2 hij hcuts]
  unfold passesSelection at hsel
  unfold muonCategoryFills innerTrackQuality staFailHist
  refine ⟨?_, ?_, ?_⟩
  · intro hsta
    simp only [hsel, hglb, hsta, if_true, Bool.false_eq_true, if_false]
    cases isCentral cfg itMu2 <;> rfl
  · intro hsta hq
    cases hin : itMu2.innerTrack with
    | none => rw [hin] at hq; simp at hq
    | some innerTrack =>
      rw [hin] at hq
      simp only [decide_eq_true_eq] at hq
      simp only [hsel, hglb, hsta, Bool.false_eq_true, if_false, hq, and_self, if_true]
      cases isCentral cfg itMu2 <;> rfl
  · intro hsta hq
    cases hin : itMu2.innerTrack with
    | none => simp only [hsel, hglb, hsta, Bool.false_eq_true, if_false]
    | some innerTrack =>
      rw [hin] at hq
      simp only [decide_eq_false_iff_not] at hq
      simp only [hsel, hglb, hsta, Bool.false_eq_true, if_false, hq]

theorem muonProbe_Sta_Trk_witness :
    tagSelection sampleConfig sampleVertex (some allMatch) scenarioTag = .ok true
    ∧ passesProbeCuts sampleConfig scenarioTag staProbe
    ∧ passesSelection sampleConfig sampleVertex staProbe = false
    ∧ staProbe.isGlobalMuon = false ∧ staProbe.isStandAloneMuon = true
    ∧ muonProbe sampleConfig 7 sampleVertex allMatch (0, scenarioTag) (1, staProbe)
      = ⟨[massFill .h_mass_Sta_fail_central 7 91], none⟩
    ∧ passesProbeCuts sampleConfig scenarioTag poorTrackProbe
    ∧ passesSelection sampleConfig sampleVertex poorTrackProbe = false
    ∧ poorTrackProbe.isGlobalMuon = false ∧ poorTrackProbe.isStandAloneMuon = false
    ∧ innerTrackQuality poorTrackProbe = false
    ∧ (muonProbe sampleConfig 7 sampleVertex allMatch (0, scenarioTag) (1, poorTrackProbe)).fills
      = [] := by
  have htag : tagSelection sampleConfig sampleVertex (some allMatch) scenarioTag
      = .ok true := by
    norm_num [tagSelection, sampleConfig, goodMuon, scenarioTag, allMatch, passMuonID,
      passMuonIso, isMuonTriggerObj, abs_le]
  have hcuts : passesProbeCuts sampleConfig scenarioTag staProbe := by
    norm_num [passesProbeCuts, dilepMass, sampleConfig, goodMuon, scenarioTag, nonIsolatedMuon,
      staProbe, abs_le]
  have hsel : passesSelection sampleConfig sampleVertex staProbe = false := by
    norm_num [passesSelection, sampleConfig, nonIsolatedMuon, staProbe, passMuonID, passMuonIso]
    decide
  have hc2 : isCentral sampleConfig staProbe = true := by
    norm_num [isCentral, sampleConfig, nonIsolatedMuon, staProbe, abs_lt]
  have hcuts2 : passesProbeCuts sampleConfig scenarioTag poorTrackProbe := by
    norm_num [passesProbeCuts, dilepMass, sampleConfig, goodMuon, scenarioTag, nonIsolatedMuon,
      poorTrackProbe, abs_le]
  have hsel2 : passesSelection sampleConfig sampleVertex poorTrackProbe = false := by
    norm_num [passesSelection, sampleConfig, nonIsolatedMuon, poorTrackProbe, passMuonID,
      passMuonIso]
    decide
  have hq2 : innerTrackQuality poorTrackProbe = false := by decide
  have h := (muonProbe_Sta_Trk sampleConfig 7 sampleVertex allMatch 0 1 scenarioTag staProbe htag
    (by decide) hcuts hsel rfl).1 rfl
  rw [hc2] at h
  have h2 := (muonProbe_Sta_Trk sampleConfig 7 sampleVertex allMatch 0 1 scenarioTag
    poorTrackProbe htag (by decide) hcuts2 hsel2 rfl).2.2 rfl hq2
  exact ⟨htag, hcuts, hsel, rfl, rfl, h, hcuts2, hsel2, rfl, rfl, hq2, h2⟩

/-! ## Self-pairing and the track probe loop -/

/-- The muon probe loop skips the probe at the position of the tag. -/
theorem muonProbe_self (cfg : Config) (ls : Nat) (pv : Vertex) (trgEvt : TriggerEvent)
    (i : Nat) (itMu1 itMu2 : Muon) :
    muonProbe cfg ls pv trgEvt (i, itMu1) (i, itMu2) = ⟨[], none⟩ :=
  muonProbe_of_not_cuts cfg ls pv trgEvt i i itMu1 itMu2 (Or.inl rfl)

/-- The track probe loop skips a track that is the inner track of a muon of the
collection. -/
theorem trackProbe_of_isMuon (cfg : Config) (ls : Nat) (muons : List Muon) (tag : Nat × Muon)
    (trk : Nat × Track) (mu : Muon) (ref : TrackRef) (hmu : mu ∈ muons)
    (hin : mu.innerTrack = some ref) (hkey : ref.key = some trk.1) :
    trackProbe cfg ls muons tag trk = ⟨[], none⟩ := by
  unfold trackProbe
  simp only []
  rw [if_pos]
  rw [List.any_eq_true]
  exact ⟨mu, hmu, by simp [hin, hkey]⟩

/-- The tag loop on the muon sample event: the fills are `h_npv` and those of the
pairs of each tag. -/
theorem analyzeMuons_muonEvent (muons : List Muon) (tracks : List Track)
    (hin : ∀ mu ∈ muons, mu.innerTrack ≠ none) :
    analyzeMuons sampleConfig sampleState (muonEvent muons tracks)
      = ⟨⟨1, resolvedTrigger⟩,
          ⟨.h_npv, 7, some 1⟩ ::
            muons.enum.flatMap (tagFills sampleConfig 7 sampleVertex (some allMatch) muons tracks),
          none⟩ := by
  have hscan : vertexScan sampleConfig [sampleVertex] = (some sampleVertex, 1) := by
    norm_num [vertexScan, vertexStep, sampleConfig, sampleVertex]
  have hup : updateTrigger sampleConfig sampleState (sampleResults [true, true, true])
      = ⟨1, resolvedTrigger⟩ := updateTrigger_sample _ rfl [true, true, true] rfl
  have h := analyzeMuons_eq_tagFills sampleConfig sampleState (muonEvent muons tracks)
    [sampleVertex] sampleVertex 1 (sampleResults [true, true, true]) [0, 1] allMatch muons tracks
    rfl hscan (by decide) rfl (by rw [hup]; rfl) (by rw [hup]; decide) rfl rfl rfl hin
  rw [h, hup]
  simp [muonEvent, sampleEvent]

/-- A fill of a loop is a fill of one of its bodies. -/
theorem forEach_fills_mem {α : Type} (body : α → Out) (xs : List α) :
    ∀ f ∈ (forEach body xs).fills, ∃ x ∈ xs, f ∈ (body x).fills := by
  induction xs with
  | nil => intro f hf; simp [forEach] at hf
  | cons x rest ih =>
    intro f hf
    unfold forEach at hf
    cases hb : body x with
    | mk fs exc =>
      rw [hb] at hf
      cases exc with
      | some e =>
        simp only at hf
        exact ⟨x, List.mem_cons_self x rest, by rw [hb]; exact hf⟩
      | none =>
        simp only [List.mem_append] at hf
        rcases hf with hf | hf
        · exact ⟨x, List.mem_cons_self x rest, by rw [hb]; exact hf⟩
        · obtain ⟨y, hy, hfy⟩ := ih f hf
          exact ⟨y, List.mem_cons_of_mem x hy, hfy⟩

/-- The fills of the muon channel: none when the vertex collection is missing,
`h_npv` alone when the event stops at a gate or at a missing collection, and
`h_npv` followed by the fills of the tag loop otherwise. -/
theorem analyzeMuons_fills_cases (cfg : Config) (st : State) (iEvent : Event) :
    (iEvent.hVertexProduct = none ∧ (analyzeMuons cfg st iEvent).fills = [])
    ∨ (∃ pvCol : List Vertex, iEvent.hVertexProduct = some pvCol
        ∧ (analyzeMuons cfg st iEvent).fills
          = [⟨.h_npv, iEvent.luminosityBlock, some ((vertexScan cfg pvCol).2 : ℚ)⟩])
    ∨ (∃ (pvCol : List Vertex) (muons : List Muon) (tracks : List Track) (pv : Vertex),
        iEvent.hVertexProduct = some pvCol ∧ iEvent.hMuonProduct = some muons
        ∧ iEvent.hTrackProduct = some tracks
        ∧ (analyzeMuons cfg st iEvent).fills
          = ⟨.h_npv, iEvent.luminosityBlock, some ((vertexScan cfg pvCol).2 : ℚ)⟩
            :: (forEach (muonTag cfg iEvent.luminosityBlock pv iEvent.hTrgEvt muons tracks)
                muons.enum).fills) := by
  unfold analyzeMuons
  cases hv : iEvent.hVertexProduct with
  | none => exact Or.inl ⟨rfl, rfl⟩
  | some pvCol =>
    right
    simp only []
    by_cases hn : (vertexScan cfg pvCol).2 = 0
    · exact Or.inl ⟨pvCol, rfl, by simp [hn]⟩
    · simp only [hn, if_false]
      cases hres : iEvent.hTrgRes with
      | none => exact Or.inl ⟨pvCol, rfl, rfl⟩
      | some hTrgRes =>
        simp only []
        cases hbits : fillTriggerBits hTrgRes (updateTrigger cfg st hTrgRes).fTrigger.fRecords with
        | error e => exact Or.inl ⟨pvCol, rfl, rfl⟩
        | ok bits =>
          simp only []
          by_cases hpass : (!(isMuonTrigger (updateTrigger cfg st hTrgRes).fTrigger bits)) = true
          · exact Or.inl ⟨pvCol, rfl, by simp [hpass]⟩
          · simp only [hpass, if_false]
            cases hmu : iEvent.hMuonProduct with
            | none => exact Or.inl ⟨pvCol, rfl, rfl⟩
            | some muons =>
              cases htrk : iEvent.hTrackProduct with
              | none => exact Or.inl ⟨pvCol, rfl, rfl⟩
              | some tracks =>
                cases hpv : (vertexScan cfg pvCol).1 with
                | none => exact Or.inl ⟨pvCol, rfl, rfl⟩
                | some pv => exact Or.inr ⟨pvCol, muons, tracks, pv, rfl, rfl, rfl, rfl⟩

/-- With a single muon, a fill of the tag loop comes from a track that is not the
inner track of the muon. -/
theorem muonTag_single_fills (cfg : Config) (ls : Nat) (pv : Vertex)
    (hTrgEvt : Option TriggerEvent) (mu : Muon) (ref : TrackRef) (tracks : List Track) (k : Nat)
    (hin : mu.innerTrack = some ref) (hkey : ref.key = some k) :
    ∀ f ∈ (muonTag cfg ls pv hTrgEvt [mu] tracks (0, mu)).fills,
      ∃ trk ∈ tracks.enum, trk.1 ≠ k ∧ f ∈ (trackProbe cfg ls [mu] (0, mu) trk).fills := by
  intro f hf
  unfold muonTag at hf
  split at hf
  · simp at hf
  · simp at hf
  · simp at hf
  · rename_i te _
    have h1 : forEach (muonProbe cfg ls pv te (0, mu)) [mu].enum = ⟨[], none⟩ := by
      simp [List.enum, List.enumFrom, forEach, muonProbe_self]
    rw [h1] at hf
    simp only [List.nil_append] at hf
    obtain ⟨trk, htrk, hft⟩ := forEach_fills_mem _ _ f hf
    refine ⟨trk, htrk, ?_, hft⟩
    intro hk
    have h3 := trackProbe_of_isMuon cfg ls [mu] (0, mu) trk mu ref (List.mem_singleton.mpr rfl) hin
      (by rw [hkey, hk])
    rw [h3] at hft
    simp at hft

/-- C11: in the muon channel no fill comes from pairing a tag with itself: the
muon probe loop makes no fill for the probe at the position of the tag, and the
track probe loop makes no fill for a track that is the inner track of a muon of
the collection, the tag's own included. In an event with a single muon whose
inner track is in the track collection, every fill other than `h_npv` comes from
another track of the collection; when the track collection is that inner track,
the event gets no fill but `h_npv`, hence no mass or yield fill. -/
theorem no_self_pairing (cfg : Config) (ls : Nat) (pv : Vertex) (trgEvt : TriggerEvent) :
    (∀ (i : Nat) (itMu1 itMu2 : Muon),
        muonProbe cfg ls pv trgEvt (i, itMu1) (i, itMu2) = ⟨[], none⟩)
    ∧ (∀ (muons : List Muon) (tag : Nat × Muon) (trk : Nat × Track) (mu : Muon) (ref : TrackRef),
        mu ∈ muons → mu.innerTrack = some ref → ref.key = some trk.1 →
        trackProbe cfg ls muons tag trk = ⟨[], none⟩)
    ∧ (∀ (st : State) (iEvent : Event) (mu : Muon) (ref : TrackRef) (tracks : List Track)
        (k : Nat),
        iEvent.hMuonProduct = some [mu] → mu.innerTrack = some ref → ref.key = some k →
        iEvent.hTrackProduct = some tracks →
        ∀ f ∈ (analyzeMuons cfg st iEvent).fills,
          f.hist = .h_npv
          ∨ ∃ trk ∈ tracks.enum, trk.1 ≠ k
              ∧ f ∈ (trackProbe cfg iEvent.luminosityBlock [mu] (0, mu) trk).fills)
    ∧ (∀ (st : State) (iEvent : Event) (mu : Muon) (ref : TrackRef) (trk : Track),
        iEvent.hMuonProduct = some [mu] → mu.innerTrack = some ref → ref.key = some 0 →
        iEvent.hTrackProduct = some [trk] →
        ∀ f ∈ (analyzeMuons cfg st iEvent).fills, f.hist = .h_npv) := by
  have hgen : ∀ (st : State) (iEvent : Event) (mu : Muon) (ref : TrackRef)
      (tracks : List Track) (k : Nat),
      iEvent.hMuonProduct = some [mu] → mu.innerTrack = some ref → ref.key = some k →
      iEvent.hTrackProduct = some tracks →
      ∀ f ∈ (analyzeMuons cfg st iEvent).fills,
        f.hist = .h_npv
        ∨ ∃ trk ∈ tracks.enum, trk.1 ≠ k
            ∧ f ∈ (trackProbe cfg iEvent.luminosityBlock [mu] (0, mu) trk).fills := by
    intro st iEvent mu ref tracks k hmu hin hkey htrk f hf
    rcases analyzeMuons_fills_cases cfg st iEvent with ⟨-, h⟩ | ⟨pvCol, -, h⟩ |
      ⟨pvCol, muons, tracks2, pv0, -, hm, ht, h⟩
    · rw [h] at hf
      simp at hf
    · rw [h, List.mem_singleton] at hf
      left
      rw [hf]
    · rw [hmu] at hm
      rw [htrk] at ht
      simp only [Option.some.injEq] at hm ht
      subst hm ht
      rw [h, List.mem_cons] at hf
      rcases hf with hf | hf
      · left
        rw [hf]
      · right
        obtain ⟨tag, htag, hft⟩ := forEach_fills_mem _ _ f hf
        have htag0 : tag = (0, mu) := by
          simpa [List.enum, List.enumFrom] using htag
        rw [htag0] at hft
        exact muonTag_single_fills cfg iEvent.luminosityBlock pv0 iEvent.hTrgEvt mu ref tracks k
          hin hkey f hft
  refine ⟨fun i itMu1 itMu2 => muonProbe_self cfg ls pv trgEvt i itMu1 itMu2, ?_, hgen, ?_⟩
  · intro muons tag trk mu ref hmu hin hkey
    exact trackProbe_of_isMuon cfg ls muons tag trk mu ref hmu hin hkey
  · intro st iEvent mu ref trk hmu hin hkey htrk f hf
    rcases hgen st iEvent mu ref [trk] 0 hmu hin hkey htrk f hf with h | ⟨t, ht, hne, -⟩
    · exact h
    · exfalso
      have ht0 : t = (0, trk) := by
        simpa [List.enum, List.enumFrom] using ht
      rw [ht0] at hne
      exact hne rfl

theorem no_self_pairing_witness :
    (muonEvent [trackedMuon] [scenarioTag.muonBestTrack]).hMuonProduct = some [trackedMuon]
    ∧ trackedMuon.innerTrack = some ⟨some 0, scenarioTag.muonBestTrack⟩
    ∧ (muonEvent [trackedMuon] [scenarioTag.muonBestTrack]).hTrackProduct
        = some [scenarioTag.muonBestTrack]
    ∧ tagSelection sampleConfig sampleVertex (some allMatch) trackedMuon = .ok true
    ∧ (∀ f ∈ (analyzeMuons sampleConfig sampleState
          (muonEvent [trackedMuon] [scenarioTag.muonBestTrack])).fills, f.hist = .h_npv)
    ∧ (analyzeMuons sampleConfig sampleState
          (muonEvent [trackedMuon] [scenarioTag.muonBestTrack])).fills.length = 1 := by
  have htag : tagSelection sampleConfig sampleVertex (some allMatch) trackedMuon = .ok true := by
    norm_num [tagSelection, sampleConfig, goodMuon, scenarioTag, trackedMuon, allMatch,
      passMuonID, passMuonIso, isMuonTriggerObj, abs_le]
  have h := (no_self_pairing sampleConfig 7 sampleVertex allMatch).2.2.2 sampleState
    (muonEvent [trackedMuon] [scenarioTag.muonBestTrack]) trackedMuon
    ⟨some 0, scenarioTag.muonBestTrack⟩ scenarioTag.muonBestTrack rfl rfl rfl rfl
  refine ⟨rfl, rfl, rfl, htag, h, ?_⟩
  have hev := analyzeMuons_muonEvent [trackedMuon] [scenarioTag.muonBestTrack]
    (by simp [trackedMuon])
  rw [hev]
  have hall : ∀ f ∈ (⟨.h_npv, 7, some 1⟩ :: ([trackedMuon].enum.flatMap
      (tagFills sampleConfig 7 sampleVertex (some allMatch) [trackedMuon]
        [scenarioTag.muonBestTrack])) : List Fill), f.hist = .h_npv := by
    intro f hf
    apply h
    rw [hev]
    exact hf
  cases hl : ([trackedMuon].enum.flatMap
      (tagFills sampleConfig 7 sampleVertex (some allMatch) [trackedMuon]
        [scenarioTag.muonBestTrack])) with
  | nil => rfl
  | cons g rest =>
    exfalso
    rw [hl] at hall
    have hg := hall g (by simp)
    have hgm : g ∈ [trackedMuon].enum.flatMap
        (tagFills sampleConfig 7 sampleVertex (some allMatch) [trackedMuon]
          [scenarioTag.muonBestTrack]) := by rw [hl]; simp
    simp only [List.enum, List.enumFrom, List.flatMap_cons, List.flatMap_nil, List.append_nil,
      tagFills, List.mem_append] at hgm
    rcases hgm with hgm | hgm
    · unfold pairOut at hgm
      rw [htag] at hgm
      simp only [muonProbe_self] at hgm
      simp at hgm
    · unfold trackPairOut at hgm
      rw [htag] at hgm
      simp only at hgm
      rw [trackProbe_of_isMuon sampleConfig 7 [trackedMuon] (0, trackedMuon)
        (0, scenarioTag.muonBestTrack) trackedMuon ⟨some 0, scenarioTag.muonBestTrack⟩
        (List.mem_singleton.mpr rfl) rfl rfl] at hgm
      simp at hgm

/-- C18, the code at the failing input: for the tag `scenarioTag` the track
`centralTrack`, which is no muon's inner track, passes the probe cuts and the
hit-quality bar and has |eta| = 0.3 below the boundary 0.9, yet its one fill goes
to `h_mass_Sta_fail_forward`; the track `forwardTrack` with |eta| = 2 above the
boundary fills `h_mass_Sta_fail_central`; the standalone muon probe
`centralStaMuon` with the kinematics of `centralTrack` fills
`h_mass_Sta_fail_central`. The event with the muon
`scenarioTag` and the track `centralTrack` fills `h_npv` and
`h_mass_Sta_fail_forward`. -/
theorem trackProbe_region_inverted :
    |centralTrack.eta| < sampleConfig.MUON_BOUND
    ∧ trackProbe sampleConfig 7 [scenarioTag] (0, scenarioTag) (0, centralTrack)
        = ⟨[massFill .h_mass_Sta_fail_forward 7 91], none⟩
    ∧ sampleConfig.MUON_BOUND < |forwardTrack.eta|
    ∧ trackProbe sampleConfig 7 [scenarioTag] (0, scenarioTag) (0, forwardTrack)
        = ⟨[massFill .h_mass_Sta_fail_central 7 91], none⟩
    ∧ centralStaMuon.muonBestTrack.eta = centralTrack.eta
    ∧ muonProbe sampleConfig 7 sampleVertex allMatch (0, scenarioTag) (1, centralStaMuon)
        = ⟨[massFill .h_mass_Sta_fail_central 7 91], none⟩
    ∧ analyzeMuons sampleConfig sampleState (muonEvent [scenarioTag] [centralTrack])
        = ⟨⟨1, resolvedTrigger⟩,
            [⟨.h_npv, 7, some 1⟩, massFill .h_mass_Sta_fail_forward 7 91], none⟩ := by
  have h1 : trackProbe sampleConfig 7 [scenarioTag] (0, scenarioTag) (0, centralTrack)
      = ⟨[massFill .h_mass_Sta_fail_forward 7 91], none⟩ := by
    norm_num [trackProbe, sampleConfig, scenarioTag, goodMuon, centralTrack, abs_le, abs_lt,
      lt_abs]
  have h2 : trackProbe sampleConfig 7 [scenarioTag] (0, scenarioTag) (0, forwardTrack)
      = ⟨[massFill .h_mass_Sta_fail_central 7 91], none⟩ := by
    norm_num [trackProbe, sampleConfig, scenarioTag, goodMuon, forwardTrack, abs_le, abs_lt,
      lt_abs]
  have htag : tagSelection sampleConfig sampleVertex (some allMatch) scenarioTag = .ok true := by
    norm_num [tagSelection, sampleConfig, goodMuon, scenarioTag, allMatch, passMuonID,
      passMuonIso, isMuonTriggerObj, abs_le]
  have hcuts : passesProbeCuts sampleConfig scenarioTag centralStaMuon := by
    norm_num [passesProbeCuts, dilepMass, sampleConfig, goodMuon, scenarioTag, nonIsolatedMuon,
      centralStaMuon, abs_le]
  have h3 : muonProbe sampleConfig 7 sampleVertex allMatch (0, scenarioTag) (1, centralStaMuon)
      = ⟨[massFill .h_mass_Sta_fail_central 7 91], none⟩ := by
    rw [muonProbe_of_cuts sampleConfig 7 sampleVertex allMatch 0 1 scenarioTag centralStaMuon
      (by decide) hcuts]
    norm_num [muonCategoryFills, sampleConfig, nonIsolatedMuon, centralStaMuon, passMuonID,
      passMuonIso, isCentral, dilepMass, abs_lt]
    decide
  refine ⟨?_, h1, ?_, h2, rfl, h3, ?_⟩
  · norm_num [centralTrack, sampleConfig, abs_lt]
  · norm_num [forwardTrack, sampleConfig, lt_abs]
  · rw [analyzeMuons_muonEvent [scenarioTag] [centralTrack] (by simp [scenarioTag, goodMuon])]
    simp only [List.enum, List.enumFrom, List.flatMap_cons, List.flatMap_nil, List.append_nil,
      tagFills, pairOut, trackPairOut, htag, muonProbe_self, h1, List.nil_append]

/-! ## Electron channel: tag, probe and missing inputs -/

/-- The probe loop body leaves in `eleProbe` the electron it used for the probe:
the value of `eleProbe` after the matching loop, or the old value when the
supercluster is the tag's own. -/
theorem electronProbe_fst (cfg : Config) (ls : Nat) (trgEvt : TriggerEvent)
    (electrons : List Electron) (tag : Nat × Electron) (eleProbe : Option Electron)
    (sc : SuperCluster) :
    (electronProbe cfg ls trgEvt electrons tag eleProbe sc).1
      = if cfg.scEq sc tag.2.superCluster then eleProbe
        else findMatchingElectron cfg tag.1 sc eleProbe electrons.enum := by
  unfold electronProbe
  simp only []
  split_ifs <;> rfl

/-- C12: in the electron channel the probe of a qualifying pair (one that fills
`h_ee_yield_Z`) is never the tag's own supercluster nor the tag electron: the
supercluster of the pair differs from the tag's, and when the probe four-vector
and charge come from an electron, that electron has the charge opposite to the
tag's and so, the tag's charge being non-zero, is not the tag electron. This
holds for every value the variable `eleProbe` has when the probe is reached. -/
theorem electronProbe_probe_not_tag (cfg : Config) (ls : Nat) (trgEvt : TriggerEvent)
    (electrons : List Electron) (tag : Nat × Electron) (eleProbe : Option Electron)
    (sc : SuperCluster) (hq : tag.2.charge ≠ 0)
    (hfill : 0 < countHist .h_ee_yield_Z
      (electronProbe cfg ls trgEvt electrons tag eleProbe sc).2.fills) :
    cfg.scEq sc tag.2.superCluster = false
    ∧ (electronProbe cfg ls trgEvt electrons tag eleProbe sc).1
        = findMatchingElectron cfg tag.1 sc eleProbe electrons.enum
    ∧ (∀ e : Electron, (electronProbe cfg ls trgEvt electrons tag eleProbe sc).1 = some e →
        e.charge = - tag.2.charge ∧ e ≠ tag.2) := by
  have hsc : cfg.scEq sc tag.2.superCluster = false := by
    by_contra h
    have h1 : cfg.scEq sc tag.2.superCluster = true := by simpa using h
    unfold electronProbe at hfill
    simp [h1, countHist] at hfill
  have hfst := electronProbe_fst cfg ls trgEvt electrons tag eleProbe sc
  rw [hsc] at hfst
  simp only [Bool.false_eq_true, if_false] at hfst
  refine ⟨hsc, hfst, ?_⟩
  intro e he
  rw [hfst] at he
  have hch : e.charge = - tag.2.charge := by
    by_contra hne
    have hdec : decide (e.charge ≠ - tag.2.charge) = true := by simpa using hne
    unfold electronProbe at hfill
    simp only [hsc, Bool.false_eq_true, if_false, he, hdec, if_true] at hfill
    split_ifs at hfill <;> simp [countHist] at hfill
  refine ⟨hch, ?_⟩
  intro heq
  rw [heq] at hch
  omega

theorem electronProbe_probe_not_tag_witness :
    sampleEle0.charge ≠ 0
    ∧ 0 < countHist .h_ee_yield_Z
        (electronProbe sampleConfig 7 allMatch [sampleEle0, sampleEle1] (0, sampleEle0) none
          sampleSC1).2.fills
    ∧ (electronProbe sampleConfig 7 allMatch [sampleEle0, sampleEle1] (0, sampleEle0) none
        sampleSC1).1 = some sampleEle1
    ∧ sampleEle1.charge = - sampleEle0.charge ∧ sampleEle1 ≠ sampleEle0 := by
  have hq : sampleEle0.charge ≠ 0 := by decide
  have hfill : 0 < countHist .h_ee_yield_Z
      (electronProbe sampleConfig 7 allMatch [sampleEle0, sampleEle1] (0, sampleEle0) none
        sampleSC1).2.fills := by
    norm_num [electronProbe, sampleConfig, sampleEle0, sampleEle1, sampleSC0, sampleSC1,
      findMatchingElectron, List.enum, List.enumFrom, allMatch, isElectronTriggerObj, abs_le,
      abs_lt, countHist, yieldFill, massFill]
  have h := electronProbe_probe_not_tag sampleConfig 7 allMatch [sampleEle0, sampleEle1]
    (0, sampleEle0) none sampleSC1 hq hfill
  have h1 : (electronProbe sampleConfig 7 allMatch [sampleEle0, sampleEle1] (0, sampleEle0) none
      sampleSC1).1 = some sampleEle1 := by
    rw [h.2.1]
    norm_num [findMatchingElectron, List.enum, List.enumFrom, sampleConfig, sampleEle0,
      sampleEle1, sampleSC0, sampleSC1]
  exact ⟨hq, hfill, h1, (h.2.2 sampleEle1 h1).1, (h.2.2 sampleEle1 h1).2⟩

/-! ## Missing collections -/

/-- The trigger-bit loop does not throw on records that fit the trigger results. -/
theorem fillTriggerBits_ok_of_valid (hTrgRes : TriggerResults) (recs : List TriggerRecord)
    (h : recordsValid hTrgRes recs) : ∃ bits, fillTriggerBits hTrgRes recs = .ok bits := by
  induction recs with
  | nil => exact ⟨[], rfl⟩
  | cons r rest ih =>
    have hrest : recordsValid hTrgRes rest := fun r2 hr2 => h r2 (List.mem_cons_of_mem r hr2)
    obtain ⟨bits, hbits⟩ := ih hrest
    unfold fillTriggerBits
    by_cases hinv : r.hltPathIndex = invalidIndex
    · rw [if_pos hinv]
      exact ⟨bits, hbits⟩
    · rw [if_neg hinv]
      have hlt : r.hltPathIndex < hTrgRes.accept.length := h r (List.mem_cons_self r rest) hinv
      rw [List.getElem?_eq_getElem hlt, hbits]
      exact ⟨_, rfl⟩

/-- The records `initHLT` leaves fit the trigger results it was called with. -/
theorem initHLT_recordsValid (cfg : Config) (result : TriggerResults)
    (triggerNames : TriggerNames) (fTrigger : TTrigger) :
    recordsValid result (initHLT cfg result triggerNames fTrigger).fRecords := by
  intro r hr hne
  simp only [initHLT, List.mem_map] at hr
  obtain ⟨r0, -, rfl⟩ := hr
  rw [initRecord_hltPathIndex] at hne ⊢
  by_cases hlt : triggerNames.triggerIndex (initRecord cfg result triggerNames r0).hltPathName
      < result.accept.length
  · rw [if_pos hlt]
    exact hlt
  · rw [if_neg hlt] at hne
    exact absurd rfl hne

/-- After the `config_changed` block the records fit the trigger results of the
event, provided the records cached for the same menu id did. -/
theorem updateTrigger_recordsValid (cfg : Config) (st : State) (hTrgRes : TriggerResults)
    (h : st.fTriggerNamesID = hTrgRes.names.parameterSetID →
      recordsValid hTrgRes st.fTrigger.fRecords) :
    recordsValid hTrgRes (updateTrigger cfg st hTrgRes).fTrigger.fRecords := by
  unfold updateTrigger
  by_cases hid : st.fTriggerNamesID = hTrgRes.names.parameterSetID
  · simp only [hid, ne_eq, not_true_eq_false, if_false]
    exact h hid
  · simp only [ne_eq, hid, not_false_eq_true, if_true]
    exact initHLT_recordsValid cfg hTrgRes hTrgRes.names st.fTrigger

/-- C13 as stated fails: an event with a valid vertex collection holding a
qualifying vertex and no trigger results is skipped, but `h_npv` has been filled
once before the trigger results are looked at. -/
theorem analyzeMuons_missing_trigger_counterexample :
    ({ sampleEvent [sampleVertex] with hTrgRes := none } : Event).hTrgRes = none
    ∧ analyzeMuons sampleConfig sampleState { sampleEvent [sampleVertex] with hTrgRes := none }
        = ⟨sampleState, [⟨.h_npv, 7, some 1⟩], none⟩
    ∧ (analyzeMuons sampleConfig sampleState
        { sampleEvent [sampleVertex] with hTrgRes := none }).fills ≠ [] := by
  have hscan : vertexScan sampleConfig [sampleVertex] = (some sampleVertex, 1) := by
    norm_num [vertexScan, vertexStep, sampleConfig, sampleVertex]
  have h : analyzeMuons sampleConfig sampleState
      { sampleEvent [sampleVertex] with hTrgRes := none }
      = ⟨sampleState, [⟨.h_npv, 7, some 1⟩], none⟩ := by
    unfold analyzeMuons
    simp [sampleEvent, hscan]
  refine ⟨rfl, h, ?_⟩
  rw [h]
  simp

/-- C13, as amended: if the vertex, trigger-result, muon or track collection is
missing or invalid, `analyzeMuons` skips the event with no mass or yield fill and
raises no error; it makes no fill at all when the vertex collection is missing,
and otherwise its only fill is `h_npv` with the lumi block and the number of
qualifying vertices. For a missing muon or track collection this holds when the
records cached for the menu id of the event fit its trigger results. -/
theorem analyzeMuons_missing_collection (cfg : Config) (st : State) (iEvent : Event) :
    (iEvent.hVertexProduct = none → analyzeMuons cfg st iEvent = ⟨st, [], none⟩)
    ∧ (∀ pvCol : List Vertex, iEvent.hVertexProduct = some pvCol → iEvent.hTrgRes = none →
        analyzeMuons cfg st iEvent
          = ⟨st, [⟨.h_npv, iEvent.luminosityBlock, some ((vertexScan cfg pvCol).2 : ℚ)⟩], none⟩)
    ∧ (∀ (pvCol : List Vertex) (hTrgRes : TriggerResults),
        iEvent.hVertexProduct = some pvCol → iEvent.hTrgRes = some hTrgRes →
        (iEvent.hMuonProduct = none ∨ iEvent.hTrackProduct = none) →
        (st.fTriggerNamesID = hTrgRes.names.parameterSetID →
          recordsValid hTrgRes st.fTrigger.fRecords) →
        (analyzeMuons cfg st iEvent).fills
          = [⟨.h_npv, iEvent.luminosityBlock, some ((vertexScan cfg pvCol).2 : ℚ)⟩]
        ∧ (analyzeMuons cfg st iEvent).exc = none) := by
  refine ⟨?_, ?_, ?_⟩
  · intro hv
    unfold analyzeMuons
    rw [hv]
  · intro pvCol hv hres
    unfold analyzeMuons
    rw [hv, hres]
    simp only []
    split_ifs <;> rfl
  · intro pvCol hTrgRes hv hres hmiss hvalid
    obtain ⟨bits, hbits⟩ := fillTriggerBits_ok_of_valid hTrgRes _
      (updateTrigger_recordsValid cfg st hTrgRes hvalid)
    unfold analyzeMuons
    rw [hv, hres]
    simp only [hbits]
    by_cases hn : (vertexScan cfg pvCol).2 = 0
    · simp [hn]
    · simp only [hn, if_false]
      by_cases hpass : (!(isMuonTrigger (updateTrigger cfg st hTrgRes).fTrigger bits)) = true
      · simp [hpass]
      · simp only [hpass, if_false]
        rcases hmiss with hm | ht
        · rw [hm]
          exact ⟨rfl, rfl⟩
        · rw [ht]
          cases iEvent.hMuonProduct <;> exact ⟨rfl, rfl⟩

theorem analyzeMuons_missing_collection_witness :
    ({ sampleEvent [sampleVertex] with hMuonProduct := none } : Event).hVertexProduct
        = some [sampleVertex]
    ∧ ({ sampleEvent [sampleVertex] with hMuonProduct := none } : Event).hTrgRes
        = some (sampleResults [true, true, true])
    ∧ ({ sampleEvent [sampleVertex] with hMuonProduct := none } : Event).hMuonProduct = none
    ∧ (sampleState.fTriggerNamesID = (sampleResults [true, true, true]).names.parameterSetID →
        recordsValid (sampleResults [true, true, true]) sampleState.fTrigger.fRecords)
    ∧ (analyzeMuons sampleConfig sampleState
        { sampleEvent [sampleVertex] with hMuonProduct := none }).fills = [⟨.h_npv, 7, some 1⟩]
    ∧ (analyzeMuons sampleConfig sampleState
        { sampleEvent [sampleVertex] with hMuonProduct := none }).exc = none := by
  have hvalid : sampleState.fTriggerNamesID
      = (sampleResults [true, true, true]).names.parameterSetID →
      recordsValid (sampleResults [true, true, true]) sampleState.fTrigger.fRecords := by
    intro h
    exact absurd h (by decide)
  have hscan : vertexScan sampleConfig [sampleVertex] = (some sampleVertex, 1) := by
    norm_num [vertexScan, vertexStep, sampleConfig, sampleVertex]
  have h := (analyzeMuons_missing_collection sampleConfig sampleState
    { sampleEvent [sampleVertex] with hMuonProduct := none }).2.2 [sampleVertex]
    (sampleResults [true, true, true]) rfl rfl (Or.inl rfl) hvalid
  rw [hscan] at h
  exact ⟨rfl, rfl, rfl, hvalid, h.1.trans (by simp [sampleEvent]), h.2⟩

/-- C14, the code at the failing inputs: on the event `sampleEvent [sampleVertex]`,
which passes the vertex and trigger gates of the electron channel, a missing
pile-up density, a missing electron collection or a missing supercluster
collection ends `analyzeElectrons` with the exception of an invalid handle, with
no fill; a missing beamspot or missing conversions change nothing, the event is
not skipped and keeps its 4 fills of `h_ee_yield_Z`. The muon channel on the
same event without its muon collection returns with no exception. -/
theorem analyzeElectrons_missing_input_throws :
    analyzeElectrons sampleConfig sampleState
        { sampleEvent [sampleVertex] with rhoHandle := none }
      = ⟨⟨1, resolvedTrigger⟩, [], some .invalidHandle⟩
    ∧ analyzeElectrons sampleConfig sampleState
        { sampleEvent [sampleVertex] with electrons := none }
      = ⟨⟨1, resolvedTrigger⟩, [], some .invalidHandle⟩
    ∧ analyzeElectrons sampleConfig sampleState
        { sampleEvent [sampleVertex] with superclusters := none }
      = ⟨⟨1, resolvedTrigger⟩, [], some .invalidHandle⟩
    ∧ analyzeElectrons sampleConfig sampleState
        { sampleEvent [sampleVertex] with beamspotHandle := none }
      = analyzeElectrons sampleConfig sampleState (sampleEvent [sampleVertex])
    ∧ analyzeElectrons sampleConfig sampleState
        { sampleEvent [sampleVertex] with conversionsHandle := none }
      = analyzeElectrons sampleConfig sampleState (sampleEvent [sampleVertex])
    ∧ countHist .h_ee_yield_Z
        (analyzeElectrons sampleConfig sampleState (sampleEvent [sampleVertex])).fills = 4
    ∧ (analyzeElectrons sampleConfig sampleState (sampleEvent [sampleVertex])).exc = none
    ∧ (analyzeMuons sampleConfig sampleState
        { sampleEvent [sampleVertex] with hMuonProduct := none }).exc = none := by
  have hvc : vertexCount sampleConfig [sampleVertex] = 1 := by
    norm_num [vertexCount, vertexCountStep, sampleConfig, sampleVertex]
  have hscan : vertexScan sampleConfig [sampleVertex] = (some sampleVertex, 1) := by
    norm_num [vertexScan, vertexStep, sampleConfig, sampleVertex]
  have hup : updateTrigger sampleConfig sampleState (sampleResults [true, true, true])
      = ⟨1, resolvedTrigger⟩ := updateTrigger_sample sampleConfig rfl [true, true, true] rfl
  have hbits : fillTriggerBits (sampleResults [true, true, true]) resolvedTrigger.fRecords
      = .ok [0, 1] := by rfl
  have hpass : isElectronTrigger resolvedTrigger [0, 1] = true := by decide
  have hmu : isMuonTrigger resolvedTrigger [0, 1] = true := by decide
  have hloop : forEachS
      (electronTag sampleConfig 7 (some allMatch) [sampleEle0, sampleEle1]
        (some [sampleSC0, sampleSC1, sampleSC2])) none [sampleEle0, sampleEle1].enum
      = (some sampleEle0,
        ⟨[yieldFill .h_ee_yield_Z 7, massFill .h_ee_mass_HLT_pass 7 91,
         massFill .h_ee_mass_id_pass 7 91,
         yieldFill .h_ee_yield_Z 7, massFill .h_ee_mass_HLT_pass 7 91,
         massFill .h_ee_mass_id_pass 7 91,
         yieldFill .h_ee_yield_Z 7, massFill .h_ee_mass_HLT_pass 7 91,
         massFill .h_ee_mass_id_pass 7 91,
         yieldFill .h_ee_yield_Z 7, massFill .h_ee_mass_HLT_pass 7 91,
         massFill .h_ee_mass_id_pass 7 91], none⟩) := by
    norm_num [forEachS, electronTag, electronProbe, sampleConfig, sampleEle0, sampleEle1,
      sampleSC0, sampleSC1, sampleSC2, findMatchingElectron, List.enum, List.enumFrom, allMatch,
      isElectronTriggerObj, abs_le, abs_lt]
  have hnosc : forEachS
      (electronTag sampleConfig 7 (some allMatch) [sampleEle0, sampleEle1] none) none
        [sampleEle0, sampleEle1].enum
      = (none, ⟨[], some .invalidHandle⟩) := by
    norm_num [forEachS, electronTag, sampleConfig, sampleEle0, sampleEle1,
      sampleSC0, sampleSC1, List.enum, List.enumFrom, allMatch,
      isElectronTriggerObj, abs_le, abs_lt]
  have hfull : analyzeElectrons sampleConfig sampleState (sampleEvent [sampleVertex])
      = ⟨⟨1, resolvedTrigger⟩, (forEachS
          (electronTag sampleConfig 7 (some allMatch) [sampleEle0, sampleEle1]
            (some [sampleSC0, sampleSC1, sampleSC2])) none [sampleEle0, sampleEle1].enum).2.fills,
          (forEachS
          (electronTag sampleConfig 7 (some allMatch) [sampleEle0, sampleEle1]
            (some [sampleSC0, sampleSC1, sampleSC2])) none [sampleEle0, sampleEle1].enum).2.exc⟩ := by
    unfold analyzeElectrons
    simp only [sampleEvent, hvc, hup, hbits, hpass]
    rfl
  refine ⟨?_, ?_, ?_, ?_, ?_, ?_, ?_, ?_⟩
  · unfold analyzeElectrons
    simp only [sampleEvent, hvc, hup, hbits, hpass]
    rfl
  · unfold analyzeElectrons
    simp only [sampleEvent, hvc, hup, hbits, hpass]
    rfl
  · unfold analyzeElectrons
    simp only [sampleEvent, hvc, hup, hbits, hpass]
    simp [hnosc]
  · unfold analyzeElectrons
    simp only [sampleEvent]
  · unfold analyzeElectrons
    simp only [sampleEvent]
  · rw [hfull, hloop]
    decide
  · rw [hfull, hloop]
  · unfold analyzeMuons
    simp [sampleEvent, hscan, hup, hbits, hmu]

/-! ## The tie-break and the complementary assignment -/

/-- C15, the code at the failing input: with the tag pt cut 27 and the probe pt
cut 20 of `sampleConfig`, the muon `sampleMuA` (pt 45) is accepted as a tag and
the muon `softMuon` (pt 26) passes the probe cuts, the ID, the isolation and the
trigger match, so the pair is classified 2HLT. With `softMuon` at position 0 and
`sampleMuA` at position 1 the tie-break skips the pair, and the complementary
assignment is not processed, `softMuon` being below the tag pt cut: the event
fills `h_npv` only. With the two muons in the other order the same pair makes
the seven 2HLT fills. -/
theorem tie_break_loses_pair :
    tagSelection sampleConfig sampleVertex (some allMatch) sampleMuA = .ok true
    ∧ passesProbeCuts sampleConfig sampleMuA softMuon
    ∧ probeCategory sampleConfig sampleVertex allMatch softMuon = some .cat2HLT
    ∧ muonProbe sampleConfig 7 sampleVertex allMatch (1, sampleMuA) (0, softMuon)
        = ⟨[], none⟩
    ∧ softMuon.muonBestTrack.pt < sampleConfig.PtCutL1_
    ∧ tagSelection sampleConfig sampleVertex (some allMatch) softMuon = .ok false
    ∧ pairOut sampleConfig 7 sampleVertex (some allMatch) (0, softMuon) (1, sampleMuA)
        = ⟨[], none⟩
    ∧ analyzeMuons sampleConfig sampleState (muonEvent [softMuon, sampleMuA] [])
        = ⟨⟨1, resolvedTrigger⟩, [⟨.h_npv, 7, some 1⟩], none⟩
    ∧ analyzeMuons sampleConfig sampleState (muonEvent [sampleMuA, softMuon] [])
        = ⟨⟨1, resolvedTrigger⟩,
            ⟨.h_npv, 7, some 1⟩ :: Category.fills .cat2HLT 7 91 true true, none⟩ := by
  have htag : tagSelection sampleConfig sampleVertex (some allMatch) sampleMuA = .ok true := by
    norm_num [tagSelection, sampleConfig, goodMuon, sampleMuA, allMatch, passMuonID,
      passMuonIso, isMuonTriggerObj, abs_le]
  have hprobe : tagSelection sampleConfig sampleVertex (some allMatch) softMuon
      = .ok false := by
    norm_num [tagSelection, sampleConfig, goodMuon, softMuon, allMatch, passMuonID,
      passMuonIso, isMuonTriggerObj, abs_le]
  have hcuts : passesProbeCuts sampleConfig sampleMuA softMuon := by
    norm_num [passesProbeCuts, dilepMass, sampleConfig, goodMuon, sampleMuA, softMuon,
      abs_le]
  have hcat : probeCategory sampleConfig sampleVertex allMatch softMuon = some .cat2HLT := by
    norm_num [probeCategory, passesSelection, matchesTrigger, sampleConfig, goodMuon,
      softMuon, allMatch, passMuonID, passMuonIso, isMuonTriggerObj]
  have hskip : muonProbe sampleConfig 7 sampleVertex allMatch (1, sampleMuA) (0, softMuon)
      = ⟨[], none⟩ := by
    rw [muonProbe_of_cuts sampleConfig 7 sampleVertex allMatch 1 0 sampleMuA softMuon
      (by decide) hcuts]
    norm_num [muonCategoryFills, sampleConfig, goodMuon, softMuon, sampleMuA, allMatch,
      passMuonID, passMuonIso, isMuonTriggerObj, isCentral, dilepMass, abs_lt]
  have hfill : muonProbe sampleConfig 7 sampleVertex allMatch (0, sampleMuA) (1, softMuon)
      = ⟨Category.fills .cat2HLT 7 91 true true, none⟩ := by
    rw [muonProbe_of_cuts sampleConfig 7 sampleVertex allMatch 0 1 sampleMuA softMuon
      (by decide) hcuts]
    norm_num [muonCategoryFills, sampleConfig, goodMuon, softMuon, sampleMuA, allMatch,
      passMuonID, passMuonIso, isMuonTriggerObj, isCentral, dilepMass, abs_lt, Category.fills,
      passFills]
  have hcomp : pairOut sampleConfig 7 sampleVertex (some allMatch) (0, softMuon)
      (1, sampleMuA) = ⟨[], none⟩ := by
    simp only [pairOut, hprobe]
  refine ⟨htag, hcuts, hcat, hskip, ?_, hprobe, hcomp, ?_, ?_⟩
  · norm_num [softMuon, goodMuon, sampleConfig]
  · rw [analyzeMuons_muonEvent [softMuon, sampleMuA] []
      (by simp [sampleMuA, softMuon, goodMuon])]
    simp only [List.enum, List.enumFrom, List.flatMap_cons, List.flatMap_nil, List.append_nil,
      tagFills, pairOut, htag, hprobe, muonProbe_self, hskip, List.nil_append]
  · rw [analyzeMuons_muonEvent [sampleMuA, softMuon] []
      (by simp [sampleMuA, softMuon, goodMuon])]
    simp only [List.enum, List.enumFrom, List.flatMap_cons, List.flatMap_nil, List.append_nil,
      tagFills, pairOut, htag, hprobe, muonProbe_self, hfill, List.nil_append]

/-! ## The probe four-vector and the charge requirement -/

/-- C19, the code at the failing inputs, with the pair mass read as the sum of
the two transverse momenta (`ptSumConfig`). First input: electrons `sampleEle0`
(the tag, at position 0) and `sampleEle1`, superclusters `sampleSC0, sampleSC1,
sampleSC2`. No electron other than the tag has `sampleSC2` as its cluster, yet at
`sampleSC2` the variable `eleProbe` still holds `sampleEle1`, and the probe takes
the four-vector of `sampleEle1` (mass 45 + 46 = 91) where the cluster gives
45 + 40 = 85. Second input: electrons `sampleEle0` (the tag) and `sampleEle2` of
the same charge, superclusters `sampleSC0, sampleSC3, sampleSC2`. At `sampleSC2`
no electron matches, yet the charge of the stale `sampleEle2` is tested and the
pair is rejected: the probe loop of the tag fills nothing, where a null
`eleProbe` accepts the pair. -/
theorem electronProbe_stale_four_vector :
    findMatchingElectron ptSumConfig 0 sampleSC2 none [sampleEle0, sampleEle1].enum = none
    ∧ (forEachS (electronProbe ptSumConfig 7 allMatch [sampleEle0, sampleEle1] (0, sampleEle0))
        none [sampleSC0, sampleSC1]).1 = some sampleEle1
    ∧ (electronProbe ptSumConfig 7 allMatch [sampleEle0, sampleEle1] (0, sampleEle0)
        (some sampleEle1) sampleSC2).2.fills
      = [yieldFill .h_ee_yield_Z 7, massFill .h_ee_mass_HLT_pass 7 91,
         massFill .h_ee_mass_id_pass 7 91]
    ∧ (electronProbe ptSumConfig 7 allMatch [sampleEle0, sampleEle1] (0, sampleEle0)
        none sampleSC2).2.fills
      = [yieldFill .h_ee_yield_Z 7, massFill .h_ee_mass_HLT_pass 7 85,
         massFill .h_ee_mass_id_fail 7 85]
    ∧ (forEachS (electronProbe ptSumConfig 7 allMatch [sampleEle0, sampleEle1] (0, sampleEle0))
        none [sampleSC0, sampleSC1, sampleSC2]).2.fills
      = [yieldFill .h_ee_yield_Z 7, massFill .h_ee_mass_HLT_pass 7 91,
         massFill .h_ee_mass_id_pass 7 91,
         yieldFill .h_ee_yield_Z 7, massFill .h_ee_mass_HLT_pass 7 91,
         massFill .h_ee_mass_id_pass 7 91]
    ∧ findMatchingElectron ptSumConfig 0 sampleSC2 none [sampleEle0, sampleEle2].enum = none
    ∧ sampleEle2.charge = sampleEle0.charge
    ∧ forEachS (electronProbe ptSumConfig 7 allMatch [sampleEle0, sampleEle2] (0, sampleEle0))
        none [sampleSC0, sampleSC3, sampleSC2] = (some sampleEle2, ⟨[], none⟩)
    ∧ (electronProbe ptSumConfig 7 allMatch [sampleEle0, sampleEle2] (0, sampleEle0)
        (some sampleEle2) sampleSC2).2.fills = []
    ∧ (electronProbe ptSumConfig 7 allMatch [sampleEle0, sampleEle2] (0, sampleEle0)
        none sampleSC2).2.fills
      = [yieldFill .h_ee_yield_Z 7, massFill .h_ee_mass_HLT_pass 7 85,
         massFill .h_ee_mass_id_fail 7 85] := by
  refine ⟨?_, ?_, ?_, ?_, ?_, ?_, rfl, ?_, ?_, ?_⟩
  · norm_num [findMatchingElectron, List.enum, List.enumFrom, ptSumConfig, sampleConfig,
      sampleEle0, sampleEle1, sampleSC0, sampleSC1, sampleSC2]
  · norm_num [forEachS, electronProbe, ptSumConfig, sampleConfig, sampleEle0, sampleEle1,
      sampleSC0, sampleSC1, findMatchingElectron, List.enum, List.enumFrom, allMatch,
      isElectronTriggerObj, abs_le, abs_lt]
  · norm_num [electronProbe, ptSumConfig, sampleConfig, sampleEle0, sampleEle1, sampleSC0,
      sampleSC1, sampleSC2, findMatchingElectron, List.enum, List.enumFrom, allMatch,
      isElectronTriggerObj, abs_le, abs_lt]
  · norm_num [electronProbe, ptSumConfig, sampleConfig, sampleEle0, sampleEle1, sampleSC0,
      sampleSC1, sampleSC2, findMatchingElectron, List.enum, List.enumFrom, allMatch,
      isElectronTriggerObj, abs_le, abs_lt]
  · norm_num [forEachS, electronProbe, ptSumConfig, sampleConfig, sampleEle0, sampleEle1,
      sampleSC0, sampleSC1, sampleSC2, findMatchingElectron, List.enum, List.enumFrom, allMatch,
      isElectronTriggerObj, abs_le, abs_lt]
  · norm_num [findMatchingElectron, List.enum, List.enumFrom, ptSumConfig, sampleConfig,
      sampleEle0, sampleEle2, sampleSC0, sampleSC3, sampleSC2]
  · norm_num [forEachS, electronProbe, ptSumConfig, sampleConfig, sampleEle0, sampleEle2,
      sampleSC0, sampleSC3, sampleSC2, findMatchingElectron, List.enum, List.enumFrom, allMatch,
      isElectronTriggerObj, abs_le, abs_lt]
  · norm_num [electronProbe, ptSumConfig, sampleConfig, sampleEle0, sampleEle2, sampleSC0,
      sampleSC3, sampleSC2, findMatchingElectron, List.enum, List.enumFrom, allMatch,
      isElectronTriggerObj, abs_le, abs_lt]
  · norm_num [electronProbe, ptSumConfig, sampleConfig, sampleEle0, sampleEle2, sampleSC0,
      sampleSC3, sampleSC2, findMatchingElectron, List.enum, List.enumFrom, allMatch,
      isElectronTriggerObj, abs_le, abs_lt]

/-! ## The trigger-object match of the electron tag -/

/-- C20 as stated fails: the electron `sampleEle0` passes the electron ID, the tag
pt and |eta| cuts and lies outside the crack band. With every position matched to
a trigger object it is used as a tag and its probe loop makes six fills; with the
trigger event `matchExceptOrigin`, which differs only at the position of this
electron, the tag loop skips it and nothing is filled. On the event the number of
`h_ee_yield_Z` fills goes from 4 to 2. -/
theorem electronTag_match_gates_counterexample :
    sampleEle0.passID = true
    ∧ sampleConfig.ELE_PT_CUT_TAG ≤ sampleEle0.pt
    ∧ |sampleEle0.eta| ≤ sampleConfig.ELE_ETA_CUT_TAG
    ∧ ¬ (|sampleEle0.eta| > sampleConfig.ELE_ETA_CRACK_LOW
        ∧ |sampleEle0.eta| < sampleConfig.ELE_ETA_CRACK_HIGH)
    ∧ (∀ (name : String) (eta phi : ℚ), ¬ (eta = sampleEle0.eta ∧ phi = sampleEle0.phi) →
        matchExceptOrigin.objectMatches name eta phi = allMatch.objectMatches name eta phi)
    ∧ (electronTag sampleConfig 7 (some allMatch) [sampleEle0, sampleEle1]
        (some [sampleSC0, sampleSC1, sampleSC2]) none (0, sampleEle0)).2.fills
      = [yieldFill .h_ee_yield_Z 7, massFill .h_ee_mass_HLT_pass 7 91,
         massFill .h_ee_mass_id_pass 7 91,
         yieldFill .h_ee_yield_Z 7, massFill .h_ee_mass_HLT_pass 7 91,
         massFill .h_ee_mass_id_pass 7 91]
    ∧ electronTag sampleConfig 7 (some matchExceptOrigin) [sampleEle0, sampleEle1]
        (some [sampleSC0, sampleSC1, sampleSC2]) none (0, sampleEle0) = (none, ⟨[], none⟩)
    ∧ countHist .h_ee_yield_Z
        (analyzeElectrons sampleConfig sampleState (sampleEvent [sampleVertex])).fills = 4
    ∧ countHist .h_ee_yield_Z
        (analyzeElectrons sampleConfig sampleState
          { sampleEvent [sampleVertex] with hTrgEvt := some matchExceptOrigin }).fills = 2 := by
  have hvc : vertexCount sampleConfig [sampleVertex] = 1 := by
    norm_num [vertexCount, vertexCountStep, sampleConfig, sampleVertex]
  have hup : updateTrigger sampleConfig sampleState (sampleResults [true, true, true])
      = ⟨1, resolvedTrigger⟩ := updateTrigger_sample sampleConfig rfl [true, true, true] rfl
  have hbits : fillTriggerBits (sampleResults [true, true, true]) resolvedTrigger.fRecords
      = .ok [0, 1] := by rfl
  have hpass : isElectronTrigger resolvedTrigger [0, 1] = true := by decide
  have hloop : (forEachS
      (electronTag sampleConfig 7 (some allMatch) [sampleEle0, sampleEle1]
        (some [sampleSC0, sampleSC1, sampleSC2])) none [sampleEle0, sampleEle1].enum).2.fills
      = [yieldFill .h_ee_yield_Z 7, massFill .h_ee_mass_HLT_pass 7 91,
         massFill .h_ee_mass_id_pass 7 91,
         yieldFill .h_ee_yield_Z 7, massFill .h_ee_mass_HLT_pass 7 91,
         massFill .h_ee_mass_id_pass 7 91,
         yieldFill .h_ee_yield_Z 7, massFill .h_ee_mass_HLT_pass 7 91,
         massFill .h_ee_mass_id_pass 7 91,
         yieldFill .h_ee_yield_Z 7, massFill .h_ee_mass_HLT_pass 7 91,
         massFill .h_ee_mass_id_pass 7 91] := by
    norm_num [forEachS, electronTag, electronProbe, sampleConfig, sampleEle0, sampleEle1,
      sampleSC0, sampleSC1, sampleSC2, findMatchingElectron, List.enum, List.enumFrom, allMatch,
      isElectronTriggerObj, abs_le, abs_lt]
  have hloop2 : (forEachS
      (electronTag sampleConfig 7 (some matchExceptOrigin) [sampleEle0, sampleEle1]
        (some [sampleSC0, sampleSC1, sampleSC2])) none [sampleEle0, sampleEle1].enum).2.fills
      = [yieldFill .h_ee_yield_Z 7, massFill .h_ee_mass_HLT_fail 7 91,
         yieldFill .h_ee_yield_Z 7, massFill .h_ee_mass_HLT_fail 7 91] := by
    norm_num [forEachS, electronTag, electronProbe, sampleConfig, sampleEle0, sampleEle1,
      sampleSC0, sampleSC1, sampleSC2, findMatchingElectron, List.enum, List.enumFrom,
      matchExceptOrigin, isElectronTriggerObj, abs_le, abs_lt]
  refine ⟨rfl, ?_, ?_, ?_, ?_, ?_, ?_, ?_, ?_⟩
  · norm_num [sampleConfig, sampleEle0]
  · norm_num [sampleConfig, sampleEle0]
  · norm_num [sampleConfig, sampleEle0]
  · intro name eta phi h
    simp only [sampleEle0] at h
    simp only [matchExceptOrigin, allMatch, Bool.not_eq_true', decide_eq_false_iff_not]
    exact h
  · norm_num [forEachS, electronTag, electronProbe, sampleConfig, sampleEle0, sampleEle1,
      sampleSC0, sampleSC1, sampleSC2, findMatchingElectron, List.enum, List.enumFrom, allMatch,
      isElectronTriggerObj, abs_le, abs_lt]
  · norm_num [electronTag, sampleConfig, sampleEle0, sampleSC0, matchExceptOrigin,
      isElectronTriggerObj]
  · have hfills : (analyzeElectrons sampleConfig sampleState (sampleEvent [sampleVertex])).fills
        = (forEachS
          (electronTag sampleConfig 7 (some allMatch) [sampleEle0, sampleEle1]
            (some [sampleSC0, sampleSC1, sampleSC2])) none [sampleEle0, sampleEle1].enum).2.fills := by
      unfold analyzeElectrons
      simp only [sampleEvent, hvc, hup, hbits, hpass]
      rfl
    rw [hfills, hloop]
    decide
  · have hfills : (analyzeElectrons sampleConfig sampleState
          { sampleEvent [sampleVertex] with hTrgEvt := some matchExceptOrigin }).fills
        = (forEachS
          (electronTag sampleConfig 7 (some matchExceptOrigin) [sampleEle0, sampleEle1]
            (some [sampleSC0, sampleSC1, sampleSC2])) none [sampleEle0, sampleEle1].enum).2.fills := by
      unfold analyzeElectrons
      simp only [sampleEvent, hvc, hup, hbits, hpass]
      rfl
    rw [hfills, hloop2]
    decide

/-- C20, as amended: in `analyzeElectrons` the trigger-object match of an
ID-passing electron gates tagging. An ID-passing electron that fails the match is
skipped with no fill and `eleProbe` unchanged, whatever its pt and eta; one that
passes the match, the tag pt and |eta| cuts and lies outside the crack band is
used as a tag: the body of the tag loop is the probe loop over all superclusters. -/
theorem electronTag_requires_trigger_match (cfg : Config) (ls : Nat) (trgEvt : TriggerEvent)
    (electrons : List Electron) (tag : Nat × Electron) (eleProbe : Option Electron)
    (hid : tag.2.passID = true) :
    (isElectronTriggerObj trgEvt tag.2.eta tag.2.phi = false →
      ∀ superclusters : Option (List SuperCluster),
        electronTag cfg ls (some trgEvt) electrons superclusters eleProbe tag
          = (eleProbe, ⟨[], none⟩))
    ∧ (isElectronTriggerObj trgEvt tag.2.eta tag.2.phi = true →
        cfg.ELE_PT_CUT_TAG ≤ tag.2.pt → |tag.2.eta| ≤ cfg.ELE_ETA_CUT_TAG →
        ¬ (|tag.2.eta| > cfg.ELE_ETA_CRACK_LOW ∧ |tag.2.eta| < cfg.ELE_ETA_CRACK_HIGH) →
        ∀ scs : List SuperCluster,
          electronTag cfg ls (some trgEvt) electrons (some scs) eleProbe tag
            = forEachS (electronProbe cfg ls trgEvt electrons tag) eleProbe scs) := by
  refine ⟨?_, ?_⟩
  · intro hm superclusters
    unfold electronTag
    simp [hid, hm]
  · intro hm hpt heta hcrack scs
    unfold electronTag
    simp only [hid, hm, Bool.not_true, Bool.false_eq_true, if_false]
    rw [if_neg (not_lt.mpr hpt), if_neg (not_lt.mpr heta), if_neg hcrack]

theorem electronTag_requires_trigger_match_witness :
    sampleEle0.passID = true
    ∧ isElectronTriggerObj matchExceptOrigin sampleEle0.eta sampleEle0.phi = false
    ∧ electronTag sampleConfig 7 (some matchExceptOrigin) [sampleEle0, sampleEle1]
        (some [sampleSC0, sampleSC1, sampleSC2]) none (0, sampleEle0) = (none, ⟨[], none⟩)
    ∧ isElectronTriggerObj allMatch sampleEle0.eta sampleEle0.phi = true
    ∧ sampleConfig.ELE_PT_CUT_TAG ≤ sampleEle0.pt
    ∧ |sampleEle0.eta| ≤ sampleConfig.ELE_ETA_CUT_TAG
    ∧ ¬ (|sampleEle0.eta| > sampleConfig.ELE_ETA_CRACK_LOW
        ∧ |sampleEle0.eta| < sampleConfig.ELE_ETA_CRACK_HIGH)
    ∧ electronTag sampleConfig 7 (some allMatch) [sampleEle0, sampleEle1]
        (some [sampleSC0, sampleSC1, sampleSC2]) none (0, sampleEle0)
      = forEachS (electronProbe sampleConfig 7 allMatch [sampleEle0, sampleEle1] (0, sampleEle0))
          none [sampleSC0, sampleSC1, sampleSC2] := by
  have hno : isElectronTriggerObj matchExceptOrigin sampleEle0.eta sampleEle0.phi = false := by
    simp [isElectronTriggerObj, matchExceptOrigin, sampleEle0]
  have hyes : isElectronTriggerObj allMatch sampleEle0.eta sampleEle0.phi = true := rfl
  have hpt : sampleConfig.ELE_PT_CUT_TAG ≤ sampleEle0.pt := by
    norm_num [sampleConfig, sampleEle0]
  have heta : |sampleEle0.eta| ≤ sampleConfig.ELE_ETA_CUT_TAG := by
    norm_num [sampleConfig, sampleEle0]
  have hcrack : ¬ (|sampleEle0.eta| > sampleConfig.ELE_ETA_CRACK_LOW
      ∧ |sampleEle0.eta| < sampleConfig.ELE_ETA_CRACK_HIGH) := by
    norm_num [sampleConfig, sampleEle0]
  exact ⟨rfl, hno,
    (electronTag_requires_trigger_match sampleConfig 7 matchExceptOrigin [sampleEle0, sampleEle1]
      (0, sampleEle0) none rfl).1 hno (some [sampleSC0, sampleSC1, sampleSC2]),
    hyes, hpt, heta, hcrack,
    (electronTag_requires_trigger_match sampleConfig 7 allMatch [sampleEle0, sampleEle1]
      (0, sampleEle0) none rfl).2 hyes hpt heta hcrack [sampleSC0, sampleSC1, sampleSC2]⟩

/-! ## Electron channel: invariants of the fills -/

/-- A property of fill lists that holds of the empty list, is kept by
concatenation and holds of every pass of the body holds of the whole loop. -/
theorem forEachS_fills_induct {σ α : Type} (P : List Fill → Prop) (body : σ → α → σ × Out)
    (xs : List α) (h0 : P []) (happ : ∀ a b : List Fill, P a → P b → P (a ++ b))
    (hbody : ∀ (s : σ) (x : α), x ∈ xs → P (body s x).2.fills) :
    ∀ s : σ, P (forEachS body s xs).2.fills := by
  induction xs with
  | nil => intro s; exact h0
  | cons x rest ih =>
    intro s
    have hx := hbody s x (List.mem_cons_self x rest)
    have ih2 := ih (fun s2 y hy => hbody s2 y (List.mem_cons_of_mem x hy))
    unfold forEachS
    rcases hb : body s x with ⟨s1, ⟨fs, exc⟩⟩
    rw [hb] at hx
    cases exc with
    | some e => exact hx
    | none => exact happ _ _ hx (ih2 s1)

theorem forEach_fills_induct {α : Type} (P : List Fill → Prop) (body : α → Out)
    (xs : List α) (h0 : P []) (happ : ∀ a b : List Fill, P a → P b → P (a ++ b))
    (hbody : ∀ x : α, x ∈ xs → P (body x).fills) :
    P (forEach body xs).fills := by
  induction xs with
  | nil => exact h0
  | cons x rest ih =>
    have hx := hbody x (List.mem_cons_self x rest)
    have ih2 := ih (fun y hy => hbody y (List.mem_cons_of_mem x hy))
    unfold forEach
    rcases hb : body x with ⟨fs, exc⟩
    rw [hb] at hx
    cases exc with
    | some e => exact hx
    | none => exact happ _ _ hx ih2

/-- The probe loop body fills nothing for a pair that is not qualifying, and for
a qualifying pair the yield, then HLT-pass and one of the ID histograms when the
probe matches the trigger object, or else HLT-fail. -/
theorem electronProbe_fills (cfg : Config) (ls : Nat) (trgEvt : TriggerEvent)
    (electrons : List Electron) (tag : Nat × Electron) (eleProbe : Option Electron)
    (sc : SuperCluster) :
    (qualifyingPair cfg tag.2 (findMatchingElectron cfg tag.1 sc eleProbe electrons.enum) sc →
      (electronProbe cfg ls trgEvt electrons tag eleProbe sc).2
        = ⟨yieldFill .h_ee_yield_Z ls ::
            (if isElectronTriggerObj trgEvt
                (probeVector cfg (findMatchingElectron cfg tag.1 sc eleProbe electrons.enum) sc).eta
                (probeVector cfg (findMatchingElectron cfg tag.1 sc eleProbe electrons.enum) sc).phi
              then
                [massFill .h_ee_mass_HLT_pass ls
                  (eeMass cfg tag.2 (findMatchingElectron cfg tag.1 sc eleProbe electrons.enum) sc),
                 if (match findMatchingElectron cfg tag.1 sc eleProbe electrons.enum with
                    | some e => e.passID
                    | none => false) then
                   massFill .h_ee_mass_id_pass ls
                    (eeMass cfg tag.2 (findMatchingElectron cfg tag.1 sc eleProbe electrons.enum) sc)
                 else
                   massFill .h_ee_mass_id_fail ls
                    (eeMass cfg tag.2 (findMatchingElectron cfg tag.1 sc eleProbe electrons.enum) sc)]
              else
                [massFill .h_ee_mass_HLT_fail ls
                  (eeMass cfg tag.2 (findMatchingElectron cfg tag.1 sc eleProbe electrons.enum)
                    sc)]), none⟩)
    ∧ (¬ qualifyingPair cfg tag.2 (findMatchingElectron cfg tag.1 sc eleProbe electrons.enum) sc →
      (electronProbe cfg ls trgEvt electrons tag eleProbe sc).2 = ⟨[], none⟩) := by
  unfold electronProbe qualifyingPair eeMass probeVector
  generalize findMatchingElectron cfg tag.1 sc eleProbe electrons.enum = ep
  constructor
  · rintro ⟨hsc, hpt, heta, hcrack, hlo, hhi, hq⟩
    have hmass : ∀ m : ℚ, 80 ≤ m → m ≤ 100 → ¬ (m < 80 ∨ m > 100) := by
      intro m h1 h2 h
      rcases h with h | h
      · exact absurd h1 (not_le.mpr h)
      · exact absurd h2 (not_le.mpr h)
    cases ep with
    | none =>
      simp only [] at hpt hlo hhi ⊢
      rw [if_neg (by simp [hsc]), if_neg (not_lt.mpr hpt), if_neg (not_lt.mpr heta),
        if_neg hcrack, if_neg (hmass _ hlo hhi)]
      simp
    | some e =>
      simp only [] at hpt hlo hhi ⊢
      rw [if_neg (by simp [hsc]), if_neg (not_lt.mpr hpt), if_neg (not_lt.mpr heta),
        if_neg hcrack, if_neg (hmass _ hlo hhi)]
      simp [hq e rfl]
  · intro hnq
    by_cases hsc : cfg.scEq sc tag.2.superCluster = true
    · simp only [hsc, if_true]
    · have hsc2 : cfg.scEq sc tag.2.superCluster = false := by simpa using hsc
      cases ep with
      | none =>
        simp only [] at hnq ⊢
        rw [if_neg hsc]
        by_cases hpt : cfg.clusterPt sc < cfg.ELE_PT_CUT_PROBE
        · rw [if_pos hpt]
        · rw [if_neg hpt]
          by_cases heta : |sc.eta| > cfg.ELE_ETA_CUT_PROBE
          · rw [if_pos heta]
          · rw [if_neg heta]
            by_cases hcrack : |sc.eta| > cfg.ELE_ETA_CRACK_LOW ∧ |sc.eta| < cfg.ELE_ETA_CRACK_HIGH
            · rw [if_pos hcrack]
            · rw [if_neg hcrack]
              by_cases hmass : cfg.sumM ⟨tag.2.pt, tag.2.eta, tag.2.phi, cfg.ELECTRON_MASS⟩
                    ⟨cfg.clusterPt sc, sc.eta, sc.phi, cfg.ELECTRON_MASS⟩ < 80
                  ∨ cfg.sumM ⟨tag.2.pt, tag.2.eta, tag.2.phi, cfg.ELECTRON_MASS⟩
                    ⟨cfg.clusterPt sc, sc.eta, sc.phi, cfg.ELECTRON_MASS⟩ > 100
              · rw [if_pos hmass]
              · exfalso
                apply hnq
                exact ⟨hsc2, not_lt.mp hpt, not_lt.mp heta, hcrack,
                  not_lt.mp (fun h => hmass (Or.inl h)), not_lt.mp (fun h => hmass (Or.inr h)),
                  fun e he => by cases he⟩
      | some e =>
        simp only [] at hnq ⊢
        rw [if_neg hsc]
        by_cases hpt : e.pt < cfg.ELE_PT_CUT_PROBE
        · rw [if_pos hpt]
        · rw [if_neg hpt]
          by_cases heta : |sc.eta| > cfg.ELE_ETA_CUT_PROBE
          · rw [if_pos heta]
          · rw [if_neg heta]
            by_cases hcrack : |sc.eta| > cfg.ELE_ETA_CRACK_LOW ∧ |sc.eta| < cfg.ELE_ETA_CRACK_HIGH
            · rw [if_pos hcrack]
            · rw [if_neg hcrack]
              by_cases hmass : cfg.sumM ⟨tag.2.pt, tag.2.eta, tag.2.phi, cfg.ELECTRON_MASS⟩
                    ⟨e.pt, e.eta, e.phi, cfg.ELECTRON_MASS⟩ < 80
                  ∨ cfg.sumM ⟨tag.2.pt, tag.2.eta, tag.2.phi, cfg.ELECTRON_MASS⟩
                    ⟨e.pt, e.eta, e.phi, cfg.ELECTRON_MASS⟩ > 100
              · rw [if_pos hmass]
              · rw [if_neg hmass]
                by_cases hch : e.charge = - tag.2.charge
                · exfalso
                  apply hnq
                  exact ⟨hsc2, not_lt.mp hpt, not_lt.mp heta, hcrack,
                    not_lt.mp (fun h => hmass (Or.inl h)), not_lt.mp (fun h => hmass (Or.inr h)),
                    fun e2 he => by cases he; exact hch⟩
                · simp [hch]

/-- A property of fill lists that holds of the empty list, is kept by
concatenation and holds of every pass of the probe loop body holds of the fills
of the electron channel. -/
theorem analyzeElectrons_fills_induct (P : List Fill → Prop) (cfg : Config) (st : State)
    (iEvent : Event) (h0 : P []) (happ : ∀ a b : List Fill, P a → P b → P (a ++ b))
    (hbody : ∀ (electrons : List Electron) (scs : List SuperCluster) (trgEvt : TriggerEvent)
      (tag : Nat × Electron) (eleProbe : Option Electron) (sc : SuperCluster),
      iEvent.electrons = some electrons → iEvent.superclusters = some scs →
      iEvent.hTrgEvt = some trgEvt → tag ∈ electrons.enum → sc ∈ scs →
      P (electronProbe cfg iEvent.luminosityBlock trgEvt electrons tag eleProbe sc).2.fills) :
    P (analyzeElectrons cfg st iEvent).fills := by
  unfold analyzeElectrons
  cases iEvent.hVertexProduct with
  | none => exact h0
  | some pvCol =>
    simp only []
    split_ifs
    · exact h0
    · cases iEvent.hTrgRes with
      | none => exact h0
      | some hTrgRes =>
        simp only []
        cases fillTriggerBits hTrgRes (updateTrigger cfg st hTrgRes).fTrigger.fRecords with
        | error e => exact h0
        | ok bits =>
          simp only []
          split_ifs
          · exact h0
          · cases hrho : iEvent.rhoHandle with
            | none => exact h0
            | some rho =>
              cases hel : iEvent.electrons with
              | none => exact h0
              | some electrons =>
                simp only []
                apply forEachS_fills_induct P _ _ h0 happ
                intro s tag htag
                unfold electronTag
                simp only []
                by_cases hid : (!tag.2.passID) = true
                · rw [if_pos hid]
                  exact h0
                · rw [if_neg hid]
                  cases hte : iEvent.hTrgEvt with
                  | none => exact h0
                  | some trgEvt =>
                    simp only []
                    by_cases hm : (!isElectronTriggerObj trgEvt tag.2.eta tag.2.phi) = true
                    · rw [if_pos hm]
                      exact h0
                    · rw [if_neg hm]
                      by_cases hpt : tag.2.pt < cfg.ELE_PT_CUT_TAG
                      · rw [if_pos hpt]
                        exact h0
                      · rw [if_neg hpt]
                        by_cases heta : |tag.2.eta| > cfg.ELE_ETA_CUT_TAG
                        · rw [if_pos heta]
                          exact h0
                        · rw [if_neg heta]
                          by_cases hcrack : |tag.2.eta| > cfg.ELE_ETA_CRACK_LOW
                              ∧ |tag.2.eta| < cfg.ELE_ETA_CRACK_HIGH
                          · rw [if_pos hcrack]
                            exact h0
                          · rw [if_neg hcrack]
                            cases hscs : iEvent.superclusters with
                            | none => exact h0
                            | some scs =>
                              simp only []
                              apply forEachS_fills_induct P _ _ h0 happ
                              intro s2 sc hsc
                              exact hbody electrons scs trgEvt tag s2 sc hel hscs hte htag hsc

/-- The muon channel: a property of fill lists that holds of the empty list, is
kept by concatenation and holds of the `h_npv` fill and of every pass of the two
probe loop bodies holds of the fills of the event. -/
theorem analyzeMuons_fills_induct (P : List Fill → Prop) (cfg : Config) (st : State)
    (iEvent : Event) (h0 : P []) (happ : ∀ a b : List Fill, P a → P b → P (a ++ b))
    (hnpv : ∀ v : Option ℚ, P [⟨.h_npv, iEvent.luminosityBlock, v⟩])
    (hmu : ∀ (pv : Vertex) (trgEvt : TriggerEvent) (tag probe : Nat × Muon),
      P (muonProbe cfg iEvent.luminosityBlock pv trgEvt tag probe).fills)
    (htrk : ∀ (muons : List Muon) (tag : Nat × Muon) (trk : Nat × Track),
      P (trackProbe cfg iEvent.luminosityBlock muons tag trk).fills) :
    P (analyzeMuons cfg st iEvent).fills := by
  rcases analyzeMuons_fills_cases cfg st iEvent with ⟨-, h⟩ | ⟨pvCol, -, h⟩
    | ⟨pvCol, muons, tracks, pv, -, -, -, h⟩
  · rw [h]
    exact h0
  · rw [h]
    exact hnpv _
  · rw [h]
    refine happ [_] _ (hnpv _) ?_
    apply forEach_fills_induct P _ _ h0 happ
    intro tag _
    unfold muonTag
    split
    · exact h0
    · exact h0
    · exact h0
    · rename_i trgEvt _ _
      have h1 := forEach_fills_induct P (muonProbe cfg iEvent.luminosityBlock pv trgEvt tag)
        muons.enum h0 happ (fun probe _ => hmu pv trgEvt tag probe)
      have h2 := forEach_fills_induct P (trackProbe cfg iEvent.luminosityBlock muons tag)
        tracks.enum h0 happ (fun trk _ => htrk muons tag trk)
      split
      · rename_i fs e heq
        rw [heq] at h1
        exact h1
      · rename_i fs heq
        rw [heq] at h1
        exact happ _ _ h1 h2

/-- A pass of the muon probe loop body fills nothing or makes the fills of one
category. -/
theorem muonProbe_fills_cases (cfg : Config) (ls : Nat) (pv : Vertex) (trgEvt : TriggerEvent)
    (tag probe : Nat × Muon) :
    (muonProbe cfg ls pv trgEvt tag probe).fills = []
    ∨ ∃ (c : Category) (m : ℚ) (tagC probeC : Bool),
        (muonProbe cfg ls pv trgEvt tag probe).fills = c.fills ls m tagC probeC := by
  obtain ⟨i, itMu1⟩ := tag
  obtain ⟨j, itMu2⟩ := probe
  by_cases h : j ≠ i ∧ passesProbeCuts cfg itMu1 itMu2
  · rw [muonProbe_of_cuts cfg ls pv trgEvt i j itMu1 itMu2 h.1 h.2, muonCategoryFills_fills]
    cases probeCategory cfg pv trgEvt itMu2 with
    | none => exact Or.inl rfl
    | some c =>
      by_cases hc : c = .cat2HLT ∧ j < i
      · simp [hc]
      · simp only [hc, if_false]
        exact Or.inr ⟨c, _, _, _, rfl⟩
  · have h2 : j = i ∨ ¬ passesProbeCuts cfg itMu1 itMu2 := by
      by_cases hij : j = i
      · exact Or.inl hij
      · exact Or.inr (fun hc => h ⟨hij, hc⟩)
    rw [muonProbe_of_not_cuts cfg ls pv trgEvt i j itMu1 itMu2 h2]
    exact Or.inl rfl

/-- A pass of the track probe loop body fills nothing or Sta-fail of one region. -/
theorem trackProbe_fills_cases (cfg : Config) (ls : Nat) (muons : List Muon) (tag : Nat × Muon)
    (trk : Nat × Track) :
    (trackProbe cfg ls muons tag trk).fills = []
    ∨ ∃ (m : ℚ) (central : Bool),
        (trackProbe cfg ls muons tag trk).fills = [massFill (staFailHist central) ls m] := by
  unfold trackProbe
  simp only []
  split_ifs
  · exact Or.inl rfl
  · exact Or.inl rfl
  · exact Or.inl rfl
  · exact Or.inl rfl
  · exact Or.inl rfl
  · exact Or.inr ⟨_, true, rfl⟩
  · exact Or.inr ⟨_, false, rfl⟩
  · exact Or.inl rfl

/-- The fills of an event are those of the muon channel followed by those of
the electron channel run on the state the muon channel leaves, or those of the
muon channel alone when it throws. -/
theorem analyze_fills (cfg : Config) (st : State) (iEvent : Event) :
    (analyze cfg st iEvent).fills = (analyzeMuons cfg st iEvent).fills
    ∨ (analyze cfg st iEvent).fills = (analyzeMuons cfg st iEvent).fills
        ++ (analyzeElectrons cfg (analyzeMuons cfg st iEvent).state iEvent).fills := by
  unfold analyze
  rcases analyzeMuons cfg st iEvent with ⟨st1, fs, exc⟩
  cases exc with
  | some e => exact Or.inl rfl
  | none => exact Or.inr rfl

theorem findMatchingElectron_window_free (cfg : Config) (a b : ℚ) :
    findMatchingElectron { cfg with MassMin_ := a, MassMax_ := b } = findMatchingElectron cfg := by
  funext itag sc ep l
  induction l with
  | nil => rfl
  | cons p rest ih =>
    obtain ⟨iele, ele⟩ := p
    unfold findMatchingElectron
    rw [ih]

theorem electronTag_window_free (cfg : Config) (a b : ℚ) :
    electronTag { cfg with MassMin_ := a, MassMax_ := b } = electronTag cfg := by
  have h : electronProbe { cfg with MassMin_ := a, MassMax_ := b } = electronProbe cfg := by
    funext ls trgEvt electrons tag ep sc
    unfold electronProbe
    rw [findMatchingElectron_window_free]
  funext ls trgEvt electrons scs ep tag
  unfold electronTag
  rw [h]

/-- The electron channel gives the same outcome whatever the mass window of the
muon channel is. -/
theorem analyzeElectrons_window_free (cfg : Config) (a b : ℚ) (st : State)
    (iEvent : Event) :
    analyzeElectrons { cfg with MassMin_ := a, MassMax_ := b } st iEvent
      = analyzeElectrons cfg st iEvent := by
  have h : updateTrigger { cfg with MassMin_ := a, MassMax_ := b } = updateTrigger cfg := rfl
  unfold analyzeElectrons
  rw [electronTag_window_free, h]
  rfl

/-- The mass window of the electron probe loop, for the mass the loop computes,
which is that of the tag with the four-vector given by the value `eleProbe` has
after the matching loop: a pass with that mass below 80 or above 100 fills
nothing, every fill of a pass carries that mass (or no value, for the yield) and
that mass is in [80, 100], every fill of the electron channel in an event is the
fill of such a pass for an electron and a supercluster of the event, and the
outcome of the electron channel does not depend on the configured `MassMin_` and
`MassMax_`. -/
theorem electronProbe_used_mass_window (cfg : Config) :
    (∀ (ls : Nat) (trgEvt : TriggerEvent) (electrons : List Electron) (tag : Nat × Electron)
        (eleProbe : Option Electron) (sc : SuperCluster),
        (eeMass cfg tag.2 (findMatchingElectron cfg tag.1 sc eleProbe electrons.enum) sc < 80
          ∨ 100 < eeMass cfg tag.2 (findMatchingElectron cfg tag.1 sc eleProbe electrons.enum) sc) →
        (electronProbe cfg ls trgEvt electrons tag eleProbe sc).2.fills = [])
    ∧ (∀ (ls : Nat) (trgEvt : TriggerEvent) (electrons : List Electron) (tag : Nat × Electron)
        (eleProbe : Option Electron) (sc : SuperCluster),
        ∀ f ∈ (electronProbe cfg ls trgEvt electrons tag eleProbe sc).2.fills,
          80 ≤ eeMass cfg tag.2 (findMatchingElectron cfg tag.1 sc eleProbe electrons.enum) sc
          ∧ eeMass cfg tag.2 (findMatchingElectron cfg tag.1 sc eleProbe electrons.enum) sc ≤ 100
          ∧ (f.value = none ∨ f.value
              = some (eeMass cfg tag.2
                  (findMatchingElectron cfg tag.1 sc eleProbe electrons.enum) sc)))
    ∧ (∀ (st : State) (iEvent : Event), ∀ f ∈ (analyzeElectrons cfg st iEvent).fills,
        ∃ (electrons : List Electron) (scs : List SuperCluster) (trgEvt : TriggerEvent)
          (tag : Nat × Electron) (eleProbe : Option Electron) (sc : SuperCluster),
          iEvent.electrons = some electrons ∧ iEvent.superclusters = some scs
          ∧ tag ∈ electrons.enum ∧ sc ∈ scs
          ∧ f ∈ (electronProbe cfg iEvent.luminosityBlock trgEvt electrons tag eleProbe sc).2.fills
          ∧ 80 ≤ eeMass cfg tag.2 (findMatchingElectron cfg tag.1 sc eleProbe electrons.enum) sc
          ∧ eeMass cfg tag.2 (findMatchingElectron cfg tag.1 sc eleProbe electrons.enum) sc ≤ 100)
    ∧ (∀ (a b : ℚ) (st : State) (iEvent : Event),
        analyzeElectrons { cfg with MassMin_ := a, MassMax_ := b } st iEvent
          = analyzeElectrons cfg st iEvent) := by
  have hpair : ∀ (ls : Nat) (trgEvt : TriggerEvent) (electrons : List Electron)
      (tag : Nat × Electron) (eleProbe : Option Electron) (sc : SuperCluster),
      ∀ f ∈ (electronProbe cfg ls trgEvt electrons tag eleProbe sc).2.fills,
        80 ≤ eeMass cfg tag.2 (findMatchingElectron cfg tag.1 sc eleProbe electrons.enum) sc
        ∧ eeMass cfg tag.2 (findMatchingElectron cfg tag.1 sc eleProbe electrons.enum) sc ≤ 100
        ∧ (f.value = none ∨ f.value
            = some (eeMass cfg tag.2
                (findMatchingElectron cfg tag.1 sc eleProbe electrons.enum) sc)) := by
    intro ls trgEvt electrons tag eleProbe sc f hf
    by_cases hq : qualifyingPair cfg tag.2
        (findMatchingElectron cfg tag.1 sc eleProbe electrons.enum) sc
    · refine ⟨hq.2.2.2.2.1, hq.2.2.2.2.2.1, ?_⟩
      rw [(electronProbe_fills cfg ls trgEvt electrons tag eleProbe sc).1 hq] at hf
      simp only [List.mem_cons] at hf
      rcases hf with rfl | hf
      · exact Or.inl rfl
      · right
        split_ifs at hf <;> simp only [List.mem_cons, List.mem_singleton, List.mem_nil_iff,
          or_false] at hf
        · rcases hf with rfl | rfl <;> rfl
        · rcases hf with rfl | rfl <;> rfl
        · rw [hf]
          rfl
    · rw [(electronProbe_fills cfg ls trgEvt electrons tag eleProbe sc).2 hq] at hf
      simp at hf
  refine ⟨?_, hpair, ?_, analyzeElectrons_window_free cfg⟩
  · intro ls trgEvt electrons tag eleProbe sc hm
    apply (congrArg Out.fills
      ((electronProbe_fills cfg ls trgEvt electrons tag eleProbe sc).2 ?_)).trans rfl
    intro hq
    rcases hm with h | h
    · exact absurd hq.2.2.2.2.1 (not_le.mpr h)
    · exact absurd hq.2.2.2.2.2.1 (not_le.mpr h)
  · intro st iEvent
    apply analyzeElectrons_fills_induct
      (fun fs => ∀ f ∈ fs,
        ∃ (electrons : List Electron) (scs : List SuperCluster) (trgEvt : TriggerEvent)
          (tag : Nat × Electron) (eleProbe : Option Electron) (sc : SuperCluster),
          iEvent.electrons = some electrons ∧ iEvent.superclusters = some scs
          ∧ tag ∈ electrons.enum ∧ sc ∈ scs
          ∧ f ∈ (electronProbe cfg iEvent.luminosityBlock trgEvt electrons tag eleProbe sc).2.fills
          ∧ 80 ≤ eeMass cfg tag.2 (findMatchingElectron cfg tag.1 sc eleProbe electrons.enum) sc
          ∧ eeMass cfg tag.2 (findMatchingElectron cfg tag.1 sc eleProbe electrons.enum) sc ≤ 100)
      cfg st iEvent
    · intro f hf
      simp at hf
    · intro a b ha hb f hf
      rcases List.mem_append.mp hf with h | h
      · exact ha f h
      · exact hb f h
    · intro electrons scs trgEvt tag eleProbe sc hel hscs _ htag hsc f hf
      have h := hpair iEvent.luminosityBlock trgEvt electrons tag eleProbe sc f hf
      exact ⟨electrons, scs, trgEvt, tag, eleProbe, sc, hel, hscs, htag, hsc, hf, h.1, h.2.1⟩

/-- C22, the code at the failing input, with the pair mass read as the sum of
the two transverse momenta (`ptSumConfig`): electrons `sampleEle0` (the tag, at
position 0) and `sampleEle1`, superclusters `sampleSC0, sampleSC1, heavySC`. The
pair of the tag with `heavySC` has mass 45 + 60 = 105, above the window, and no
electron other than the tag has `heavySC` as its cluster; yet at `heavySC` the
variable `eleProbe` still holds `sampleEle1` from the previous supercluster, the
window test is made on the mass 91 of the tag with `sampleEle1`, and the pass
fills `h_ee_yield_Z`, `h_ee_mass_HLT_pass` and `h_ee_mass_id_pass`. With a null
`eleProbe` the same pass fills nothing. Over the event `h_ee_yield_Z` gets 4
fills, one at `heavySC` for each of the two tags. -/
theorem electronProbe_stale_mass :
    findMatchingElectron ptSumConfig 0 heavySC none [sampleEle0, sampleEle1].enum = none
    ∧ eeMass ptSumConfig sampleEle0 none heavySC = 105
    ∧ (forEachS (electronProbe ptSumConfig 7 allMatch [sampleEle0, sampleEle1] (0, sampleEle0))
        none [sampleSC0, sampleSC1]).1 = some sampleEle1
    ∧ (electronProbe ptSumConfig 7 allMatch [sampleEle0, sampleEle1] (0, sampleEle0)
        (some sampleEle1) heavySC).2.fills
      = [yieldFill .h_ee_yield_Z 7, massFill .h_ee_mass_HLT_pass 7 91,
         massFill .h_ee_mass_id_pass 7 91]
    ∧ (electronProbe ptSumConfig 7 allMatch [sampleEle0, sampleEle1] (0, sampleEle0)
        none heavySC).2.fills = []
    ∧ (forEachS (electronProbe ptSumConfig 7 allMatch [sampleEle0, sampleEle1] (0, sampleEle0))
        none [sampleSC0, sampleSC1, heavySC]).2.fills
      = [yieldFill .h_ee_yield_Z 7, massFill .h_ee_mass_HLT_pass 7 91,
         massFill .h_ee_mass_id_pass 7 91,
         yieldFill .h_ee_yield_Z 7, massFill .h_ee_mass_HLT_pass 7 91,
         massFill .h_ee_mass_id_pass 7 91]
    ∧ (forEachS (electronProbe ptSumConfig 7 allMatch [sampleEle0, sampleEle1] (1, sampleEle1))
        (some sampleEle1) [sampleSC0, sampleSC1, heavySC]).2.fills
      = [yieldFill .h_ee_yield_Z 7, massFill .h_ee_mass_HLT_pass 7 91,
         massFill .h_ee_mass_id_pass 7 91,
         yieldFill .h_ee_yield_Z 7, massFill .h_ee_mass_HLT_pass 7 91,
         massFill .h_ee_mass_id_pass 7 91]
    ∧ countHist .h_ee_yield_Z
        (analyzeElectrons ptSumConfig sampleState
          { sampleEvent [sampleVertex] with
            superclusters := some [sampleSC0, sampleSC1, heavySC] }).fills = 4 := by
  refine ⟨?_, ?_, ?_, ?_, ?_, ?_, ?_, ?_⟩
  · norm_num [findMatchingElectron, List.enum, List.enumFrom, ptSumConfig, sampleConfig,
      sampleEle0, sampleEle1, sampleSC0, sampleSC1, heavySC]
  · norm_num [eeMass, probeVector, ptSumConfig, sampleConfig, sampleEle0, sampleSC0, heavySC]
  · norm_num [forEachS, electronProbe, ptSumConfig, sampleConfig, sampleEle0, sampleEle1,
      sampleSC0, sampleSC1, findMatchingElectron, List.enum, List.enumFrom, allMatch,
      isElectronTriggerObj, abs_le, abs_lt]
  · norm_num [electronProbe, ptSumConfig, sampleConfig, sampleEle0, sampleEle1, sampleSC0,
      sampleSC1, heavySC, findMatchingElectron, List.enum, List.enumFrom, allMatch,
      isElectronTriggerObj, abs_le, abs_lt]
  · norm_num [electronProbe, ptSumConfig, sampleConfig, sampleEle0, sampleEle1, sampleSC0,
      sampleSC1, heavySC, findMatchingElectron, List.enum, List.enumFrom, allMatch,
      isElectronTriggerObj, abs_le, abs_lt]
  · norm_num [forEachS, electronProbe, ptSumConfig, sampleConfig, sampleEle0, sampleEle1,
      sampleSC0, sampleSC1, heavySC, findMatchingElectron, List.enum, List.enumFrom, allMatch,
      isElectronTriggerObj, abs_le, abs_lt]
  · norm_num [forEachS, electronProbe, ptSumConfig, sampleConfig, sampleEle0, sampleEle1,
      sampleSC0, sampleSC1, heavySC, findMatchingElectron, List.enum, List.enumFrom, allMatch,
      isElectronTriggerObj, abs_le, abs_lt]
  · have hvc : vertexCount ptSumConfig [sampleVertex] = 1 := by
      norm_num [vertexCount, vertexCountStep, ptSumConfig, sampleConfig, sampleVertex]
    have hup : updateTrigger ptSumConfig sampleState (sampleResults [true, true, true])
        = ⟨1, resolvedTrigger⟩ := updateTrigger_sample ptSumConfig rfl [true, true, true] rfl
    have hbits : fillTriggerBits (sampleResults [true, true, true]) resolvedTrigger.fRecords
        = .ok [0, 1] := by rfl
    have hpass : isElectronTrigger resolvedTrigger [0, 1] = true := by decide
    have hloop : (forEachS
        (electronTag ptSumConfig 7 (some allMatch) [sampleEle0, sampleEle1]
          (some [sampleSC0, sampleSC1, heavySC])) none [sampleEle0, sampleEle1].enum).2.fills
        = [yieldFill .h_ee_yield_Z 7, massFill .h_ee_mass_HLT_pass 7 91,
           massFill .h_ee_mass_id_pass 7 91,
           yieldFill .h_ee_yield_Z 7, massFill .h_ee_mass_HLT_pass 7 91,
           massFill .h_ee_mass_id_pass 7 91,
           yieldFill .h_ee_yield_Z 7, massFill .h_ee_mass_HLT_pass 7 91,
           massFill .h_ee_mass_id_pass 7 91,
           yieldFill .h_ee_yield_Z 7, massFill .h_ee_mass_HLT_pass 7 91,
           massFill .h_ee_mass_id_pass 7 91] := by
      norm_num [forEachS, electronTag, electronProbe, ptSumConfig, sampleConfig, sampleEle0,
        sampleEle1, sampleSC0, sampleSC1, heavySC, findMatchingElectron, List.enum,
        List.enumFrom, allMatch, isElectronTriggerObj, abs_le, abs_lt]
    have hfills : (analyzeElectrons ptSumConfig sampleState
        { sampleEvent [sampleVertex] with
          superclusters := some [sampleSC0, sampleSC1, heavySC] }).fills
        = (forEachS
          (electronTag ptSumConfig 7 (some allMatch) [sampleEle0, sampleEle1]
            (some [sampleSC0, sampleSC1, heavySC])) none [sampleEle0, sampleEle1].enum).2.fills := by
      unfold analyzeElectrons
      simp only [sampleEvent, hvc, hup, hbits, hpass]
      rfl
    rw [hfills, hloop]
    decide

/-! ## Muon channel: exclusive and nested efficiency legs -/

theorem Category.fills_exclusive (c : Category) (ls : Nat) (m : ℚ) (tagC probeC : Bool) :
    legsExclusive (c.fills ls m tagC probeC) := by
  cases c <;> cases tagC <;> cases probeC <;>
    simp [Category.fills, passFills, legsExclusive, legCount, countHist, massFill, yieldFill]

theorem legsExclusive_nil : legsExclusive [] := by
  simp [legsExclusive, legCount, countHist]

theorem muonProbe_exclusive (cfg : Config) (ls : Nat) (pv : Vertex) (trgEvt : TriggerEvent)
    (tag probe : Nat × Muon) : legsExclusive (muonProbe cfg ls pv trgEvt tag probe).fills := by
  rcases muonProbe_fills_cases cfg ls pv trgEvt tag probe with h | ⟨c, m, tagC, probeC, h⟩
  · rw [h]
    exact legsExclusive_nil
  · rw [h]
    exact Category.fills_exclusive c ls m tagC probeC

/-- C24: for a single tag/probe pair of the muon channel no efficiency leg
receives both a pass fill and a fail fill, in either region: this holds of the
fills of one pass of the muon probe loop body, of one pass of the track probe
loop body, and of the two role assignments of two muons taken together. -/
theorem muon_legs_exclusive (cfg : Config) (ls : Nat) (pv : Vertex) :
    (∀ (trgEvt : TriggerEvent) (tag probe : Nat × Muon),
        legsExclusive (muonProbe cfg ls pv trgEvt tag probe).fills)
    ∧ (∀ (muons : List Muon) (tag : Nat × Muon) (trk : Nat × Track),
        legsExclusive (trackProbe cfg ls muons tag trk).fills)
    ∧ (∀ (hTrgEvt : Option TriggerEvent) (a b : Nat × Muon),
        legsExclusive ((pairOut cfg ls pv hTrgEvt a b).fills
          ++ (pairOut cfg ls pv hTrgEvt b a).fills)) := by
  have hpair : ∀ (hTrgEvt : Option TriggerEvent) (a b : Nat × Muon),
      legsExclusive (pairOut cfg ls pv hTrgEvt a b).fills := by
    intro hTrgEvt a b
    unfold pairOut
    split
    · exact muonProbe_exclusive cfg ls pv _ a b
    · exact legsExclusive_nil
  refine ⟨muonProbe_exclusive cfg ls pv, ?_, ?_⟩
  · intro muons tag trk
    rcases trackProbe_fills_cases cfg ls muons tag trk with h | ⟨m, central, h⟩
    · rw [h]
      exact legsExclusive_nil
    · rw [h]
      cases central <;>
        simp [legsExclusive, legCount, countHist, massFill, staFailHist]
  · intro hTrgEvt a b
    obtain ⟨i, muA⟩ := a
    obtain ⟨j, muB⟩ := b
    by_cases hij : i = j
    · subst hij
      have h1 : (pairOut cfg ls pv hTrgEvt (i, muA) (i, muB)).fills = [] := by
        unfold pairOut
        split
        · rw [muonProbe_self]
        · rfl
      rw [h1, List.nil_append]
      exact hpair hTrgEvt (i, muB) (i, muA)
    · rcases pairOut_swap_nil cfg ls pv hTrgEvt i j muA muB hij with h | h
      · rw [h, List.nil_append]
        exact hpair hTrgEvt (j, muB) (i, muA)
      · rw [h, List.append_nil]
        exact hpair hTrgEvt (i, muA) (j, muB)

theorem histEntries_append (h : Hist) (a b : List Fill) :
    histEntries h (a ++ b) = histEntries h a ++ histEntries h b := by
  simp [histEntries, List.filter_append]

theorem perm_append_nest {α : Type} (a1 a2 b1 b2 c1 c2 : List α) (h1 : a1.Perm (b1 ++ c1))
    (h2 : a2.Perm (b2 ++ c2)) : (a1 ++ a2).Perm ((b1 ++ b2) ++ (c1 ++ c2)) := by
  refine (List.Perm.append h1 h2).trans ?_
  rw [List.append_assoc, List.append_assoc]
  refine List.Perm.append_left b1 ?_
  rw [← List.append_assoc, ← List.append_assoc]
  exact List.Perm.append_right c2 List.perm_append_comm

theorem legsNested_append (a b : List Fill) (ha : legsNested a) (hb : legsNested b) :
    legsNested (a ++ b) := by
  unfold legsNested at *
  simp only [histEntries_append]
  exact ⟨perm_append_nest _ _ _ _ _ _ ha.1 hb.1, perm_append_nest _ _ _ _ _ _ ha.2.1 hb.2.1,
    perm_append_nest _ _ _ _ _ _ ha.2.2.1 hb.2.2.1, perm_append_nest _ _ _ _ _ _ ha.2.2.2 hb.2.2.2⟩

theorem legsNested_nil : legsNested [] := by
  simp [legsNested, histEntries]

theorem Category.fills_nested (c : Category) (ls : Nat) (m : ℚ) (tagC probeC : Bool) :
    legsNested (c.fills ls m tagC probeC) := by
  cases c <;> cases tagC <;> cases probeC <;>
    simp [Category.fills, passFills, legsNested, histEntries, massFill, yieldFill]

/-- The electron channel fills none of the histograms of the muon efficiency legs. -/
theorem analyzeElectrons_legs_nil (cfg : Config) (st : State) (iEvent : Event) :
    ∀ h ∈ [Hist.h_mass_HLT_pass_central, Hist.h_mass_HLT_pass_forward,
        Hist.h_mass_HLT_fail_central, Hist.h_mass_HLT_fail_forward,
        Hist.h_mass_SIT_pass_central, Hist.h_mass_SIT_pass_forward,
        Hist.h_mass_SIT_fail_central, Hist.h_mass_SIT_fail_forward,
        Hist.h_mass_Sta_pass_central, Hist.h_mass_Sta_pass_forward],
      histEntries h (analyzeElectrons cfg st iEvent).fills = [] := by
  apply analyzeElectrons_fills_induct
    (fun fs => ∀ h ∈ [Hist.h_mass_HLT_pass_central, Hist.h_mass_HLT_pass_forward,
        Hist.h_mass_HLT_fail_central, Hist.h_mass_HLT_fail_forward,
        Hist.h_mass_SIT_pass_central, Hist.h_mass_SIT_pass_forward,
        Hist.h_mass_SIT_fail_central, Hist.h_mass_SIT_fail_forward,
        Hist.h_mass_Sta_pass_central, Hist.h_mass_Sta_pass_forward], histEntries h fs = [])
  · intro h _
    rfl
  · intro a b ha hb h hh
    rw [histEntries_append, ha h hh, hb h hh]
    rfl
  · intro electrons scs trgEvt tag eleProbe sc _ _ _ _ _ h hh
    simp only [List.mem_cons, List.mem_singleton, List.mem_nil_iff, or_false] at hh
    by_cases hq : qualifyingPair cfg tag.2
        (findMatchingElectron cfg tag.1 sc eleProbe electrons.enum) sc
    · rw [(electronProbe_fills cfg _ trgEvt electrons tag eleProbe sc).1 hq]
      rcases hh with rfl | rfl | rfl | rfl | rfl | rfl | rfl | rfl | rfl | rfl <;>
        split_ifs <;> simp [histEntries, massFill, yieldFill]
    · rw [(electronProbe_fills cfg _ trgEvt electrons tag eleProbe sc).2 hq]
      rfl

/-- C25: for every event and each detector region the fills of the muon channel
nest as efficiency legs: the (lumi, mass) entries of SIT-pass are, as a
multiset, those of HLT-pass together with those of HLT-fail, and the entries of
Sta-pass those of SIT-pass together with those of SIT-fail; the same holds of the
fills of the whole event, the electron channel filling none of these histograms. -/
theorem muon_legs_nested (cfg : Config) (st : State) (iEvent : Event) :
    legsNested (analyzeMuons cfg st iEvent).fills
    ∧ legsNested (analyze cfg st iEvent).fills := by
  have hmu : ∀ st2 : State, legsNested (analyzeMuons cfg st2 iEvent).fills := by
    intro st2
    apply analyzeMuons_fills_induct legsNested cfg st2 iEvent legsNested_nil legsNested_append
    · intro v
      simp [legsNested, histEntries]
    · intro pv trgEvt tag probe
      rcases muonProbe_fills_cases cfg iEvent.luminosityBlock pv trgEvt tag probe
        with h | ⟨c, m, tagC, probeC, h⟩
      · rw [h]
        exact legsNested_nil
      · rw [h]
        exact Category.fills_nested c _ m tagC probeC
    · intro muons tag trk
      rcases trackProbe_fills_cases cfg iEvent.luminosityBlock muons tag trk
        with h | ⟨m, central, h⟩
      · rw [h]
        exact legsNested_nil
      · rw [h]
        cases central <;> simp [legsNested, histEntries, massFill, staFailHist]
  have hel : ∀ st2 : State, legsNested (analyzeElectrons cfg st2 iEvent).fills := by
    intro st2
    have h := analyzeElectrons_legs_nil cfg st2 iEvent
    unfold legsNested
    rw [h .h_mass_HLT_pass_central (by simp), h .h_mass_HLT_pass_forward (by simp),
      h .h_mass_HLT_fail_central (by simp), h .h_mass_HLT_fail_forward (by simp),
      h .h_mass_SIT_pass_central (by simp), h .h_mass_SIT_pass_forward (by simp),
      h .h_mass_SIT_fail_central (by simp), h .h_mass_SIT_fail_forward (by simp),
      h .h_mass_Sta_pass_central (by simp), h .h_mass_Sta_pass_forward (by simp)]
    simp
  refine ⟨hmu st, ?_⟩
  rcases analyze_fills cfg st iEvent with h | h
  · rw [h]
    exact hmu st
  · rw [h]
    exact legsNested_append _ _ (hmu st) (hel _)

/-! ## Trigger records: independence of the history, and the begin of a run -/

/-- The record `initHLT` leaves does not depend on the path name and index the
record had before. -/
theorem initRecord_history_free (cfg : Config) (result : TriggerResults)
    (triggerNames : TriggerNames) (rec : TriggerRecord) (name : String) (index : Nat) :
    initRecord cfg result triggerNames { rec with hltPathName := name, hltPathIndex := index }
      = initRecord cfg result triggerNames rec := rfl

theorem initRecord_initRecord (cfg : Config) (result result0 : TriggerResults)
    (triggerNames names0 : TriggerNames) (rec : TriggerRecord) :
    initRecord cfg result triggerNames (initRecord cfg result0 names0 rec)
      = initRecord cfg result triggerNames rec := rfl

theorem initHLT_initHLT (cfg : Config) (result result0 : TriggerResults)
    (triggerNames names0 : TriggerNames) (fTrigger : TTrigger) :
    initHLT cfg result triggerNames (initHLT cfg result0 names0 fTrigger)
      = initHLT cfg result triggerNames fTrigger := by
  unfold initHLT
  simp only [List.map_map]
  congr 1

/-- A record whose pattern matches no path of the menu is left unresolved, for a
menu without an empty path name and trigger results with no more entries than
the menu has paths. -/
theorem initRecord_unresolved (cfg : Config) (result : TriggerResults)
    (triggerNames : TriggerNames) (rec : TriggerRecord)
    (hsize : result.accept.length ≤ triggerNames.triggerNames.length)
    (hnames : "" ∉ triggerNames.triggerNames)
    (hno : if is_glob rec.hltPattern then
        regexMatch cfg triggerNames.triggerNames rec.hltPattern = []
      else rec.hltPattern ∉ triggerNames.triggerNames) :
    (initRecord cfg result triggerNames rec).hltPathIndex = invalidIndex
    ∧ (initRecord cfg result triggerNames rec).hltPathName
        = if is_glob rec.hltPattern then "" else rec.hltPattern := by
  have hname : (initRecord cfg result triggerNames rec).hltPathName
      = if is_glob rec.hltPattern then "" else rec.hltPattern := by
    rw [initRecord_hltPathName]
    by_cases hg : is_glob rec.hltPattern = true
    · rw [if_pos hg] at hno ⊢
      rw [if_pos hg, hno]
      rfl
    · rw [if_neg hg, if_neg hg]
  have hnotin : (initRecord cfg result triggerNames rec).hltPathName
      ∉ triggerNames.triggerNames := by
    rw [hname]
    by_cases hg : is_glob rec.hltPattern = true
    · rw [if_pos hg]
      exact hnames
    · rw [if_neg hg] at hno ⊢
      exact hno
  have hlen : triggerNames.triggerIndex (initRecord cfg result triggerNames rec).hltPathName
      = triggerNames.triggerNames.length := by
    unfold TriggerNames.triggerIndex
    exact List.indexOf_eq_length.mpr hnotin
  refine ⟨?_, hname⟩
  rw [initRecord_hltPathIndex, hlen, if_neg (by omega)]

/-- C26: `initHLT` depends only on the pattern of each record and on the menu:
the path name and index a record had before do not enter, so running it twice on
the same menu gives the records of running it once, and running it after a run
on any other menu gives the records of running it on the fresh records. After a
menu change a record whose pattern matches no path of the new menu becomes
unresolved, with the invalid index sentinel and no path name other than its own
plain pattern, for a menu without an empty path name and trigger results with no
more entries than the menu has paths. -/
theorem initHLT_history_free (cfg : Config) (result : TriggerResults)
    (triggerNames : TriggerNames) (fTrigger : TTrigger) :
    (∀ (rec : TriggerRecord) (name : String) (index : Nat),
        initRecord cfg result triggerNames { rec with hltPathName := name, hltPathIndex := index }
          = initRecord cfg result triggerNames rec)
    ∧ initHLT cfg result triggerNames (initHLT cfg result triggerNames fTrigger)
        = initHLT cfg result triggerNames fTrigger
    ∧ (∀ (result0 : TriggerResults) (names0 : TriggerNames),
        initHLT cfg result triggerNames (initHLT cfg result0 names0 fTrigger)
          = initHLT cfg result triggerNames fTrigger)
    ∧ (∀ (result0 : TriggerResults) (names0 : TriggerNames) (irec : Nat) (rec : TriggerRecord),
        (initHLT cfg result0 names0 fTrigger).fRecords[irec]? = some rec →
        result.accept.length ≤ triggerNames.triggerNames.length →
        "" ∉ triggerNames.triggerNames →
        (if is_glob rec.hltPattern then
            regexMatch cfg triggerNames.triggerNames rec.hltPattern = []
          else rec.hltPattern ∉ triggerNames.triggerNames) →
        ∃ res : TriggerRecord,
          (initHLT cfg result triggerNames (initHLT cfg result0 names0 fTrigger)).fRecords[irec]?
            = some res
          ∧ res.hltPattern = rec.hltPattern ∧ res.baconTrigBit = rec.baconTrigBit
          ∧ res.hltPathIndex = invalidIndex
          ∧ res.hltPathName = if is_glob rec.hltPattern then "" else rec.hltPattern) := by
  refine ⟨initRecord_history_free cfg result triggerNames,
    initHLT_initHLT cfg result result triggerNames triggerNames fTrigger,
    fun result0 names0 => initHLT_initHLT cfg result result0 triggerNames names0 fTrigger, ?_⟩
  intro result0 names0 irec rec hget hsize hnames hno
  have h := initRecord_unresolved cfg result triggerNames rec hsize hnames hno
  refine ⟨initRecord cfg result triggerNames rec, ?_, rfl, rfl, h.1, h.2⟩
  have hmap : (initHLT cfg result triggerNames (initHLT cfg result0 names0 fTrigger)).fRecords
      = (initHLT cfg result0 names0 fTrigger).fRecords.map (initRecord cfg result triggerNames) :=
    rfl
  rw [hmap, List.getElem?_map, hget]
  rfl

theorem initHLT_history_free_witness :
    initHLT sampleConfig (sampleResults [true, true, true]) sampleNames sampleTrigger
      = resolvedTrigger
    ∧ (initHLT sampleConfig (sampleResults [true, true, true]) sampleNames
        sampleTrigger).fRecords[0]?
      = some ⟨"HLT_IsoMu27_v*", "HLT_IsoMu27_v12", 1, 0,
          [("hltL3crIsoL1sMu22Or25L1f0L2f10QL3f27QL3trkIsoFiltered0p07", 0)]⟩
    ∧ (sampleResults [true]).accept.length ≤ otherNames.triggerNames.length
    ∧ "" ∉ otherNames.triggerNames
    ∧ is_glob "HLT_IsoMu27_v*" = true
    ∧ regexMatch sampleConfig otherNames.triggerNames "HLT_IsoMu27_v*" = []
    ∧ (∃ res : TriggerRecord,
        (initHLT sampleConfig (sampleResults [true]) otherNames
          (initHLT sampleConfig (sampleResults [true, true, true]) sampleNames
            sampleTrigger)).fRecords[0]? = some res
        ∧ res.hltPathIndex = invalidIndex ∧ res.hltPathName = "") := by
  have hres : initHLT sampleConfig (sampleResults [true, true, true]) sampleNames sampleTrigger
      = resolvedTrigger := by
    have h := updateTrigger_sample sampleConfig rfl [true, true, true] rfl
    unfold updateTrigger at h
    rw [if_pos (by decide)] at h
    exact congrArg State.fTrigger h
  have hget : (initHLT sampleConfig (sampleResults [true, true, true]) sampleNames
      sampleTrigger).fRecords[0]?
      = some ⟨"HLT_IsoMu27_v*", "HLT_IsoMu27_v12", 1, 0,
          [("hltL3crIsoL1sMu22Or25L1f0L2f10QL3f27QL3trkIsoFiltered0p07", 0)]⟩ := by
    rw [hres]
    rfl
  have hsize : (sampleResults [true]).accept.length ≤ otherNames.triggerNames.length := by
    decide
  have hnames : "" ∉ otherNames.triggerNames := by decide
  have hglob : is_glob "HLT_IsoMu27_v*" = true := by decide
  have hnone : regexMatch sampleConfig otherNames.triggerNames "HLT_IsoMu27_v*" = [] := by
    decide
  obtain ⟨res, h1, -, -, h2, h3⟩ := (initHLT_history_free sampleConfig (sampleResults [true])
    otherNames sampleTrigger).2.2.2 (sampleResults [true, true, true]) sampleNames 0 _ hget
    hsize hnames (by rw [if_pos hglob]; exact hnone)
  refine ⟨hres, hget, hsize, hnames, hglob, hnone, res, h1, h2, ?_⟩
  rw [h3, if_pos hglob]

/-- The two channels on the sample event from the state before the first event
and from the state with the resolved records. -/
theorem analyze_sampleEvent :
    analyzeMuons sampleConfig sampleState (sampleEvent [sampleVertex])
      = ⟨⟨1, resolvedTrigger⟩,
          ⟨.h_npv, 7, some 1⟩ :: Category.fills .cat2HLT 7 91 true true, none⟩
    ∧ analyzeElectrons sampleConfig ⟨1, resolvedTrigger⟩ (sampleEvent [sampleVertex])
      = ⟨⟨1, resolvedTrigger⟩,
          [yieldFill .h_ee_yield_Z 7, massFill .h_ee_mass_HLT_pass 7 91,
           massFill .h_ee_mass_id_pass 7 91,
           yieldFill .h_ee_yield_Z 7, massFill .h_ee_mass_HLT_pass 7 91,
           massFill .h_ee_mass_id_pass 7 91,
           yieldFill .h_ee_yield_Z 7, massFill .h_ee_mass_HLT_pass 7 91,
           massFill .h_ee_mass_id_pass 7 91,
           yieldFill .h_ee_yield_Z 7, massFill .h_ee_mass_HLT_pass 7 91,
           massFill .h_ee_mass_id_pass 7 91], none⟩ := by
  constructor
  · have hA : tagSelection sampleConfig sampleVertex (some allMatch) sampleMuA = .ok true := by
      norm_num [tagSelection, sampleConfig, sampleMuA, goodMuon, allMatch, passMuonID,
        passMuonIso, isMuonTriggerObj, abs_le]
    have hB : tagSelection sampleConfig sampleVertex (some allMatch) sampleMuB = .ok true := by
      norm_num [tagSelection, sampleConfig, sampleMuB, goodMuon, allMatch, passMuonID,
        passMuonIso, isMuonTriggerObj, abs_le]
    have hcuts : passesProbeCuts sampleConfig sampleMuA sampleMuB := by
      norm_num [passesProbeCuts, dilepMass, sampleConfig, sampleMuA, sampleMuB, goodMuon, abs_le]
    have h01 : muonProbe sampleConfig 7 sampleVertex allMatch (0, sampleMuA) (1, sampleMuB)
        = ⟨Category.fills .cat2HLT 7 91 true true, none⟩ := by
      rw [muonProbe_of_cuts sampleConfig 7 sampleVertex allMatch 0 1 sampleMuA sampleMuB
        (by decide) hcuts]
      norm_num [muonCategoryFills, sampleConfig, goodMuon, sampleMuA, sampleMuB, allMatch,
        passMuonID, passMuonIso, isMuonTriggerObj, isCentral, dilepMass, abs_lt, Category.fills,
        passFills]
    have h10 : (muonProbe sampleConfig 7 sampleVertex allMatch (1, sampleMuB)
        (0, sampleMuA)).fills = [] :=
      muonProbe_tag_before sampleConfig 7 sampleVertex allMatch 1 0 sampleMuB sampleMuA
        (by decide) hA
    have hev : sampleEvent [sampleVertex] = muonEvent [sampleMuA, sampleMuB] [] := rfl
    rw [hev, analyzeMuons_muonEvent [sampleMuA, sampleMuB] []
      (by simp [sampleMuA, sampleMuB, goodMuon])]
    simp only [List.enum, List.enumFrom, List.flatMap_cons, List.flatMap_nil, List.append_nil,
      tagFills, pairOut, hA, hB, muonProbe_self, h01, h10, List.nil_append, zero_add]
  · have hvc : vertexCount sampleConfig [sampleVertex] = 1 := by
      norm_num [vertexCount, vertexCountStep, sampleConfig, sampleVertex]
    have hup : updateTrigger sampleConfig ⟨1, resolvedTrigger⟩ (sampleResults [true, true, true])
        = ⟨1, resolvedTrigger⟩ := by
      unfold updateTrigger
      rw [if_neg (by decide)]
    have hbits : fillTriggerBits (sampleResults [true, true, true]) resolvedTrigger.fRecords
        = .ok [0, 1] := by rfl
    have hpass : isElectronTrigger resolvedTrigger [0, 1] = true := by decide
    have hloop : forEachS
        (electronTag sampleConfig 7 (some allMatch) [sampleEle0, sampleEle1]
          (some [sampleSC0, sampleSC1, sampleSC2])) none [sampleEle0, sampleEle1].enum
        = (some sampleEle0,
          ⟨[yieldFill .h_ee_yield_Z 7, massFill .h_ee_mass_HLT_pass 7 91,
           massFill .h_ee_mass_id_pass 7 91,
           yieldFill .h_ee_yield_Z 7, massFill .h_ee_mass_HLT_pass 7 91,
           massFill .h_ee_mass_id_pass 7 91,
           yieldFill .h_ee_yield_Z 7, massFill .h_ee_mass_HLT_pass 7 91,
           massFill .h_ee_mass_id_pass 7 91,
           yieldFill .h_ee_yield_Z 7, massFill .h_ee_mass_HLT_pass 7 91,
           massFill .h_ee_mass_id_pass 7 91], none⟩) := by
      norm_num [forEachS, electronTag, electronProbe, sampleConfig, sampleEle0, sampleEle1,
        sampleSC0, sampleSC1, sampleSC2, findMatchingElectron, List.enum, List.enumFrom, allMatch,
        isElectronTriggerObj, abs_le, abs_lt]
    unfold analyzeElectrons
    simp only [sampleEvent, hvc, hup, hbits, hpass]
    simp [hloop]

/-- C23, the code at the failing input: `dqmBeginRun` replaces the records and
leaves `fTriggerNamesID`, so for every configuration the first event of a run
whose menu id is the last seen id keeps the records of the constructor, and
`initHLT` is not run. With the unresolved records `sampleTrigger` of the
constructor: in the first run the sample event resolves the records to
`resolvedTrigger` and fills the 2HLT histograms and `h_ee_yield_Z`; after the
next `dqmBeginRun` the same event, of the same menu, reaches the trigger gate
with the records `sampleTrigger`, which are not what `initHLT` computes for its
menu, fails both trigger gates and fills `h_npv` only. -/
theorem beginRun_stale_records :
    (∀ (cfg : Config) (newTrigger old : TTrigger) (hTrgRes : TriggerResults),
        updateTrigger cfg (dqmBeginRun newTrigger ⟨hTrgRes.names.parameterSetID, old⟩) hTrgRes
          = ⟨hTrgRes.names.parameterSetID, newTrigger⟩)
    ∧ (analyze sampleConfig (dqmBeginRun sampleTrigger sampleState)
        (sampleEvent [sampleVertex])).state = ⟨1, resolvedTrigger⟩
    ∧ countHist .h_yield_Z (analyze sampleConfig (dqmBeginRun sampleTrigger sampleState)
        (sampleEvent [sampleVertex])).fills = 1
    ∧ countHist .h_ee_yield_Z (analyze sampleConfig (dqmBeginRun sampleTrigger sampleState)
        (sampleEvent [sampleVertex])).fills = 4
    ∧ initHLT sampleConfig (sampleResults [true, true, true]) sampleNames sampleTrigger
        = resolvedTrigger
    ∧ dqmBeginRun sampleTrigger ⟨1, resolvedTrigger⟩ = ⟨1, sampleTrigger⟩
    ∧ updateTrigger sampleConfig (dqmBeginRun sampleTrigger ⟨1, resolvedTrigger⟩)
        (sampleResults [true, true, true]) = ⟨1, sampleTrigger⟩
    ∧ sampleTrigger
        ≠ initHLT sampleConfig (sampleResults [true, true, true]) sampleNames sampleTrigger
    ∧ analyzeMuons sampleConfig (dqmBeginRun sampleTrigger ⟨1, resolvedTrigger⟩)
        (sampleEvent [sampleVertex]) = ⟨⟨1, sampleTrigger⟩, [⟨.h_npv, 7, some 1⟩], none⟩
    ∧ analyzeElectrons sampleConfig (dqmBeginRun sampleTrigger ⟨1, resolvedTrigger⟩)
        (sampleEvent [sampleVertex]) = ⟨⟨1, sampleTrigger⟩, [], none⟩
    ∧ analyze sampleConfig (dqmBeginRun sampleTrigger ⟨1, resolvedTrigger⟩)
        (sampleEvent [sampleVertex]) = ⟨⟨1, sampleTrigger⟩, [⟨.h_npv, 7, some 1⟩], none⟩ := by
  have hres : initHLT sampleConfig (sampleResults [true, true, true]) sampleNames sampleTrigger
      = resolvedTrigger := by
    have h := updateTrigger_sample sampleConfig rfl [true, true, true] rfl
    unfold updateTrigger at h
    rw [if_pos (by decide)] at h
    exact congrArg State.fTrigger h
  have hfirst : analyze sampleConfig (dqmBeginRun sampleTrigger sampleState)
      (sampleEvent [sampleVertex])
      = ⟨⟨1, resolvedTrigger⟩,
          (⟨.h_npv, 7, some 1⟩ :: Category.fills .cat2HLT 7 91 true true)
          ++ [yieldFill .h_ee_yield_Z 7, massFill .h_ee_mass_HLT_pass 7 91,
           massFill .h_ee_mass_id_pass 7 91,
           yieldFill .h_ee_yield_Z 7, massFill .h_ee_mass_HLT_pass 7 91,
           massFill .h_ee_mass_id_pass 7 91,
           yieldFill .h_ee_yield_Z 7, massFill .h_ee_mass_HLT_pass 7 91,
           massFill .h_ee_mass_id_pass 7 91,
           yieldFill .h_ee_yield_Z 7, massFill .h_ee_mass_HLT_pass 7 91,
           massFill .h_ee_mass_id_pass 7 91], none⟩ := by
    have h0 : dqmBeginRun sampleTrigger sampleState = sampleState := rfl
    unfold analyze
    rw [h0, analyze_sampleEvent.1]
    simp only [analyze_sampleEvent.2]
  have hvs : vertexScan sampleConfig [sampleVertex] = (some sampleVertex, 1) := by
    norm_num [vertexScan, vertexStep, sampleConfig, sampleVertex]
  have hvc : vertexCount sampleConfig [sampleVertex] = 1 := by
    norm_num [vertexCount, vertexCountStep, sampleConfig, sampleVertex]
  have hgen : ∀ (cfg : Config) (newTrigger old : TTrigger) (hTrgRes : TriggerResults),
      updateTrigger cfg (dqmBeginRun newTrigger ⟨hTrgRes.names.parameterSetID, old⟩) hTrgRes
        = ⟨hTrgRes.names.parameterSetID, newTrigger⟩ := by
    intro cfg newTrigger old hTrgRes
    unfold updateTrigger dqmBeginRun
    simp
  have hup : updateTrigger sampleConfig (dqmBeginRun sampleTrigger ⟨1, resolvedTrigger⟩)
      (sampleResults [true, true, true]) = ⟨1, sampleTrigger⟩ :=
    hgen sampleConfig sampleTrigger resolvedTrigger (sampleResults [true, true, true])
  have hbits : fillTriggerBits (sampleResults [true, true, true]) sampleTrigger.fRecords
      = .ok [] := by rfl
  have hmuT : isMuonTrigger sampleTrigger [] = false := by decide
  have helT : isElectronTrigger sampleTrigger [] = false := by decide
  have hmu : analyzeMuons sampleConfig (dqmBeginRun sampleTrigger ⟨1, resolvedTrigger⟩)
      (sampleEvent [sampleVertex]) = ⟨⟨1, sampleTrigger⟩, [⟨.h_npv, 7, some 1⟩], none⟩ := by
    unfold analyzeMuons
    simp only [sampleEvent, hvs, hup, hbits, hmuT]
    simp
  have hel : ∀ st : State, st = ⟨1, sampleTrigger⟩ →
      analyzeElectrons sampleConfig st (sampleEvent [sampleVertex])
        = ⟨⟨1, sampleTrigger⟩, [], none⟩ := by
    intro st hst
    have hup2 : updateTrigger sampleConfig st (sampleResults [true, true, true])
        = ⟨1, sampleTrigger⟩ := by
      rw [hst]
      exact hup
    unfold analyzeElectrons
    simp only [sampleEvent, hvc, hup2, hbits, helT]
    simp
  refine ⟨hgen, ?_, ?_, ?_, hres, rfl, hup, ?_, hmu, hel _ rfl, ?_⟩
  · rw [hfirst]
  · rw [hfirst]
    decide
  · rw [hfirst]
    decide
  · rw [hres]
    decide
  · unfold analyze
    rw [hmu]
    simp only [hel ⟨1, sampleTrigger⟩ rfl]
    rfl

end ZCounting
